import Mathlib

/-! Access control of the folder / note service and the team directory.

A shallow embedding of `internal/models`, `internal/repositories`,
`internal/services/asset_service.go`, `internal/services/team_service.go`,
the user lookups of `internal/services/user_service.go` and
`pkg/redisclient/team_cache.go`.

* The database is a record of tables (lists of rows).  Every repository
  method is a function of the store; a method that writes returns the new
  store.  A GORM call can come back with a non-nil `.Error` for reasons
  other than a missing row, so the store also carries, per repository
  method, an optional injected error (`Faults`).
* `uuid.UUID` is a natural number, `uuid.Nil` is `0`; `time.Now()` and
  `uuid.New()` are read from explicit arguments.
* Go's `(value, error)` results are `Except Err value`; a service method
  that writes returns its result together with the store after the call.
* The Kafka producer is an argument of the team service; a method that
  publishes also returns the events it handed to the producer.
* The identity service is given by its answers, the Redis server by its
  keyed sets; a Go panic is an outcome of its own (`Outcome.panic`).
-/

namespace GoService

/-- Identifiers of users, teams, folders, notes and shares. -/
abbrev UUID := Nat

/-- Errors that reach a caller of the repositories and of the services. -/
inductive Err where
  /-- The error gorm.ErrRecordNotFound. -/
  | recordNotFound
  /-- Primary key violation on insert. -/
  | duplicateKey
  /-- Any other error reported by the database. -/
  | unavailable (code : Nat)
  /-- Failure of uuid.Parse. -/
  | invalidUUID
  /-- An error made with errors.New. -/
  | msg (text : String)
  deriving DecidableEq, Repr

/-- Results of type Except compare by constructor and payload. -/
instance instDecidableEqExcept {ε α : Type} [DecidableEq ε] [DecidableEq α] :
    DecidableEq (Except ε α) := fun a b =>
  match a, b with
  | .ok x, .ok y => if h : x = y then isTrue (by rw [h]) else isFalse (fun k => h (by cases k; rfl))
  | .error x, .error y =>
    if h : x = y then isTrue (by rw [h]) else isFalse (fun k => h (by cases k; rfl))
  | .ok _, .error _ => isFalse (fun k => by cases k)
  | .error _, .ok _ => isFalse (fun k => by cases k)

/-! ## internal/models -/

/-- Row of table Notes (models.Note). -/
structure Note where
  ID : UUID
  Title : String
  Content : String
  FolderID : UUID
  OwnerID : UUID
  TeamID : UUID
  CreatedAt : Nat
  UpdatedAt : Nat
  deriving DecidableEq, Repr

/-- Row of table Folders (models.Folder); Notes is the has-many association,
filled in by Preload and not a column of the row. -/
structure Folder where
  ID : UUID
  Name : String
  OwnerID : UUID
  TeamID : UUID
  CreatedAt : Nat
  UpdatedAt : Nat
  Notes : List Note
  deriving DecidableEq, Repr

/-- Row of table Shares (models.Share). -/
structure Share where
  ID : UUID
  ResourceID : UUID
  ResourceType : String
  UserID : UUID
  Permission : String
  CreatedAt : Nat
  UpdatedAt : Nat
  deriving DecidableEq, Repr

/-- Row of table Teams (models.Team). -/
structure Team where
  ID : UUID
  TeamName : String
  CreatedAt : Nat
  UpdatedAt : Nat
  deriving DecidableEq, Repr

/-- Row of table Rosters (models.Roster). -/
structure Roster where
  TeamID : UUID
  UserID : UUID
  Role : String
  deriving DecidableEq, Repr

/-- Hook Note.BeforeCreate: the identifier is replaced by a new one. -/
def Note.BeforeCreate (note : Note) (fresh : UUID) : Note :=
  { note with ID := fresh }

/-- Hook Share.BeforeCreate: the identifier is replaced by a new one. -/
def Share.BeforeCreate (share : Share) (fresh : UUID) : Share :=
  { share with ID := fresh }

/-! ## internal/dto -/

/-- Request body dto.UpdateFolderRequest. -/
structure UpdateFolderRequest where
  Name : String
  deriving DecidableEq, Repr

/-- Request body dto.CreateNoteRequest. -/
structure CreateNoteRequest where
  Title : String
  Content : String
  deriving DecidableEq, Repr

/-- Request body dto.UpdateNoteRequest. -/
structure UpdateNoteRequest where
  Title : String
  Content : String
  deriving DecidableEq, Repr

/-- Request body dto.ShareRequest. -/
structure ShareRequest where
  UserID : String
  Permission : String
  deriving DecidableEq, Repr

/-! ## The database -/

/-- Per repository method, the error the database reports when the call
fails for a reason other than a missing row (none: the call goes through). -/
structure Faults where
  getFolderByID : Option Err := none
  updateFolder : Option Err := none
  deleteFolderNotes : Option Err := none
  deleteFolderRow : Option Err := none
  createNote : Option Err := none
  getNoteByID : Option Err := none
  updateNote : Option Err := none
  deleteNote : Option Err := none
  createShare : Option Err := none
  getShare : Option Err := none
  deleteShare : Option Err := none
  isManager : Option Err := none
  isUserInTeam : Option Err := none
  getTeamAssets : Option Err := none
  getUserAssets : Option Err := none
  getUserTeamID : Option Err := none
  getUserRoleInTeam : Option Err := none
  getTeamMembers : Option Err := none
  addMemberToTeam : Option Err := none
  /-- Users whose roster row the database refuses to insert, each with the
  error it reports. -/
  addMemberToTeamFor : List (UUID × Err) := []
  createTeam : Option Err := none
  removeMemberFromTeam : Option Err := none
  deriving DecidableEq, Repr

/-- The tables of the database and the errors it injects. -/
structure Store where
  folders : List Folder := []
  notes : List Note := []
  shares : List Share := []
  teams : List Team := []
  rosters : List Roster := []
  faults : Faults := {}
  deriving DecidableEq, Repr

/-- Function uuid.Parse, for identifiers written in decimal: a non-empty
string of digits is the identifier it denotes, any other string is an
error. -/
def uuidParse (text : String) : Except Err UUID :=
  match text.data with
  | [] => .error .invalidUUID
  | c :: cs =>
    if (c :: cs).all Char.isDigit then
      .ok ((c :: cs).foldl (fun n d => 10 * n + (d.toNat - 48)) 0)
    else .error .invalidUUID

/-! ## internal/repositories/asset.go -/

namespace AssetRepository

/-- GetFolderByID: `Preload("Notes").First(&folder, "id = ?", folderID)`. -/
def GetFolderByID (s : Store) (folderID : UUID) : Except Err Folder :=
  match s.faults.getFolderByID with
  | some e => .error e
  | none =>
    match s.folders.find? (fun f => f.ID == folderID) with
    | none => .error .recordNotFound
    | some f => .ok { f with Notes := s.notes.filter (fun n => n.FolderID == f.ID) }

/-- Insert of one note by the upsert of Save (conflict target: the primary
key, column updated on conflict: folder_id): the note becomes a new row,
unless a row carries its identifier already, whose folder is then set. -/
def upsertNote (rows : List Note) (note : Note) : List Note :=
  if rows.any (fun n => n.ID == note.ID) then
    rows.map (fun n => if n.ID == note.ID then { n with FolderID := note.FolderID } else n)
  else rows ++ [note]

/-- The notes of a folder as Save hands them to Create: the foreign key is
set to the folder and the hook Note.BeforeCreate gives each note, in turn,
the next identifier of uuid.New(); the other columns are kept. -/
def createdNotes (folderID : UUID) (noteIDs : Nat → UUID) : List Note → Nat → List Note
  | [], _ => []
  | note :: rest, i =>
    ({ note with FolderID := folderID } : Note).BeforeCreate (noteIDs i) ::
      createdNotes folderID noteIDs rest (i + 1)

/-- UpdateFolder: `Save(folder)` writes every column of the row whose
primary key is folder.ID, and inserts the row when there is none.  Save also
saves the has-many association: every note in folder.Notes goes through
Create, so its identifier is replaced by a new one (noteIDs i is the i-th
answer of uuid.New() during the call) and it is inserted as one more row,
the rows it was loaded from staying where they are.  The hook works through
the pointer, so the caller's folder holds the notes under their new
identifiers afterwards: the folder after the call is returned with the
store.  All of it is one transaction. -/
def UpdateFolder (s : Store) (folder : Folder) (noteIDs : Nat → UUID) :
    Except Err (Folder × Store) :=
  match s.faults.updateFolder with
  | some e => .error e
  | none =>
    let row : Folder := { folder with Notes := [] }
    let notes := createdNotes folder.ID noteIDs folder.Notes 0
    let folders :=
      if s.folders.any (fun f => f.ID == folder.ID) then
        s.folders.map (fun f => if f.ID == folder.ID then row else f)
      else s.folders ++ [row]
    .ok ({ folder with Notes := notes },
         { s with folders := folders, notes := notes.foldl upsertNote s.notes })

/-- DeleteFolder: one transaction that deletes the notes of the folder and
then the folder row; an error in either step rolls everything back. -/
def DeleteFolder (s : Store) (folderID : UUID) : Except Err Store :=
  match s.faults.deleteFolderNotes with
  | some e => .error e
  | none =>
    let s1 : Store := { s with notes := s.notes.filter (fun n => !(n.FolderID == folderID)) }
    match s.faults.deleteFolderRow with
    | some e => .error e
    | none => .ok { s1 with folders := s1.folders.filter (fun f => !(f.ID == folderID)) }

/-- CreateNote: `Create(note)`; the BeforeCreate hook sets the identifier,
then the row is inserted.  The caller sees the identifier through the
pointer it passed, so the stored note is returned. -/
def CreateNote (s : Store) (note : Note) (fresh : UUID) : Except Err (Note × Store) :=
  let row := note.BeforeCreate fresh
  match s.faults.createNote with
  | some e => .error e
  | none =>
    if s.notes.any (fun n => n.ID == row.ID) then .error .duplicateKey
    else .ok (row, { s with notes := s.notes ++ [row] })

/-- GetNoteByID: `First(&note, "id = ?", noteID)`. -/
def GetNoteByID (s : Store) (noteID : UUID) : Except Err Note :=
  match s.faults.getNoteByID with
  | some e => .error e
  | none =>
    match s.notes.find? (fun n => n.ID == noteID) with
    | none => .error .recordNotFound
    | some n => .ok n

/-- UpdateNote: `Save(note)`. -/
def UpdateNote (s : Store) (note : Note) : Except Err Store :=
  match s.faults.updateNote with
  | some e => .error e
  | none =>
    if s.notes.any (fun n => n.ID == note.ID) then
      .ok { s with notes := s.notes.map (fun n => if n.ID == note.ID then note else n) }
    else
      .ok { s with notes := s.notes ++ [note] }

/-- DeleteNote: `Delete(&models.Note, "id = ?", noteID)`. -/
def DeleteNote (s : Store) (noteID : UUID) : Except Err Store :=
  match s.faults.deleteNote with
  | some e => .error e
  | none => .ok { s with notes := s.notes.filter (fun n => !(n.ID == noteID)) }

/-- CreateShare: `Create(share)`; the BeforeCreate hook sets the identifier,
then the row is inserted (the primary key is the only unique column). -/
def CreateShare (s : Store) (share : Share) (fresh : UUID) : Except Err Store :=
  let row := share.BeforeCreate fresh
  match s.faults.createShare with
  | some e => .error e
  | none =>
    if s.shares.any (fun sh => sh.ID == row.ID) then .error .duplicateKey
    else .ok { s with shares := s.shares ++ [row] }

/-- The row `First` picks among the rows of a query: the one with the least
primary key. -/
def firstByID (rows : List Share) : Option Share :=
  rows.foldl
    (fun acc r =>
      match acc with
      | none => some r
      | some a => if r.ID < a.ID then some r else some a)
    none

/-- Predicate of the WHERE clause of GetShare and DeleteShare. -/
def shareKey (resourceID userID : UUID) (resourceType : String) (sh : Share) : Bool :=
  sh.ResourceID == resourceID && sh.UserID == userID && sh.ResourceType == resourceType

/-- GetShare: `Where(resource_id, user_id, resource_type).First(&share)`. -/
def GetShare (s : Store) (resourceID userID : UUID) (resourceType : String) :
    Except Err Share :=
  match s.faults.getShare with
  | some e => .error e
  | none =>
    match firstByID (s.shares.filter (shareKey resourceID userID resourceType)) with
    | none => .error .recordNotFound
    | some sh => .ok sh

/-- DeleteShare: `Where(resource_id, user_id, resource_type).Delete`. -/
def DeleteShare (s : Store) (resourceID userID : UUID) (resourceType : String) :
    Except Err Store :=
  match s.faults.deleteShare with
  | some e => .error e
  | none =>
    .ok { s with shares := s.shares.filter (fun sh => !(shareKey resourceID userID resourceType sh)) }

/-- GetTeamAssets: `Preload("Notes").Where("team_id = ?", teamID).Find`. -/
def GetTeamAssets (s : Store) (teamID : UUID) : Except Err (List Folder) :=
  match s.faults.getTeamAssets with
  | some e => .error e
  | none =>
    .ok ((s.folders.filter (fun f => f.TeamID == teamID)).map (fun f =>
      { f with Notes := s.notes.filter (fun n => n.FolderID == f.ID) }))

/-- GetUserAssets: `Preload("Notes").Where("owner_id = ?", userID).Find`. -/
def GetUserAssets (s : Store) (userID : UUID) : Except Err (List Folder) :=
  match s.faults.getUserAssets with
  | some e => .error e
  | none =>
    .ok ((s.folders.filter (fun f => f.OwnerID == userID)).map (fun f =>
      { f with Notes := s.notes.filter (fun n => n.FolderID == f.ID) }))

end AssetRepository

/-! ## internal/repositories/team.go -/

namespace TeamRepository

/-- IsUserInTeam: counts the roster rows of the pair and answers
`count > 0`. -/
def IsUserInTeam (s : Store) (teamID userID : UUID) : Except Err Bool :=
  match s.faults.isUserInTeam with
  | some e => .error e
  | none =>
    .ok (decide (0 < (s.rosters.filter (fun r => r.TeamID == teamID && r.UserID == userID)).length))

/-- Modelled from the spec: ITeamRepository.IsManager is called by the asset
service, but neither its declaration nor its body is among the sources.
Section 4.2 of the specification describes is-manager(team, user) as a pure
read that is true for the roles MANAGER and MAIN_MANAGER. -/
def IsManager (s : Store) (teamID userID : UUID) : Except Err Bool :=
  match s.faults.isManager with
  | some e => .error e
  | none =>
    .ok (s.rosters.any (fun r =>
      r.TeamID == teamID && r.UserID == userID &&
        (r.Role == "MANAGER" || r.Role == "MAIN_MANAGER")))

/-- Modelled from the spec: ITeamRepository.GetUserTeamID is called by
GetUserAssets, but neither its declaration nor its body is among the
sources.  Section 4.1 of the specification lets a manager of the team of a
user list that user's assets; the model answers the team of the first roster
row of the user, and record-not-found for a user on no roster. -/
def GetUserTeamID (s : Store) (userID : UUID) : Except Err UUID :=
  match s.faults.getUserTeamID with
  | some e => .error e
  | none =>
    match s.rosters.find? (fun r => r.UserID == userID) with
    | none => .error .recordNotFound
    | some r => .ok r.TeamID

/-- GetUserRoleInTeam: `Select("role").Where(team_id, user_id).First`. -/
def GetUserRoleInTeam (s : Store) (teamID userID : UUID) : Except Err String :=
  match s.faults.getUserRoleInTeam with
  | some e => .error e
  | none =>
    match s.rosters.find? (fun r => r.TeamID == teamID && r.UserID == userID) with
    | none => .error .recordNotFound
    | some member => .ok member.Role

/-- GetTeamMembers: `Select("user_id").Where("team_id = ?", teamID).Find`;
only the user_id column is read, the other fields keep their zero value. -/
def GetTeamMembers (s : Store) (teamID : UUID) : Except Err (List Roster) :=
  match s.faults.getTeamMembers with
  | some e => .error e
  | none =>
    .ok ((s.rosters.filter (fun r => r.TeamID == teamID)).map (fun r =>
      { TeamID := 0, UserID := r.UserID, Role := "" }))

/-- AddMemberToTeam: `Create(&roster)`.  Roster declares neither a primary
key nor a unique index, so the insert goes through unless the database
reports an error. -/
def AddMemberToTeam (s : Store) (roster : Roster) : Except Err Store :=
  match s.faults.addMemberToTeam with
  | some e => .error e
  | none =>
    match s.faults.addMemberToTeamFor.find? (fun p => p.1 == roster.UserID) with
    | some p => .error p.2
    | none => .ok { s with rosters := s.rosters ++ [roster] }

end TeamRepository

/-! ## internal/services/asset_service.go -/

namespace AssetService

/-- Method AssetService.GetFolder. -/
def GetFolder (s : Store) (folderID userID : UUID) : Except Err Folder :=
  match AssetRepository.GetFolderByID s folderID with
  | .error e =>
    if e = .recordNotFound then .error (.msg "folder not found") else .error e
  | .ok folder =>
    -- Check if user is owner
    if folder.OwnerID = userID then .ok folder
    else
      -- Check if folder is shared with user
      match AssetRepository.GetShare s folderID userID "folder" with
      | .ok _ => .ok folder
      | .error _ =>
        -- Check if user is team manager
        match TeamRepository.IsManager s folder.TeamID userID with
        | .error e => .error e
        | .ok isManager =>
          if isManager then .ok folder
          else .error (.msg "you don't have access to this folder")

/-- The write check of UpdateFolder (lines 122-129) and of CreateNote (lines
177-183), the same code in both: a user other than the owner needs a share
on the folder whose permission is "write"; a failed lookup counts as no
share.  True when the method returns the write-access error. -/
def folderWriteDenied (s : Store) (folder : Folder) (folderID userID : UUID) : Bool :=
  if folder.OwnerID = userID then false
  else
    match AssetRepository.GetShare s folderID userID "folder" with
    | .error _ => true
    | .ok share => share.Permission != "write"

/-- The fields UpdateFolder writes (lines 131-136): the name when the request
has one, and the update time. -/
def applyFolderUpdate (folder : Folder) (req : UpdateFolderRequest) (now : Nat) : Folder :=
  let folder1 : Folder := if req.Name ≠ "" then { folder with Name := req.Name } else folder
  { folder1 with UpdatedAt := now }

/-- Method AssetService.UpdateFolder; noteIDs gives the answers of uuid.New()
during the call, in turn.  The folder returned is the one the repository
call has worked on. -/
def UpdateFolder (s : Store) (folderID userID : UUID) (req : UpdateFolderRequest)
    (now : Nat) (noteIDs : Nat → UUID) : Except Err Folder × Store :=
  match AssetRepository.GetFolderByID s folderID with
  | .error e =>
    if e = .recordNotFound then (.error (.msg "folder not found"), s) else (.error e, s)
  | .ok folder =>
    if folderWriteDenied s folder folderID userID then
      (.error (.msg "you don't have write access to this folder"), s)
    else
      let folder2 := applyFolderUpdate folder req now
      match AssetRepository.UpdateFolder s folder2 noteIDs with
      | .error e => (.error e, s)
      | .ok (folder3, s2) => (.ok folder3, s2)

/-- Method AssetService.DeleteFolder. -/
def DeleteFolder (s : Store) (folderID userID : UUID) : Except Err Unit × Store :=
  match AssetRepository.GetFolderByID s folderID with
  | .error e =>
    if e = .recordNotFound then (.error (.msg "folder not found"), s) else (.error e, s)
  | .ok folder =>
    let refused : Except Err Bool :=
      if folder.OwnerID ≠ userID then
        match TeamRepository.IsManager s folder.TeamID userID with
        | .error e => .error e
        | .ok isManager => .ok (!isManager)
      else .ok false
    match refused with
    | .error e => (.error e, s)
    | .ok true =>
      (.error (.msg "only the folder owner or team manager can delete this folder"), s)
    | .ok false =>
      match AssetRepository.DeleteFolder s folderID with
      | .error e => (.error e, s)
      | .ok s2 => (.ok (), s2)

/-- Method AssetService.CreateNote.  The note gets the zero TeamID: the
struct literal does not set the field. -/
def CreateNote (s : Store) (folderID ownerID : UUID) (req : CreateNoteRequest)
    (newID hookID : UUID) (created updated : Nat) : Except Err Note × Store :=
  match GetFolder s folderID ownerID with
  | .error e => (.error e, s)
  | .ok folder =>
    if folderWriteDenied s folder folderID ownerID then
      (.error (.msg "you don't have write access to this folder"), s)
    else
      let note : Note :=
        { ID := newID, FolderID := folderID, OwnerID := ownerID, Title := req.Title,
          Content := req.Content, TeamID := 0, CreatedAt := created, UpdatedAt := updated }
      match AssetRepository.CreateNote s note hookID with
      | .error e => (.error e, s)
      | .ok (row, s2) => (.ok row, s2)

/-- Method AssetService.GetNote. -/
def GetNote (s : Store) (noteID userID : UUID) : Except Err Note :=
  match AssetRepository.GetNoteByID s noteID with
  | .error e =>
    if e = .recordNotFound then .error (.msg "note not found") else .error e
  | .ok note =>
    if note.OwnerID = userID then .ok note
    else
      match AssetRepository.GetShare s noteID userID "note" with
      | .ok _ => .ok note
      | .error _ =>
        match AssetRepository.GetShare s note.FolderID userID "folder" with
        | .ok _ => .ok note
        | .error _ =>
          match AssetRepository.GetFolderByID s note.FolderID with
          | .error e => .error e
          | .ok folder =>
            match TeamRepository.IsManager s folder.TeamID userID with
            | .error e => .error e
            | .ok isManager =>
              if isManager then .ok note
              else .error (.msg "you don't have access to this note")

/-- The write check of UpdateNote (lines 257-270): a user other than the
owner passes with a "write" share on the note, and otherwise with a "write"
share on the parent folder.  True when the method returns the write-access
error. -/
def noteWriteDenied (s : Store) (note : Note) (noteID userID : UUID) : Bool :=
  if note.OwnerID = userID then false
  else
    let direct : Bool :=
      match AssetRepository.GetShare s noteID userID "note" with
      | .error _ => false
      | .ok noteShare => noteShare.Permission == "write"
    if direct then false
    else
      match AssetRepository.GetShare s note.FolderID userID "folder" with
      | .error _ => true
      | .ok folderShare => folderShare.Permission != "write"

/-- The fields UpdateNote writes (lines 272-279): title and content when the
request has them, and the update time. -/
def applyNoteUpdate (note : Note) (req : UpdateNoteRequest) (now : Nat) : Note :=
  let note1 : Note := if req.Title ≠ "" then { note with Title := req.Title } else note
  let note2 : Note := if req.Content ≠ "" then { note1 with Content := req.Content } else note1
  { note2 with UpdatedAt := now }

/-- Method AssetService.UpdateNote. -/
def UpdateNote (s : Store) (noteID userID : UUID) (req : UpdateNoteRequest)
    (now : Nat) : Except Err Note × Store :=
  match AssetRepository.GetNoteByID s noteID with
  | .error e =>
    if e = .recordNotFound then (.error (.msg "note not found"), s) else (.error e, s)
  | .ok note =>
    if noteWriteDenied s note noteID userID then
      (.error (.msg "you don't have write access to this note"), s)
    else
      let note3 := applyNoteUpdate note req now
      match AssetRepository.UpdateNote s note3 with
      | .error e => (.error e, s)
      | .ok s2 => (.ok note3, s2)

/-- Method AssetService.DeleteNote. -/
def DeleteNote (s : Store) (noteID userID : UUID) : Except Err Unit × Store :=
  match AssetRepository.GetNoteByID s noteID with
  | .error e =>
    if e = .recordNotFound then (.error (.msg "note not found"), s) else (.error e, s)
  | .ok note =>
    let refused : Except Err Bool :=
      if note.OwnerID ≠ userID then
        match AssetRepository.GetFolderByID s note.FolderID with
        | .error e => .error e
        | .ok folder =>
          if folder.OwnerID ≠ userID then
            match TeamRepository.IsManager s folder.TeamID userID with
            | .error e => .error e
            | .ok isManager => .ok (!isManager)
          else .ok false
      else .ok false
    match refused with
    | .error e => (.error e, s)
    | .ok true =>
      (.error (.msg "only the note owner, folder owner, or team manager can delete this note"), s)
    | .ok false =>
      match AssetRepository.DeleteNote s noteID with
      | .error e => (.error e, s)
      | .ok s2 => (.ok (), s2)

/-- First part of ShareResource (lines 328-354) and of RevokeShare (lines
391-417), the same code in both: the owner of the resource and the team of
its folder. -/
def resolveResource (s : Store) (resourceID : UUID) (resourceType : String) :
    Except Err (UUID × UUID) :=
  if resourceType = "folder" then
    match AssetRepository.GetFolderByID s resourceID with
    | .error _ => .error (.msg "folder not found")
    | .ok folder => .ok (folder.OwnerID, folder.TeamID)
  else if resourceType = "note" then
    match AssetRepository.GetNoteByID s resourceID with
    | .error _ => .error (.msg "note not found")
    | .ok note =>
      match AssetRepository.GetFolderByID s note.FolderID with
      | .error e => .error e
      | .ok folder => .ok (note.OwnerID, folder.TeamID)
  else .error (.msg "invalid resource type")

/-- Second part of ShareResource (lines 356-365) and of RevokeShare (lines
419-428): the caller is the owner of the resource or a manager of the team;
the refusal carries the message of the method. -/
def ownerOrManager (s : Store) (resourceOwnerID teamID ownerID : UUID) (refusal : String) :
    Except Err Unit :=
  if resourceOwnerID ≠ ownerID then
    match TeamRepository.IsManager s teamID ownerID with
    | .error e => .error e
    | .ok isManager => if !isManager then .error (.msg refusal) else .ok ()
  else .ok ()

/-- Method AssetService.ShareResource. -/
def ShareResource (s : Store) (resourceID ownerID : UUID) (resourceType : String)
    (req : ShareRequest) (hookID : UUID) (created updated : Nat) : Except Err Unit × Store :=
  match uuidParse req.UserID with
  | .error e => (.error e, s)
  | .ok targetUserID =>
    match resolveResource s resourceID resourceType with
    | .error e => (.error e, s)
    | .ok (resourceOwnerID, teamID) =>
      match ownerOrManager s resourceOwnerID teamID ownerID
          "only resource owner or team manager can share resources" with
      | .error e => (.error e, s)
      | .ok _ =>
        match TeamRepository.IsUserInTeam s teamID targetUserID with
        | .error e => (.error e, s)
        | .ok isMember =>
          if !isMember then (.error (.msg "can only share with team members"), s)
          else
            let share : Share :=
              { ID := 0, ResourceID := resourceID, ResourceType := resourceType,
                UserID := targetUserID, Permission := req.Permission,
                CreatedAt := created, UpdatedAt := updated }
            match AssetRepository.CreateShare s share hookID with
            | .error e => (.error e, s)
            | .ok s2 => (.ok (), s2)

/-- Method AssetService.RevokeShare. -/
def RevokeShare (s : Store) (resourceID ownerID targetUserID : UUID) (resourceType : String) :
    Except Err Unit × Store :=
  match resolveResource s resourceID resourceType with
  | .error e => (.error e, s)
  | .ok (resourceOwnerID, teamID) =>
    match ownerOrManager s resourceOwnerID teamID ownerID
        "only resource owner or team manager can revoke shares" with
    | .error e => (.error e, s)
    | .ok _ =>
      match AssetRepository.DeleteShare s resourceID targetUserID resourceType with
      | .error e => (.error e, s)
      | .ok s2 => (.ok (), s2)

/-- Method AssetService.GetTeamAssets. -/
def GetTeamAssets (s : Store) (teamID userID : UUID) : Except Err (List Folder) :=
  match TeamRepository.IsManager s teamID userID with
  | .error e => .error e
  | .ok isManager =>
    if !isManager then .error (.msg "only team managers can view all team assets")
    else AssetRepository.GetTeamAssets s teamID

/-- Method AssetService.GetUserAssets. -/
def GetUserAssets (s : Store) (targetUserID currentUserID : UUID) : Except Err (List Folder) :=
  match TeamRepository.GetUserTeamID s targetUserID with
  | .error e => .error e
  | .ok teamID =>
    match TeamRepository.IsManager s teamID currentUserID with
    | .error e => .error e
    | .ok isManager =>
      if !isManager && targetUserID ≠ currentUserID then
        .error (.msg "only team managers can view other users' assets")
      else AssetRepository.GetUserAssets s targetUserID

end AssetService

/-! ## internal/services/team_service.go -/

/-- Kinds of team events (constants of package kafka). -/
inductive EventKind where
  | EventMemberAdded
  | EventMemberRemoved
  | EventManagerRemoved
  deriving DecidableEq, Repr

/-- Arguments of one call of Producer.SendTeamEvent. -/
structure TeamEvent where
  Kind : EventKind
  TeamID : UUID
  ActorID : UUID
  SubjectID : UUID
  deriving DecidableEq, Repr

/-- Modelled from the spec: package kafka is not among the sources.  Section
6 of the specification describes the notification collaborator as
publish(event kind, team, actor, subject); the producer is the function that
tells, for each event, the error of sending it (none: sent). -/
abbrev Producer := TeamEvent → Option Err

/-- The four values AddMembersToTeam returns. -/
structure AddMembersResult where
  addedCount : Nat
  failedCount : Nat
  failedMembers : List UUID
  err : Option Err
  deriving DecidableEq, Repr

namespace TeamService

/-- First loop of AddMembersToTeam (lines 89-97): a user already in
existingMap is appended to failedMembers and counted, any other user gets a
MEMBER roster in validRosters. -/
def splitCandidates (teamID : UUID) (existing : List UUID) :
    List UUID → List UUID → Nat → List Roster → List UUID × Nat × List Roster
  | [], failedMembers, failedCount, validRosters => (failedMembers, failedCount, validRosters)
  | userID :: rest, failedMembers, failedCount, validRosters =>
    if existing.contains userID then
      splitCandidates teamID existing rest (failedMembers ++ [userID]) (failedCount + 1)
        validRosters
    else
      splitCandidates teamID existing rest failedMembers failedCount
        (validRosters ++ [{ TeamID := teamID, UserID := userID, Role := "MEMBER" }])

/-- Second loop of AddMembersToTeam (lines 104-109): every valid roster is
inserted; a failed insert appends the user to failedMembers and counts it. -/
def insertRosters : Store → List Roster → List UUID → Nat → Store × List UUID × Nat
  | s, [], failedMembers, failedCount => (s, failedMembers, failedCount)
  | s, roster :: rest, failedMembers, failedCount =>
    match TeamRepository.AddMemberToTeam s roster with
    | .error _ => insertRosters s rest (failedMembers ++ [roster.UserID]) (failedCount + 1)
    | .ok s2 => insertRosters s2 rest failedMembers failedCount

/-- Third loop of AddMembersToTeam (lines 112-125): with a producer, one
member-added event is sent per valid roster; the error of a send is logged
and nothing else.  The result lists the calls of SendTeamEvent with what
each returned. -/
def sendMemberAdded (producer : Option Producer) (teamID currentUserID : UUID)
    (validRosters : List Roster) : List (TeamEvent × Option Err) :=
  match producer with
  | none => []
  | some send =>
    validRosters.map (fun roster =>
      let event : TeamEvent :=
        { Kind := .EventMemberAdded, TeamID := teamID, ActorID := currentUserID,
          SubjectID := roster.UserID }
      (event, send event))

/-- Method TeamService.AddMembersToTeam: the returned values, the store
after the call and the events handed to the producer. -/
def AddMembersToTeam (s : Store) (producer : Option Producer) (teamID : UUID)
    (userIDs : List UUID) (currentUserID : UUID) :
    AddMembersResult × Store × List (TeamEvent × Option Err) :=
  let notManager : AddMembersResult :=
    { addedCount := 0, failedCount := userIDs.length, failedMembers := userIDs,
      err := some (.msg "you are not a manager") }
  match TeamRepository.GetUserRoleInTeam s teamID currentUserID with
  | .error _ => (notManager, s, [])
  | .ok currentUserRole =>
    if currentUserRole ≠ "MANAGER" ∧ currentUserRole ≠ "MAIN_MANAGER" then (notManager, s, [])
    else
      match TeamRepository.GetTeamMembers s teamID with
      | .error e =>
        ({ addedCount := 0, failedCount := userIDs.length, failedMembers := userIDs,
           err := some e }, s, [])
      | .ok existingMembers =>
        let existing := existingMembers.map (fun member => member.UserID)
        match splitCandidates teamID existing userIDs [] 0 [] with
        | (failedMembers, failedCount, validRosters) =>
          if validRosters.length = 0 then
            ({ addedCount := 0, failedCount := failedCount, failedMembers := failedMembers,
               err := none }, s, [])
          else
            match insertRosters s validRosters failedMembers failedCount with
            | (s2, failedMembers2, failedCount2) =>
              ({ addedCount := validRosters.length, failedCount := failedCount2,
                 failedMembers := failedMembers2, err := none }, s2,
                sendMemberAdded producer teamID currentUserID validRosters)

end TeamService

/-! ## Invariants of the tables -/

/-- Two share rows have the same key (resource, kind, user). -/
def sameShareKey (a b : Share) : Bool :=
  a.ResourceID == b.ResourceID && a.ResourceType == b.ResourceType && a.UserID == b.UserID

/-- At most one share row per (resource, kind, user). -/
def SharesUnique (s : Store) : Prop :=
  s.shares.Pairwise (fun a b => sameShareKey a b = false)

instance instDecidableSharesUnique (s : Store) : Decidable (SharesUnique s) := by
  unfold SharesUnique
  infer_instance

/-- The primary key of table Notes: no two rows with the same identifier. -/
def NotesKeyed (s : Store) : Prop :=
  s.notes.Pairwise (fun a b => a.ID ≠ b.ID)

instance instDecidableNotesKeyed (s : Store) : Decidable (NotesKeyed s) := by
  unfold NotesKeyed
  infer_instance

/-- At most one roster row per (team, user). -/
def RosterUnique (s : Store) : Prop :=
  s.rosters.Pairwise (fun a b => ¬ (a.TeamID = b.TeamID ∧ a.UserID = b.UserID))

instance instDecidableRosterUnique (s : Store) : Decidable (RosterUnique s) := by
  unfold RosterUnique
  infer_instance

/-! ## Example databases -/

/-- Team 1 with main manager 10, manager 11 and members 12, 13, 14.
Folder 100 (owner 12) holds note 200 (owner 12) and note 201 (owner 14).
User 13 has a read share on folder 100; user 14 has a write share on it. -/
def demoStore : Store :=
  { folders := [{ ID := 100, Name := "Specs", OwnerID := 12, TeamID := 1,
                  CreatedAt := 5, UpdatedAt := 5, Notes := [] }],
    notes := [{ ID := 200, Title := "t", Content := "c", FolderID := 100, OwnerID := 12,
                TeamID := 0, CreatedAt := 6, UpdatedAt := 6 },
              { ID := 201, Title := "u", Content := "d", FolderID := 100, OwnerID := 14,
                TeamID := 0, CreatedAt := 7, UpdatedAt := 7 }],
    shares := [{ ID := 300, ResourceID := 100, ResourceType := "folder", UserID := 13,
                 Permission := "read", CreatedAt := 8, UpdatedAt := 8 },
               { ID := 301, ResourceID := 100, ResourceType := "folder", UserID := 14,
                 Permission := "write", CreatedAt := 9, UpdatedAt := 9 }],
    teams := [{ ID := 1, TeamName := "Eng", CreatedAt := 1, UpdatedAt := 1 }],
    rosters := [{ TeamID := 1, UserID := 10, Role := "MAIN_MANAGER" },
                { TeamID := 1, UserID := 11, Role := "MANAGER" },
                { TeamID := 1, UserID := 12, Role := "MEMBER" },
                { TeamID := 1, UserID := 13, Role := "MEMBER" },
                { TeamID := 1, UserID := 14, Role := "MEMBER" }] }

/-- Folder 100 of the example database as GetFolderByID returns it. -/
def demoFolder : Folder :=
  { ID := 100, Name := "Specs", OwnerID := 12, TeamID := 1, CreatedAt := 5,
    UpdatedAt := 5, Notes := demoStore.notes }

/-- Note 200 of the example database. -/
def demoNote : Note :=
  { ID := 200, Title := "t", Content := "c", FolderID := 100, OwnerID := 12,
    TeamID := 0, CreatedAt := 6, UpdatedAt := 6 }

/-- The example database when every share lookup and every manager lookup
fails. -/
def faultyStore : Store :=
  { demoStore with
    faults := { getShare := some (.unavailable 1), isManager := some (.unavailable 2) } }

/-- The example database with one more share: user 14, who has a write
share on folder 100, gets a read share on note 200. -/
def shadowStore : Store :=
  { demoStore with
    shares := demoStore.shares ++
      [{ ID := 302, ResourceID := 200, ResourceType := "note", UserID := 14,
         Permission := "read", CreatedAt := 10, UpdatedAt := 10 }] }

/-- Share 300 of the example database: user 13 reads folder 100. -/
def demoReadShare : Share :=
  { ID := 300, ResourceID := 100, ResourceType := "folder", UserID := 13,
    Permission := "read", CreatedAt := 8, UpdatedAt := 8 }

/-- Share 301 of the example database: user 14 writes folder 100. -/
def demoWriteShare : Share :=
  { ID := 301, ResourceID := 100, ResourceType := "folder", UserID := 14,
    Permission := "write", CreatedAt := 9, UpdatedAt := 9 }

/-- The read share of user 14 on note 200 in shadowStore. -/
def shadowShare : Share :=
  { ID := 302, ResourceID := 200, ResourceType := "note", UserID := 14,
    Permission := "read", CreatedAt := 10, UpdatedAt := 10 }

/-- The example database with one more share: user 13, who has a read share
on folder 100, gets a read share on note 200 as well. -/
def readOnlyStore : Store :=
  { demoStore with
    shares := demoStore.shares ++
      [{ ID := 302, ResourceID := 200, ResourceType := "note", UserID := 13,
         Permission := "read", CreatedAt := 10, UpdatedAt := 10 }] }

/-- Note 201 of the example database. -/
def demoNote2 : Note :=
  { ID := 201, Title := "u", Content := "d", FolderID := 100, OwnerID := 14,
    TeamID := 0, CreatedAt := 7, UpdatedAt := 7 }

/-- The example database after owner 12 has shared folder 100 with member
13 for writing (share identifier 400, at times 30 and 31). -/
def sharedStore : Store :=
  { demoStore with
    shares := demoStore.shares ++
      [{ ID := 400, ResourceID := 100, ResourceType := "folder", UserID := 13,
         Permission := "write", CreatedAt := 30, UpdatedAt := 31 }] }

/-- The example database when the second step of the folder cascade, the
delete of the folder row, fails. -/
def brokenDeleteStore : Store :=
  { demoStore with faults := { deleteFolderRow := some (.unavailable 3) } }

/-- The example database when every share lookup fails. -/
def shareFaultStore : Store :=
  { demoStore with faults := { getShare := some (.unavailable 1) } }

/-- The database refuses to insert the roster row (the answer depends on the
injected errors only, not on the rows already there). -/
def insertRefused (s : Store) (roster : Roster) : Bool :=
  match TeamRepository.AddMemberToTeam s roster with
  | .error _ => true
  | .ok _ => false

/-- The user has a roster row in the team. -/
def onRoster (s : Store) (teamID userID : UUID) : Bool :=
  s.rosters.any (fun r => r.TeamID == teamID && r.UserID == userID)

/-- The MEMBER roster AddMembersToTeam builds for a user. -/
def memberRoster (teamID userID : UUID) : Roster :=
  { TeamID := teamID, UserID := userID, Role := "MEMBER" }

/-! ## Teams: internal/models/teams.go, internal/repositories/team.go and
internal/services/team_service.go -/

/-- Hook Team.BeforeCreate: a team without identifier gets a new one. -/
def Team.BeforeCreate (team : Team) (fresh : UUID) : Team :=
  if team.ID = 0 then { team with ID := fresh } else team

namespace TeamRepository

/-- CreateTeam: `Create(team)`; the hook sets the identifier, the creation
and update times are set to the time of the call, and the row is inserted
unless the identifier or the team name (a unique column) is taken.  The
caller sees the stored team through the pointer it passed. -/
def CreateTeam (s : Store) (team : Team) (fresh now : Nat) : Except Err (Team × Store) :=
  let hooked := team.BeforeCreate fresh
  let row : Team := { hooked with CreatedAt := now, UpdatedAt := now }
  match s.faults.createTeam with
  | some e => .error e
  | none =>
    if s.teams.any (fun t => t.ID == row.ID || t.TeamName == row.TeamName) then
      .error .duplicateKey
    else .ok (row, { s with teams := s.teams ++ [row] })

/-- RemoveMemberFromTeam: `Where(team_id, user_id).Delete(&models.Roster)`. -/
def RemoveMemberFromTeam (s : Store) (teamID userID : UUID) : Except Err Store :=
  match s.faults.removeMemberFromTeam with
  | some e => .error e
  | none =>
    .ok { s with
          rosters := s.rosters.filter (fun r => !(r.TeamID == teamID && r.UserID == userID)) }

end TeamRepository

/-- The three values CreateTeam returns. -/
structure CreateTeamResult where
  team : Option Team
  failedMembers : List UUID
  err : Option Err
  deriving DecidableEq, Repr

namespace TeamService

/-- Method TeamService.CreateTeam: the returned values, the store after the
call and the events handed to the producer. -/
def CreateTeam (s : Store) (producer : Option Producer) (teamName : String)
    (userIDs : List UUID) (creatorID : UUID) (fresh now : Nat) :
    CreateTeamResult × Store × List (TeamEvent × Option Err) :=
  match TeamRepository.CreateTeam s
      { ID := 0, TeamName := teamName, CreatedAt := 0, UpdatedAt := 0 } fresh now with
  | .error e => ({ team := none, failedMembers := [], err := some e }, s, [])
  | .ok (team, s1) =>
    -- Add creator as leader
    match TeamRepository.AddMemberToTeam s1
        { TeamID := team.ID, UserID := creatorID, Role := "MAIN_MANAGER" } with
    | .error e => ({ team := none, failedMembers := [], err := some e }, s1, [])
    | .ok s2 =>
      if userIDs.length = 0 then ({ team := some team, failedMembers := [], err := none }, s2, [])
      else
        match AddMembersToTeam s2 producer team.ID userIDs creatorID with
        | (added, s3, events) =>
          ({ team := some team, failedMembers := added.failedMembers, err := none }, s3, events)

/-- The one event RemoveMemberFromTeam and RemoveManagerFromTeam hand to the
producer, when there is one; the error of the send is logged and nothing
else. -/
def sendRemoval (producer : Option Producer) (kind : EventKind)
    (teamID currentUserID subjectID : UUID) : List (TeamEvent × Option Err) :=
  match producer with
  | none => []
  | some send =>
    let event : TeamEvent :=
      { Kind := kind, TeamID := teamID, ActorID := currentUserID, SubjectID := subjectID }
    [(event, send event)]

/-- Method TeamService.RemoveMemberFromTeam: the returned error, the store
after the call and the events handed to the producer. -/
def RemoveMemberFromTeam (s : Store) (producer : Option Producer)
    (teamID targetID currentUserID : UUID) :
    Option Err × Store × List (TeamEvent × Option Err) :=
  let notManager : Bool :=
    match TeamRepository.GetUserRoleInTeam s teamID currentUserID with
    | .error _ => true
    | .ok currentUserRole => currentUserRole != "MANAGER" && currentUserRole != "MAIN_MANAGER"
  if notManager then (some (.msg "you are not a manager"), s, [])
  else
    let refused : Bool :=
      match TeamRepository.GetUserRoleInTeam s teamID targetID with
      | .error _ => true
      | .ok targetUserRole => targetUserRole == "MAIN_MANAGER" || targetUserRole == "MANAGER"
    if refused then (some (.msg "cannot remove a manager or main manager"), s, [])
    else
      let events := sendRemoval producer .EventMemberRemoved teamID currentUserID targetID
      match TeamRepository.RemoveMemberFromTeam s teamID targetID with
      | .error e => (some e, s, events)
      | .ok s2 => (none, s2, events)

/-- Method TeamService.RemoveManagerFromTeam: the returned error, the store
after the call and the events handed to the producer. -/
def RemoveManagerFromTeam (s : Store) (producer : Option Producer)
    (teamID managerID currentUserID : UUID) :
    Option Err × Store × List (TeamEvent × Option Err) :=
  if managerID = currentUserID then (some (.msg "you cannot remove yourself"), s, [])
  else
    let notMain : Bool :=
      match TeamRepository.GetUserRoleInTeam s teamID currentUserID with
      | .error _ => true
      | .ok currentUserRole => currentUserRole != "MAIN_MANAGER"
    if notMain then (some (.msg "you are not the main manager"), s, [])
    else
      let notManager : Bool :=
        match TeamRepository.GetUserRoleInTeam s teamID managerID with
        | .error _ => true
        | .ok targetUserRole => targetUserRole != "MANAGER"
      if notManager then (some (.msg "target user is not a manager"), s, [])
      else
        let events := sendRemoval producer .EventManagerRemoved teamID currentUserID managerID
        match TeamRepository.RemoveMemberFromTeam s teamID managerID with
        | .error e => (some e, s, events)
        | .ok s2 => (none, s2, events)

end TeamService

/-- One call of the roster-changing methods of the team service, with its
arguments. -/
inductive TeamOp where
  | addMembers (producer : Option Producer) (teamID : UUID) (userIDs : List UUID)
      (currentUserID : UUID)
  | removeMember (producer : Option Producer) (teamID targetID currentUserID : UUID)
  | removeManager (producer : Option Producer) (teamID managerID currentUserID : UUID)

/-- The store after one call. -/
def TeamOp.apply (s : Store) : TeamOp → Store
  | .addMembers producer teamID userIDs currentUserID =>
    (TeamService.AddMembersToTeam s producer teamID userIDs currentUserID).2.1
  | .removeMember producer teamID targetID currentUserID =>
    (TeamService.RemoveMemberFromTeam s producer teamID targetID currentUserID).2.1
  | .removeManager producer teamID managerID currentUserID =>
    (TeamService.RemoveManagerFromTeam s producer teamID managerID currentUserID).2.1

/-- The store after a sequence of calls. -/
def runOps (s : Store) (ops : List TeamOp) : Store :=
  ops.foldl TeamOp.apply s

/-- The roster rows of a team with role MAIN_MANAGER. -/
def mainManagers (s : Store) (teamID : UUID) : List Roster :=
  s.rosters.filter (fun r => r.TeamID == teamID && r.Role == "MAIN_MANAGER")

/-- Every role in the roster table is one of the three of the data model. -/
def RolesKnown (s : Store) : Prop :=
  ∀ r ∈ s.rosters, r.Role = "MAIN_MANAGER" ∨ r.Role = "MANAGER" ∨ r.Role = "MEMBER"

instance instDecidableRolesKnown (s : Store) : Decidable (RolesKnown s) := by
  unfold RolesKnown
  infer_instance

/-- The example database when the database refuses the roster row of user
20. -/
def refusingStore : Store :=
  { demoStore with faults := { addMemberToTeamFor := [(20, .unavailable 7)] } }

/-- The rows that concern the leadership of team T created by C: the rows of
the team that are rows of C or carry role MAIN_MANAGER. -/
def leaderPred (T C : UUID) (r : Roster) : Bool :=
  r.TeamID == T && (r.UserID == C || r.Role == "MAIN_MANAGER")

/-- The leadership invariant of team T created by C: the one row of the team
that is a row of C or carries role MAIN_MANAGER is the MAIN_MANAGER row of
C. -/
def LeaderInv (s : Store) (T C : UUID) : Prop :=
  s.rosters.filter (leaderPred T C) = [{ TeamID := T, UserID := C, Role := "MAIN_MANAGER" }]

/-! ## internal/models/users.go and internal/services/user_service.go -/

/-- Profile of a user (models.User). -/
structure User where
  ID : UUID
  Username : String
  Email : String
  Role : String
  deriving DecidableEq, Repr

/-- The character of a decimal digit. -/
def digitChar (d : Nat) : Char :=
  Char.ofNat (48 + d)

/-- The decimal digits of a number, most significant first; the first
argument bounds the number of digits. -/
def decimalDigits : Nat → Nat → List Char
  | 0, _ => []
  | fuel + 1, n =>
    if n < 10 then [digitChar n]
    else decimalDigits fuel (n / 10) ++ [digitChar (n % 10)]

/-- Method UUID.String, for identifiers written in decimal (the inverse of
uuidParse). -/
def uuidString (id : UUID) : String :=
  String.mk (decimalDigits (id + 1) id)

/-- The text of an error (method Error, as printed by the verb %v). -/
def Err.text : Err → String
  | .recordNotFound => "record not found"
  | .duplicateKey => "duplicate key value violates unique constraint"
  | .unavailable _ => "database unavailable"
  | .invalidUUID => "invalid UUID"
  | .msg text => text

/-- Modelled from the spec: the identity service is a remote GraphQL server,
outside the sources.  Section 6 of the specification describes it as
getUser(id) and getUsers(ids), bounded-timeout remote calls.  Each field
tells what client.Run gives for the query: the text of the transport error,
or the decoded response (for one user: the user, or null when the server
reports none). -/
structure IdentityService where
  user : UUID → Except String (Option User)
  users : List UUID → Except String (List User)

/-- How a Go call ends: with a value, with an error, or with a run-time
panic. -/
inductive Outcome (α : Type) where
  | ok (value : α)
  | error (e : Err)
  | panic (reason : String)
  deriving DecidableEq, Repr

namespace UserService

/-- Method UserService.GetUserByID.  The test after the request is
`response.User == nil && response.User.ID == uuid.Nil`: with a null user the
left operand is true and the right operand reads a field through the nil
pointer; with a user the left operand is false and the test fails. -/
def GetUserByID (identity : IdentityService) (userID : UUID) : Outcome User :=
  match identity.user userID with
  | .error cause => .error (.msg ("failed to fetch user: " ++ cause))
  | .ok responseUser =>
    match responseUser with
    | none => .panic "invalid memory address or nil pointer dereference"
    | some user => .ok user

/-- Method UserService.GetUsersByIDs. -/
def GetUsersByIDs (identity : IdentityService) (userIDs : List UUID) :
    Except Err (List User) :=
  if userIDs.length = 0 then .ok []
  else
    match identity.users userIDs with
    | .error cause => .error (.msg ("failed to fetch users: " ++ cause))
    | .ok users => .ok users

/-- Method UserService.UserExists. -/
def UserExists (identity : IdentityService) (userID : UUID) : Outcome Bool :=
  match GetUserByID identity userID with
  | .panic reason => .panic reason
  | .error e =>
    if e.text = "user not found with ID: " ++ uuidString userID then .ok false
    else .error e
  | .ok _ => .ok true

end UserService

/-! ## pkg/redisclient/team_cache.go -/

/-- One set of the Redis server: its key, its members and the time to live
in seconds, when it has one. -/
structure RedisSet where
  key : String
  members : List String
  ttl : Option Nat
  deriving DecidableEq, Repr

/-- The Redis server as the cache sees it (package go-redis is a library
outside the sources): sets addressed by key, with the set semantics and the
per-key time to live section 6 of the specification describes, and the
error a command reports when the server fails (none: the command goes
through). -/
structure Redis where
  sets : List RedisSet := []
  smembersErr : Option Err := none
  execErr : Option Err := none
  deriving DecidableEq, Repr

/-- The error redis.Nil. -/
def redisNil : Err := .msg "redis: nil"

/-- A member is added to a set unless it is there already. -/
def insertNew (members : List String) (member : String) : List String :=
  if members.contains member then members else members ++ [member]

namespace Redis

/-- Command DEL. -/
def del (r : Redis) (key : String) : Redis :=
  { r with sets := r.sets.filter (fun e => !(e.key == key)) }

/-- Command SADD: the members are added to the set of the key, which is
created without time to live when there is none. -/
def sadd (r : Redis) (key : String) (members : List String) : Redis :=
  if r.sets.any (fun e => e.key == key) then
    { r with
      sets := r.sets.map (fun e =>
        if e.key == key then { e with members := members.foldl insertNew e.members } else e) }
  else
    { r with
      sets := r.sets ++ [{ key := key, members := members.foldl insertNew [], ttl := none }] }

/-- Command EXPIRE. -/
def expire (r : Redis) (key : String) (seconds : Nat) : Redis :=
  { r with
    sets := r.sets.map (fun e => if e.key == key then { e with ttl := some seconds } else e) }

/-- Command SMEMBERS: the members of the set, none for a key without set. -/
def smembers (r : Redis) (key : String) : Except Err (List String) :=
  match r.smembersErr with
  | some e => .error e
  | none =>
    match r.sets.find? (fun e => e.key == key) with
    | none => .ok []
    | some e => .ok e.members

end Redis

/-- The cache of team members (redisclient.TeamCache); client is nil when
Redis is not set up. -/
structure TeamCache where
  client : Option Redis
  deriving DecidableEq, Repr

namespace TeamCache

/-- Method TeamCache.GetTeamMembersKey. -/
def GetTeamMembersKey (teamID : UUID) : String :=
  "team:" ++ uuidString teamID ++ ":members"

/-- Conversion loop of GetMembers (lines 46-54): members that do not parse
are skipped. -/
def parseMembers : List String → List UUID
  | [] => []
  | memberStr :: rest =>
    match uuidParse memberStr with
    | .error _ => parseMembers rest
    | .ok memberID => memberID :: parseMembers rest

/-- Method TeamCache.GetMembers: the result and the cache after the call
(24 hours are 86400 seconds). -/
def GetMembers (tc : TeamCache) (teamID : UUID) : Except Err (List UUID) × TeamCache :=
  match tc.client with
  | none => (.error (.msg "Redis client not initialized"), tc)
  | some client =>
    let key := GetTeamMembersKey teamID
    match client.smembers key with
    | .error e => if e = redisNil then (.ok [], tc) else (.error e, tc)
    | .ok memberStrings =>
      (.ok (parseMembers memberStrings), { client := some (client.expire key 86400) })

/-- Method TeamCache.StoreMembers: the error and the cache after the call.
The pipeline holds DEL and, for a list that is not empty, SADD and EXPIRE;
a pipeline whose execution fails is taken to change nothing. -/
def StoreMembers (tc : TeamCache) (teamID : UUID) (userIDs : List UUID) :
    Option Err × TeamCache :=
  match tc.client with
  | none => (some (.msg "Redis client not initialized"), tc)
  | some client =>
    let key := GetTeamMembersKey teamID
    match client.execErr with
    | some e => (some e, tc)
    | none =>
      let afterDel := client.del key
      if userIDs.length > 0 then
        let members := userIDs.map uuidString
        (none, { client := some ((afterDel.sadd key members).expire key 86400) })
      else (none, { client := some afterDel })

end TeamCache

namespace TeamService

/-- First part of GetTeamMembers (lines 131-145): the users found through
the cache, when there is a cache, it answers a list that is not empty and
the identity service resolves it to a list that is not empty; and the cache
after the attempt. -/
def cachedTeamMembers (identity : IdentityService) (redisClient : Option TeamCache)
    (teamID : UUID) : Option (List User) × Option TeamCache :=
  match redisClient with
  | none => (none, none)
  | some tc =>
    match TeamCache.GetMembers tc teamID with
    | (.error _, tc1) => (none, some tc1)
    | (.ok cachedMembers, tc1) =>
      if cachedMembers.length > 0 then
        match UserService.GetUsersByIDs identity cachedMembers with
        | .error _ => (none, some tc1)
        | .ok users => if users.length > 0 then (some users, some tc1) else (none, some tc1)
      else (none, some tc1)

/-- Method TeamService.GetTeamMembers: the result and the cache after the
call. -/
def GetTeamMembers (s : Store) (identity : IdentityService)
    (redisClient : Option TeamCache) (teamID : UUID) :
    Except Err (List User) × Option TeamCache :=
  match cachedTeamMembers identity redisClient teamID with
  | (some users, cache) => (.ok users, cache)
  | (none, cache) =>
    -- If cache miss or error, fetch from DB
    match TeamRepository.GetTeamMembers s teamID with
    | .error e => (.error e, cache)
    | .ok rosters =>
      let userIDs := rosters.map (fun roster => roster.UserID)
      -- Update Redis cache
      let cache2 : Option TeamCache :=
        match cache with
        | none => none
        | some tc =>
          if userIDs.length > 0 then some (TeamCache.StoreMembers tc teamID userIDs).2
          else some tc
      match UserService.GetUsersByIDs identity userIDs with
      | .error e => (.error e, cache2)
      | .ok users => (.ok users, cache2)

end TeamService

/-- An identity service that knows the users 10 to 14 of the example
database and answers without transport error. -/
def demoIdentity : IdentityService :=
  { user := fun id =>
      if 10 ≤ id ∧ id ≤ 14 then
        .ok (some { ID := id, Username := "user", Email := "user@example.org", Role := "USER" })
      else .ok none,
    users := fun ids =>
      .ok ((ids.filter (fun id => 10 ≤ id ∧ id ≤ 14)).map (fun id =>
        { ID := id, Username := "user", Email := "user@example.org", Role := "USER" })) }

/-- An identity service that cannot be reached. -/
def downIdentity : IdentityService :=
  { user := fun _ => .error "connection refused",
    users := fun _ => .error "connection refused" }

/-- A cache whose server holds a stale set for team 1 and fails on every
command. -/
def brokenCache : TeamCache :=
  { client := some
      { sets := [{ key := TeamCache.GetTeamMembersKey 1, members := ["77"], ttl := some 5 }],
        smembersErr := some (.unavailable 8), execErr := some (.unavailable 9) } }

/-- A cache whose server works and holds a stale set for team 1. -/
def staleCache : TeamCache :=
  { client := some
      { sets := [{ key := TeamCache.GetTeamMembersKey 1, members := ["77"], ttl := some 5 }] } }

open AssetRepository TeamRepository

/-! ## What the lookups mean on a database without injected errors -/

/-- The row picked by firstByID is one of the rows. -/
theorem firstByID_mem (rows : List Share) (sh : Share) (h : firstByID rows = some sh) :
    sh ∈ rows := by
  have key : ∀ (l : List Share) (acc : Option Share) (r : Share),
      l.foldl
        (fun acc r =>
          match acc with
          | none => some r
          | some a => if r.ID < a.ID then some r else some a) acc = some r →
      r ∈ l ∨ acc = some r := by
    intro l
    induction l with
    | nil => intro acc r hr; right; simpa using hr
    | cons x xs ih =>
      intro acc r hr
      rw [List.foldl_cons] at hr
      rcases ih _ r hr with hmem | hacc
      · left; exact List.mem_cons_of_mem _ hmem
      · cases acc with
        | none =>
          simp only [Option.some.injEq] at hacc
          left; rw [hacc]; exact List.mem_cons_self _ _
        | some a =>
          by_cases hlt : x.ID < a.ID
          · simp only [hlt, if_true, Option.some.injEq] at hacc
            left; rw [hacc]; exact List.mem_cons_self _ _
          · simp only [hlt, if_false] at hacc
            right; exact hacc
  rcases key rows none sh h with hmem | hnone
  · exact hmem
  · cases hnone

/-- On a non-empty list firstByID picks a row. -/
theorem firstByID_isSome (rows : List Share) (h : rows ≠ []) :
    ∃ sh, firstByID rows = some sh := by
  have key : ∀ (l : List Share) (a : Share), ∃ sh,
      l.foldl
        (fun acc r =>
          match acc with
          | none => some r
          | some a => if r.ID < a.ID then some r else some a) (some a) = some sh := by
    intro l
    induction l with
    | nil => intro a; exact ⟨a, rfl⟩
    | cons x xs ih =>
      intro a
      rw [List.foldl_cons]
      by_cases hlt : x.ID < a.ID
      · simp only [hlt, if_true]; exact ih x
      · simp only [hlt, if_false]; exact ih a
  cases rows with
  | nil => exact absurd rfl h
  | cons x xs =>
    unfold firstByID
    rw [List.foldl_cons]
    exact key xs x

/-- Without an injected error, GetShare finds a share exactly when the table
has a row with that key. -/
theorem GetShare_ok_iff_row (s : Store) (resourceID userID : UUID) (resourceType : String)
    (hfault : s.faults.getShare = none) :
    (∃ sh, GetShare s resourceID userID resourceType = .ok sh) ↔
      ∃ sh ∈ s.shares, sh.ResourceID = resourceID ∧ sh.UserID = userID ∧
        sh.ResourceType = resourceType := by
  unfold GetShare
  rw [hfault]
  constructor
  · rintro ⟨sh, hsh⟩
    cases hfirst : firstByID (s.shares.filter (shareKey resourceID userID resourceType)) with
    | none => rw [hfirst] at hsh; cases hsh
    | some r =>
      have hmem := firstByID_mem _ _ hfirst
      rw [List.mem_filter] at hmem
      refine ⟨r, hmem.1, ?_⟩
      simpa [shareKey, and_assoc] using hmem.2
  · rintro ⟨sh, hmem, h1, h2, h3⟩
    have hne : s.shares.filter (shareKey resourceID userID resourceType) ≠ [] := by
      intro hnil
      have : sh ∈ s.shares.filter (shareKey resourceID userID resourceType) := by
        rw [List.mem_filter]
        exact ⟨hmem, by simp [shareKey, h1, h2, h3]⟩
      rw [hnil] at this
      cases this
    obtain ⟨r, hr⟩ := firstByID_isSome _ hne
    exact ⟨r, by rw [hr]⟩

/-- Without an injected error, IsManager answers true exactly when the
roster has a row of the pair with role MANAGER or MAIN_MANAGER. -/
theorem IsManager_ok_true_iff_row (s : Store) (teamID userID : UUID)
    (hfault : s.faults.isManager = none) :
    IsManager s teamID userID = .ok true ↔
      ∃ r ∈ s.rosters, r.TeamID = teamID ∧ r.UserID = userID ∧
        (r.Role = "MANAGER" ∨ r.Role = "MAIN_MANAGER") := by
  unfold IsManager
  rw [hfault]
  simp [and_assoc]

/-! ## Read access -/

/-- A failing share lookup finds no share. -/
theorem GetShare_fault (s : Store) (resourceID userID : UUID) (resourceType : String)
    (e : Err) (hfault : s.faults.getShare = some e) :
    GetShare s resourceID userID resourceType = .error e := by
  unfold GetShare
  rw [hfault]

/-- C1, as stated, fails: in shareFaultStore folder 100 is found, the manager
lookup for user 13 answers false without error and the share table holds
row 300 with key (100, "folder", 13); the share lookup fails, GetFolder
takes that as no share and refuses user 13. -/
theorem C1_share_row_counterexample :
    GetFolderByID shareFaultStore 100 = .ok demoFolder ∧
    IsManager shareFaultStore demoFolder.TeamID 13 = .ok false ∧
    (∃ sh ∈ shareFaultStore.shares,
      sh.ResourceID = 100 ∧ sh.UserID = 13 ∧ sh.ResourceType = "folder") ∧
    AssetService.GetFolder shareFaultStore 100 13 =
      .error (.msg "you don't have access to this folder") :=
  ⟨by decide, by decide, ⟨demoReadShare, by decide, by decide⟩, by decide⟩

/-- C1, amended: when folder F is found and the manager lookup does not fail,
GetFolder(F, U) returns the folder exactly when U is its owner, or the share
lookup for (F, "folder", U) finds a share, or U is a manager of the
folder's team; in every other case it returns the error
"you don't have access to this folder".  When the share lookup does not
fail, it finds a share exactly when the table has a row with that key; when
it fails, rows of the table do not count and GetFolder returns the folder
exactly to the owner and to managers. -/
theorem C1_GetFolder_access (s : Store) (F U : UUID) (f : Folder) (b : Bool)
    (hF : GetFolderByID s F = .ok f)
    (hT : IsManager s f.TeamID U = .ok b) :
    (AssetService.GetFolder s F U = .ok f ↔
        (f.OwnerID = U ∨ (∃ sh, GetShare s F U "folder" = .ok sh) ∨ b = true)) ∧
    (¬ (f.OwnerID = U ∨ (∃ sh, GetShare s F U "folder" = .ok sh) ∨ b = true) →
        AssetService.GetFolder s F U =
          .error (.msg "you don't have access to this folder")) ∧
    (s.faults.getShare = none →
      (AssetService.GetFolder s F U = .ok f ↔
        (f.OwnerID = U ∨
          (∃ sh ∈ s.shares, sh.ResourceID = F ∧ sh.UserID = U ∧ sh.ResourceType = "folder") ∨
          b = true))) ∧
    (∀ e, s.faults.getShare = some e →
      (AssetService.GetFolder s F U = .ok f ↔ (f.OwnerID = U ∨ b = true))) := by
  have hmain : (AssetService.GetFolder s F U = .ok f ↔
        (f.OwnerID = U ∨ (∃ sh, GetShare s F U "folder" = .ok sh) ∨ b = true)) ∧
      (¬ (f.OwnerID = U ∨ (∃ sh, GetShare s F U "folder" = .ok sh) ∨ b = true) →
        AssetService.GetFolder s F U =
          .error (.msg "you don't have access to this folder")) := by
    unfold AssetService.GetFolder
    rw [hF]
    by_cases ho : f.OwnerID = U
    · simp [ho]
    · cases hs : GetShare s F U "folder" with
      | ok sh => simp [ho]
      | error e => cases b <;> simp [ho, hT]
  refine ⟨hmain.1, hmain.2, ?_, ?_⟩
  · intro hfault
    rw [hmain.1, GetShare_ok_iff_row s F U "folder" hfault]
  · intro e hfault
    rw [hmain.1, GetShare_fault s F U "folder" e hfault]
    simp

/-- Witness of the amended C1: member 13 reads folder 100 of the example
database through the read share, row 300 of the share table. -/
theorem C1_GetFolder_access_witness :
    (AssetService.GetFolder demoStore 100 13 = .ok demoFolder ↔
      (demoFolder.OwnerID = 13 ∨ (∃ sh, GetShare demoStore 100 13 "folder" = .ok sh) ∨
        false = true)) ∧
    (AssetService.GetFolder demoStore 100 13 = .ok demoFolder ↔
      (demoFolder.OwnerID = 13 ∨
        (∃ sh ∈ demoStore.shares,
          sh.ResourceID = 100 ∧ sh.UserID = 13 ∧ sh.ResourceType = "folder") ∨
        false = true)) ∧
    AssetService.GetFolder demoStore 100 13 = .ok demoFolder :=
  ⟨(C1_GetFolder_access demoStore 100 13 demoFolder false (by decide) (by decide)).1,
   (C1_GetFolder_access demoStore 100 13 demoFolder false (by decide) (by decide)).2.2.1
     (by decide),
   by decide⟩

/-- C2, as stated, fails: in shareFaultStore note 200 and its folder 100 are
found, the manager lookup for user 13 answers false without error and the
share table holds row 300 with key (100, "folder", 13), the share GetNote
should inherit; the share lookups fail, GetNote takes that as no share and
refuses user 13. -/
theorem C2_inherited_share_row_counterexample :
    GetNoteByID shareFaultStore 200 = .ok demoNote ∧
    GetFolderByID shareFaultStore demoNote.FolderID = .ok demoFolder ∧
    IsManager shareFaultStore demoFolder.TeamID 13 = .ok false ∧
    (∃ sh ∈ shareFaultStore.shares,
      sh.ResourceID = demoNote.FolderID ∧ sh.UserID = 13 ∧ sh.ResourceType = "folder") ∧
    AssetService.GetNote shareFaultStore 200 13 =
      .error (.msg "you don't have access to this note") :=
  ⟨by decide, by decide, by decide, ⟨demoReadShare, by decide, by decide⟩, by decide⟩

/-- C2, amended: when note N and its parent folder are found and the manager
lookup does not fail, GetNote(N, U) returns the note exactly when U is its
owner, or the lookup for (N, "note", U) finds a share, or the lookup for
(parent folder, "folder", U) finds a share, or U is a manager of the
folder's team; in every other case it returns the error
"you don't have access to this note".  When the share lookup does not fail,
it finds a share exactly when the table has a row with that key; when it
fails, rows of the table do not count and GetNote returns the note exactly
to the owner and to managers. -/
theorem C2_GetNote_access (s : Store) (N U : UUID) (n : Note) (f : Folder) (b : Bool)
    (hN : GetNoteByID s N = .ok n)
    (hF : GetFolderByID s n.FolderID = .ok f)
    (hT : IsManager s f.TeamID U = .ok b) :
    (AssetService.GetNote s N U = .ok n ↔
        (n.OwnerID = U ∨ (∃ sh, GetShare s N U "note" = .ok sh) ∨
          (∃ sh, GetShare s n.FolderID U "folder" = .ok sh) ∨ b = true)) ∧
    (¬ (n.OwnerID = U ∨ (∃ sh, GetShare s N U "note" = .ok sh) ∨
          (∃ sh, GetShare s n.FolderID U "folder" = .ok sh) ∨ b = true) →
        AssetService.GetNote s N U =
          .error (.msg "you don't have access to this note")) ∧
    (s.faults.getShare = none →
      (AssetService.GetNote s N U = .ok n ↔
        (n.OwnerID = U ∨
          (∃ sh ∈ s.shares, sh.ResourceID = N ∧ sh.UserID = U ∧ sh.ResourceType = "note") ∨
          (∃ sh ∈ s.shares,
            sh.ResourceID = n.FolderID ∧ sh.UserID = U ∧ sh.ResourceType = "folder") ∨
          b = true))) ∧
    (∀ e, s.faults.getShare = some e →
      (AssetService.GetNote s N U = .ok n ↔ (n.OwnerID = U ∨ b = true))) := by
  have hmain : (AssetService.GetNote s N U = .ok n ↔
        (n.OwnerID = U ∨ (∃ sh, GetShare s N U "note" = .ok sh) ∨
          (∃ sh, GetShare s n.FolderID U "folder" = .ok sh) ∨ b = true)) ∧
      (¬ (n.OwnerID = U ∨ (∃ sh, GetShare s N U "note" = .ok sh) ∨
          (∃ sh, GetShare s n.FolderID U "folder" = .ok sh) ∨ b = true) →
        AssetService.GetNote s N U =
          .error (.msg "you don't have access to this note")) := by
    unfold AssetService.GetNote
    rw [hN]
    by_cases ho : n.OwnerID = U
    · simp [ho]
    · cases hs : GetShare s N U "note" with
      | ok sh => simp [ho]
      | error e =>
        cases hs2 : GetShare s n.FolderID U "folder" with
        | ok sh => simp [ho, hs2]
        | error e2 => cases b <;> simp [ho, hs2, hF, hT]
  refine ⟨hmain.1, hmain.2, ?_, ?_⟩
  · intro hfault
    rw [hmain.1, GetShare_ok_iff_row s N U "note" hfault,
      GetShare_ok_iff_row s n.FolderID U "folder" hfault]
  · intro e hfault
    rw [hmain.1, GetShare_fault s N U "note" e hfault,
      GetShare_fault s n.FolderID U "folder" e hfault]
    simp

/-- Witness of the amended C2: member 13 reads note 200 of the example
database through the read share on its folder, row 300 of the share table,
without a share on the note. -/
theorem C2_GetNote_access_witness :
    (AssetService.GetNote demoStore 200 13 = .ok demoNote ↔
      (demoNote.OwnerID = 13 ∨ (∃ sh, GetShare demoStore 200 13 "note" = .ok sh) ∨
        (∃ sh, GetShare demoStore demoNote.FolderID 13 "folder" = .ok sh) ∨ false = true)) ∧
    (AssetService.GetNote demoStore 200 13 = .ok demoNote ↔
      (demoNote.OwnerID = 13 ∨
        (∃ sh ∈ demoStore.shares,
          sh.ResourceID = 200 ∧ sh.UserID = 13 ∧ sh.ResourceType = "note") ∨
        (∃ sh ∈ demoStore.shares,
          sh.ResourceID = demoNote.FolderID ∧ sh.UserID = 13 ∧
            sh.ResourceType = "folder") ∨
        false = true)) ∧
    GetShare demoStore 200 13 "note" = .error .recordNotFound ∧
    AssetService.GetNote demoStore 200 13 = .ok demoNote :=
  ⟨(C2_GetNote_access demoStore 200 13 demoNote demoFolder false
      (by decide) (by decide) (by decide)).1,
   (C2_GetNote_access demoStore 200 13 demoNote demoFolder false
      (by decide) (by decide) (by decide)).2.2.1 (by decide),
   by decide, by decide⟩

/-! ## The owner -/

/-- C3: for a folder that is found and whose owner is U, whatever the share
table, the roster and the errors of the share and manager lookups are:
GetFolder returns the folder, and UpdateFolder, DeleteFolder and CreateNote
return what their final store write returns, so they fail only when that
write fails and then with its error.  (The write of UpdateFolder is Save on
the folder with its notes loaded, which also inserts those notes under new
identifiers.) -/
theorem C3_owner_never_rejected (s : Store) (F U : UUID) (f : Folder)
    (req : UpdateFolderRequest) (creq : CreateNoteRequest)
    (now newID hookID created updated : Nat) (noteIDs : Nat → UUID)
    (hF : GetFolderByID s F = .ok f) (hO : f.OwnerID = U) :
    AssetService.GetFolder s F U = .ok f ∧
    AssetService.UpdateFolder s F U req now noteIDs =
      (match AssetRepository.UpdateFolder s (AssetService.applyFolderUpdate f req now)
          noteIDs with
        | .ok (folder, s2) => (.ok folder, s2)
        | .error e => (.error e, s)) ∧
    (s.faults.updateFolder = none →
      ∃ folder s2, AssetService.UpdateFolder s F U req now noteIDs = (.ok folder, s2)) ∧
    AssetService.DeleteFolder s F U =
      (match AssetRepository.DeleteFolder s F with
        | .ok s2 => (.ok (), s2)
        | .error e => (.error e, s)) ∧
    AssetService.CreateNote s F U creq newID hookID created updated =
      (match AssetRepository.CreateNote s
          { ID := newID, FolderID := F, OwnerID := U, Title := creq.Title,
            Content := creq.Content, TeamID := 0, CreatedAt := created,
            UpdatedAt := updated } hookID with
        | .ok (row, s2) => (.ok row, s2)
        | .error e => (.error e, s)) := by
  have hG : AssetService.GetFolder s F U = .ok f := by
    unfold AssetService.GetFolder
    rw [hF]
    simp [hO]
  have hU : AssetService.UpdateFolder s F U req now noteIDs =
      (match AssetRepository.UpdateFolder s (AssetService.applyFolderUpdate f req now)
          noteIDs with
        | .ok (folder, s2) => (.ok folder, s2)
        | .error e => (.error e, s)) := by
    unfold AssetService.UpdateFolder
    rw [hF]
    simp only [AssetService.folderWriteDenied, hO, if_true]
    cases AssetRepository.UpdateFolder s (AssetService.applyFolderUpdate f req now)
      noteIDs <;> simp
  refine ⟨hG, hU, ?_, ?_, ?_⟩
  · intro hfault
    rw [hU]
    unfold AssetRepository.UpdateFolder
    rw [hfault]
    exact ⟨_, _, rfl⟩
  · unfold AssetService.DeleteFolder
    rw [hF]
    simp only [hO, ne_eq, not_true_eq_false, if_false]
    cases AssetRepository.DeleteFolder s F <;> simp
  · unfold AssetService.CreateNote
    rw [hG]
    simp only [AssetService.folderWriteDenied, hO, if_true]
    cases AssetRepository.CreateNote s
      { ID := newID, FolderID := F, OwnerID := U, Title := creq.Title,
        Content := creq.Content, TeamID := 0, CreatedAt := created,
        UpdatedAt := updated } hookID <;> simp

/-- Witness of C3: owner 12 on folder 100 while every share lookup and
every manager lookup fails.  UpdateFolder renames the folder; the notes 200
and 201 it was loaded with come back under the new identifiers 900 and 901
and are in the table twice. -/
theorem C3_owner_never_rejected_witness :
    GetFolderByID faultyStore 100 = .ok demoFolder ∧ demoFolder.OwnerID = 12 ∧
    AssetService.GetFolder faultyStore 100 12 = .ok demoFolder ∧
    AssetService.UpdateFolder faultyStore 100 12 ⟨"n"⟩ 20 (fun i => 900 + i) =
      (.ok { ID := 100, Name := "n", OwnerID := 12, TeamID := 1, CreatedAt := 5,
             UpdatedAt := 20,
             Notes := [{ demoNote with ID := 900 }, { demoNote2 with ID := 901 }] },
       { faultyStore with
         folders := [{ ID := 100, Name := "n", OwnerID := 12, TeamID := 1, CreatedAt := 5,
                       UpdatedAt := 20, Notes := [] }],
         notes := [demoNote, demoNote2, { demoNote with ID := 900 },
                   { demoNote2 with ID := 901 }] }) ∧
    (∃ folder s2,
      AssetService.UpdateFolder faultyStore 100 12 ⟨"n"⟩ 20 (fun i => 900 + i) =
        (.ok folder, s2)) ∧
    AssetService.DeleteFolder faultyStore 100 12 =
      (match AssetRepository.DeleteFolder faultyStore 100 with
        | .ok s2 => (.ok (), s2)
        | .error e => (.error e, faultyStore)) :=
  ⟨by decide, by decide,
   (C3_owner_never_rejected faultyStore 100 12 demoFolder ⟨"n"⟩ ⟨"a", "b"⟩ 20 1 2 21 22
      (fun i => 900 + i) (by decide) (by decide)).1,
   by decide,
   (C3_owner_never_rejected faultyStore 100 12 demoFolder ⟨"n"⟩ ⟨"a", "b"⟩ 20 1 2 21 22
      (fun i => 900 + i) (by decide) (by decide)).2.2.1 (by decide),
   (C3_owner_never_rejected faultyStore 100 12 demoFolder ⟨"n"⟩ ⟨"a", "b"⟩ 20 1 2 21 22
      (fun i => 900 + i) (by decide) (by decide)).2.2.2.1⟩

/-! ## Write access -/

/-- The note found under an identifier carries it, the lookup was not
failing, and the table has a row with it. -/
theorem GetNoteByID_ok (s : Store) (N : UUID) (n : Note) (h : GetNoteByID s N = .ok n) :
    n.ID = N ∧ n ∈ s.notes := by
  unfold GetNoteByID at h
  cases hf : s.faults.getNoteByID with
  | some e => rw [hf] at h; cases h
  | none =>
    rw [hf] at h
    cases hfind : s.notes.find? (fun n => n.ID == N) with
    | none => rw [hfind] at h; cases h
    | some m =>
      rw [hfind] at h
      simp only [Except.ok.injEq] at h
      subst h
      have h1 := List.find?_some hfind
      exact ⟨by simpa using h1, List.mem_of_find?_eq_some hfind⟩

/-- UpdateNote keeps the identifier of the note. -/
theorem applyNoteUpdate_ID (n : Note) (req : UpdateNoteRequest) (now : Nat) :
    (AssetService.applyNoteUpdate n req now).ID = n.ID := by
  unfold AssetService.applyNoteUpdate
  by_cases h1 : req.Title ≠ "" <;> by_cases h2 : req.Content ≠ "" <;> simp [h1, h2]

/-- After Save on a note that carries the looked-up identifier, the lookup
finds the saved note. -/
theorem find_after_save (l : List Note) (N : UUID) (m : Note) (hm : m.ID = N)
    (hex : ∃ x ∈ l, x.ID = N) :
    (l.map (fun n => if n.ID == N then m else n)).find? (fun n => n.ID == N) = some m := by
  induction l with
  | nil => obtain ⟨x, hx, _⟩ := hex; cases hx
  | cons y ys ih =>
    by_cases hy : y.ID = N
    · simp [hy, hm]
    · have hex2 : ∃ x ∈ ys, x.ID = N := by
        obtain ⟨x, hx, hxN⟩ := hex
        rcases List.mem_cons.mp hx with rfl | hx2
        · exact absurd hxN hy
        · exact ⟨x, hx2, hxN⟩
      simp only [List.map_cons, beq_iff_eq, hy, if_false]
      rw [List.find?_cons_of_neg _ (by simpa using hy)]
      simpa using ih hex2

/-- C4: a user who is not the owner of note N, for whom the lookup of a
share on N finds nothing, and who has a "write" share on the parent folder,
passes the access check of UpdateNote: the call returns what the store write
of the updated note returns, and when that write is not failing the call
returns the updated note and a later lookup of N finds it. -/
theorem C4_UpdateNote_inherits_folder_write (s : Store) (N U : UUID) (n : Note) (e : Err)
    (sh : Share) (req : UpdateNoteRequest) (now : Nat)
    (hN : GetNoteByID s N = .ok n) (hO : n.OwnerID ≠ U)
    (hD : GetShare s N U "note" = .error e)
    (hS : GetShare s n.FolderID U "folder" = .ok sh) (hW : sh.Permission = "write") :
    AssetService.UpdateNote s N U req now =
      (match AssetRepository.UpdateNote s (AssetService.applyNoteUpdate n req now) with
        | .ok s2 => (.ok (AssetService.applyNoteUpdate n req now), s2)
        | .error e => (.error e, s)) ∧
    (s.faults.updateNote = none →
      (AssetService.UpdateNote s N U req now).1 =
          .ok (AssetService.applyNoteUpdate n req now) ∧
      GetNoteByID (AssetService.UpdateNote s N U req now).2 N =
          .ok (AssetService.applyNoteUpdate n req now)) := by
  have hEq : AssetService.UpdateNote s N U req now =
      (match AssetRepository.UpdateNote s (AssetService.applyNoteUpdate n req now) with
        | .ok s2 => (.ok (AssetService.applyNoteUpdate n req now), s2)
        | .error e => (.error e, s)) := by
    unfold AssetService.UpdateNote
    rw [hN]
    simp only [AssetService.noteWriteDenied, hO, hD, hS, hW, if_false]
    cases AssetRepository.UpdateNote s (AssetService.applyNoteUpdate n req now) <;> simp
  refine ⟨hEq, ?_⟩
  intro hw
  obtain ⟨hid, hmem⟩ := GetNoteByID_ok s N n hN
  have hid2 : (AssetService.applyNoteUpdate n req now).ID = N := by
    rw [applyNoteUpdate_ID]; exact hid
  have hany : (s.notes.any fun x => x.ID == (AssetService.applyNoteUpdate n req now).ID) = true := by
    rw [List.any_eq_true]
    exact ⟨n, hmem, by simp [hid2, hid]⟩
  have hgf : s.faults.getNoteByID = none := by
    unfold GetNoteByID at hN
    cases hf : s.faults.getNoteByID with
    | some e => rw [hf] at hN; cases hN
    | none => rfl
  rw [hEq]
  unfold AssetRepository.UpdateNote
  rw [hw]
  simp only [hany, if_true]
  refine ⟨trivial, ?_⟩
  unfold GetNoteByID
  simp only [hgf, hid2]
  rw [find_after_save s.notes N _ hid2 ⟨n, hmem, hid⟩]

/-- Witness of C4: user 14 renames note 200 of the example database through
the write share on folder 100. -/
theorem C4_UpdateNote_inherits_folder_write_witness :
    GetNoteByID demoStore 200 = .ok demoNote ∧ demoNote.OwnerID ≠ 14 ∧
    GetShare demoStore 200 14 "note" = .error .recordNotFound ∧
    GetShare demoStore demoNote.FolderID 14 "folder" = .ok demoWriteShare ∧
    demoWriteShare.Permission = "write" ∧
    (AssetService.UpdateNote demoStore 200 14 ⟨"x", ""⟩ 50).1 =
      .ok { demoNote with Title := "x", UpdatedAt := 50 } ∧
    GetNoteByID (AssetService.UpdateNote demoStore 200 14 ⟨"x", ""⟩ 50).2 200 =
      .ok { demoNote with Title := "x", UpdatedAt := 50 } :=
  ⟨by decide, by decide, by decide, by decide, by decide,
   (C4_UpdateNote_inherits_folder_write demoStore 200 14 demoNote .recordNotFound
      demoWriteShare ⟨"x", ""⟩ 50 (by decide) (by decide) (by decide) (by decide)
      (by decide)).2 (by decide)⟩

/-- C5: a user who is not the owner of folder F and whose share on F has
permission "read" is refused by UpdateFolder and by CreateNote with
"you don't have write access to this folder", the store is left as it was,
and GetFolder returns the folder to the same user. -/
theorem C5_read_share_denies_write (s : Store) (F U : UUID) (f : Folder) (sh : Share)
    (req : UpdateFolderRequest) (creq : CreateNoteRequest)
    (now newID hookID created updated : Nat) (noteIDs : Nat → UUID)
    (hF : GetFolderByID s F = .ok f) (hO : f.OwnerID ≠ U)
    (hS : GetShare s F U "folder" = .ok sh) (hR : sh.Permission = "read") :
    AssetService.UpdateFolder s F U req now noteIDs =
      (.error (.msg "you don't have write access to this folder"), s) ∧
    AssetService.CreateNote s F U creq newID hookID created updated =
      (.error (.msg "you don't have write access to this folder"), s) ∧
    AssetService.GetFolder s F U = .ok f := by
  have hG : AssetService.GetFolder s F U = .ok f := by
    unfold AssetService.GetFolder
    rw [hF]
    simp [hO, hS]
  have hDen : AssetService.folderWriteDenied s f F U = true := by
    simp [AssetService.folderWriteDenied, hO, hS, hR]
  refine ⟨?_, ?_, hG⟩
  · unfold AssetService.UpdateFolder
    rw [hF]
    simp [hDen]
  · unfold AssetService.CreateNote
    rw [hG]
    simp [hDen]

/-- Witness of C5: user 13, who has the read share on folder 100. -/
theorem C5_read_share_denies_write_witness :
    GetFolderByID demoStore 100 = .ok demoFolder ∧ demoFolder.OwnerID ≠ 13 ∧
    GetShare demoStore 100 13 "folder" = .ok demoReadShare ∧
    demoReadShare.Permission = "read" ∧
    (AssetService.UpdateFolder demoStore 100 13 ⟨"n"⟩ 20 (fun i => 900 + i) =
      (.error (.msg "you don't have write access to this folder"), demoStore) ∧
    AssetService.CreateNote demoStore 100 13 ⟨"a", "b"⟩ 1 2 21 22 =
      (.error (.msg "you don't have write access to this folder"), demoStore) ∧
    AssetService.GetFolder demoStore 100 13 = .ok demoFolder) :=
  ⟨by decide, by decide, by decide, by decide,
   C5_read_share_denies_write demoStore 100 13 demoFolder demoReadShare ⟨"n"⟩ ⟨"a", "b"⟩
     20 1 2 21 22 (fun i => 900 + i) (by decide) (by decide) (by decide) (by decide)⟩

/-- C6, as stated, fails: in shadowStore user 14 is not the owner of note
200 and has a direct share on it with permission "read", yet UpdateNote
goes on to the share on folder 100, which is "write", and rewrites the
note. -/
theorem C6_direct_read_share_counterexample :
    GetNoteByID shadowStore 200 = .ok demoNote ∧ demoNote.OwnerID ≠ 14 ∧
    GetShare shadowStore 200 14 "note" = .ok shadowShare ∧
    shadowShare.Permission = "read" ∧
    (AssetService.UpdateNote shadowStore 200 14 ⟨"x", ""⟩ 50).1 =
      .ok { demoNote with Title := "x", UpdatedAt := 50 } ∧
    GetNoteByID (AssetService.UpdateNote shadowStore 200 14 ⟨"x", ""⟩ 50).2 200 =
      .ok { demoNote with Title := "x", UpdatedAt := 50 } := by
  decide

/-- C6, amended: for a user who is not the owner of note N and whose direct
share on N has permission "read", UpdateNote consults the share on the
parent folder.  When that lookup finds no share with permission "write" the
call is refused with "you don't have write access to this note" and the
store is left as it was; when it finds a "write" share the call returns what
the store write of the updated note returns. -/
theorem C6_direct_read_share_falls_back (s : Store) (N U : UUID) (n : Note) (sh : Share)
    (req : UpdateNoteRequest) (now : Nat)
    (hN : GetNoteByID s N = .ok n) (hO : n.OwnerID ≠ U)
    (hD : GetShare s N U "note" = .ok sh) (hR : sh.Permission = "read") :
    ((∀ fs, GetShare s n.FolderID U "folder" = .ok fs → fs.Permission ≠ "write") →
      AssetService.UpdateNote s N U req now =
        (.error (.msg "you don't have write access to this note"), s)) ∧
    ((∃ fs, GetShare s n.FolderID U "folder" = .ok fs ∧ fs.Permission = "write") →
      AssetService.UpdateNote s N U req now =
        (match AssetRepository.UpdateNote s (AssetService.applyNoteUpdate n req now) with
          | .ok s2 => (.ok (AssetService.applyNoteUpdate n req now), s2)
          | .error e => (.error e, s))) := by
  constructor
  · intro hno
    unfold AssetService.UpdateNote
    rw [hN]
    have hDen : AssetService.noteWriteDenied s n N U = true := by
      simp only [AssetService.noteWriteDenied, hO, hD, hR, if_false]
      cases hfs : GetShare s n.FolderID U "folder" with
      | error e => simp
      | ok fs => simpa using hno fs hfs
    simp [hDen]
  · rintro ⟨fs, hfs, hw⟩
    unfold AssetService.UpdateNote
    rw [hN]
    have hDen : AssetService.noteWriteDenied s n N U = false := by
      simp [AssetService.noteWriteDenied, hO, hD, hR, hfs, hw]
    simp only [hDen]
    cases AssetRepository.UpdateNote s (AssetService.applyNoteUpdate n req now) <;> simp

/-- Witness of the amended C6: user 13 with a read share on note 200 and only
a read share on folder 100 is refused. -/
theorem C6_direct_read_share_falls_back_witness :
    AssetService.UpdateNote readOnlyStore 200 13 ⟨"x", ""⟩ 50 =
      (.error (.msg "you don't have write access to this note"), readOnlyStore) :=
  (C6_direct_read_share_falls_back readOnlyStore 200 13 demoNote
      { shadowShare with UserID := 13 } ⟨"x", ""⟩ 50
      (by decide) (by decide) (by decide) (by decide)).1
    (fun fs h => by
      have h2 : GetShare readOnlyStore demoNote.FolderID 13 "folder" = .ok demoReadShare := by
        decide
      rw [h2] at h
      cases h
      decide)

/-! ## Team managers -/

/-- C7, as stated, fails: in the example database user 11 has role MANAGER
in team 1, the team of folder 100 and of its note 200, is not the owner and
holds no share; UpdateFolder, CreateNote and UpdateNote all refuse the
manager and leave the store as it was. -/
theorem C7_manager_update_counterexample :
    IsManager demoStore demoFolder.TeamID 11 = .ok true ∧
    GetFolderByID demoStore 100 = .ok demoFolder ∧
    GetNoteByID demoStore 200 = .ok demoNote ∧
    AssetService.UpdateFolder demoStore 100 11 ⟨"n"⟩ 20 (fun i => 900 + i) =
      (.error (.msg "you don't have write access to this folder"), demoStore) ∧
    AssetService.CreateNote demoStore 100 11 ⟨"a", "b"⟩ 1 2 21 22 =
      (.error (.msg "you don't have write access to this folder"), demoStore) ∧
    AssetService.UpdateNote demoStore 200 11 ⟨"x", ""⟩ 50 =
      (.error (.msg "you don't have write access to this note"), demoStore) := by
  decide

/-- C7, amended: the manager role does not pass the write check.  A user
whose role in the team of folder F is MANAGER or MAIN_MANAGER, who is not
the owner of F nor of its note N, and for whom no share lookup finds a
"write" share, is refused by UpdateFolder, CreateNote and UpdateNote with
the write-access error, and the store is left as it was (GetFolder still
returns the folder to the manager). -/
theorem C7_manager_needs_write_share (s : Store) (F U : UUID) (f : Folder)
    (hF : GetFolderByID s F = .ok f) (hM : IsManager s f.TeamID U = .ok true)
    (hO : f.OwnerID ≠ U)
    (hS : ∀ sh, GetShare s F U "folder" = .ok sh → sh.Permission ≠ "write") :
    (∀ (req : UpdateFolderRequest) (now : Nat) (noteIDs : Nat → UUID),
      AssetService.UpdateFolder s F U req now noteIDs =
        (.error (.msg "you don't have write access to this folder"), s)) ∧
    (∀ (creq : CreateNoteRequest) (newID hookID created updated : Nat),
      AssetService.CreateNote s F U creq newID hookID created updated =
        (.error (.msg "you don't have write access to this folder"), s)) ∧
    (∀ (N : UUID) (n : Note) (nreq : UpdateNoteRequest) (now : Nat),
      GetNoteByID s N = .ok n → n.FolderID = F → n.OwnerID ≠ U →
      (∀ sh, GetShare s N U "note" = .ok sh → sh.Permission ≠ "write") →
      AssetService.UpdateNote s N U nreq now =
        (.error (.msg "you don't have write access to this note"), s)) ∧
    AssetService.GetFolder s F U = .ok f := by
  have hG : AssetService.GetFolder s F U = .ok f := by
    unfold AssetService.GetFolder
    rw [hF]
    cases hs : GetShare s F U "folder" <;> simp [hO, hM]
  have hDen : AssetService.folderWriteDenied s f F U = true := by
    simp only [AssetService.folderWriteDenied, hO, if_false]
    cases hfs : GetShare s F U "folder" with
    | error e => simp
    | ok fs => simpa using hS fs hfs
  refine ⟨?_, ?_, ?_, hG⟩
  · intro req now noteIDs
    unfold AssetService.UpdateFolder
    rw [hF]
    simp [hDen]
  · intro creq newID hookID created updated
    unfold AssetService.CreateNote
    rw [hG]
    simp [hDen]
  · intro N n nreq now hN hNF hNO hNS
    have hNDen : AssetService.noteWriteDenied s n N U = true := by
      have hdirect : (match GetShare s N U "note" with
          | .error _ => false
          | .ok noteShare => noteShare.Permission == "write") = false := by
        cases hns : GetShare s N U "note" with
        | error e => simp
        | ok ns => simpa using hNS ns hns
      simp only [AssetService.noteWriteDenied, hNO, if_false, hdirect, hNF]
      cases hfs : GetShare s F U "folder" with
      | error e => simp
      | ok fs => simpa using hS fs hfs
    unfold AssetService.UpdateNote
    rw [hN]
    simp [hNDen]

/-- Witness of the amended C7: main manager 10 of team 1 on folder 100 and
note 200 of the example database. -/
theorem C7_manager_needs_write_share_witness :
    IsManager demoStore demoFolder.TeamID 10 = .ok true ∧
    AssetService.UpdateFolder demoStore 100 10 ⟨"n"⟩ 20 (fun i => 900 + i) =
      (.error (.msg "you don't have write access to this folder"), demoStore) ∧
    AssetService.CreateNote demoStore 100 10 ⟨"a", "b"⟩ 1 2 21 22 =
      (.error (.msg "you don't have write access to this folder"), demoStore) ∧
    AssetService.UpdateNote demoStore 200 10 ⟨"x", ""⟩ 50 =
      (.error (.msg "you don't have write access to this note"), demoStore) ∧
    AssetService.GetFolder demoStore 100 10 = .ok demoFolder := by
  have h := C7_manager_needs_write_share demoStore 100 10 demoFolder
    (by decide) (by decide) (by decide)
    (fun sh h => by
      have h2 : GetShare demoStore 100 10 "folder" = .error .recordNotFound := by decide
      rw [h2] at h
      cases h)
  refine ⟨by decide, h.1 _ _ _, h.2.1 _ _ _ _ _, ?_, h.2.2.2⟩
  exact h.2.2.1 200 demoNote _ _ (by decide) (by decide) (by decide)
    (fun sh h => by
      have h2 : GetShare demoStore 200 10 "note" = .error .recordNotFound := by decide
      rw [h2] at h
      cases h)

/-! ## Deletion -/

/-- C8: when the lookups succeed, DeleteFolder(F, U) returns what the store
delete returns if U is the owner of F or a manager of its team, and otherwise
refuses and leaves the store as it was; DeleteNote(N, U) returns what the
store delete returns if U is the owner of N, the owner of the parent folder
or a manager of that folder's team, and otherwise refuses and leaves the
store as it was.  The share table plays no part, so a write share alone does
not let a user delete. -/
theorem C8_delete_authorisation (s : Store) (U : UUID) :
    (∀ (F : UUID) (f : Folder) (b : Bool),
      GetFolderByID s F = .ok f → IsManager s f.TeamID U = .ok b →
      ((f.OwnerID = U ∨ b = true) →
        AssetService.DeleteFolder s F U =
          (match AssetRepository.DeleteFolder s F with
            | .ok s2 => (.ok (), s2)
            | .error e => (.error e, s))) ∧
      (¬ (f.OwnerID = U ∨ b = true) →
        AssetService.DeleteFolder s F U =
          (.error (.msg "only the folder owner or team manager can delete this folder"),
            s))) ∧
    (∀ (N : UUID) (n : Note) (pf : Folder) (pb : Bool),
      GetNoteByID s N = .ok n → GetFolderByID s n.FolderID = .ok pf →
      IsManager s pf.TeamID U = .ok pb →
      ((n.OwnerID = U ∨ pf.OwnerID = U ∨ pb = true) →
        AssetService.DeleteNote s N U =
          (match AssetRepository.DeleteNote s N with
            | .ok s2 => (.ok (), s2)
            | .error e => (.error e, s))) ∧
      (¬ (n.OwnerID = U ∨ pf.OwnerID = U ∨ pb = true) →
        AssetService.DeleteNote s N U =
          (.error
            (.msg "only the note owner, folder owner, or team manager can delete this note"),
            s))) := by
  constructor
  · intro F f b hF hT
    constructor
    · intro h
      unfold AssetService.DeleteFolder
      rw [hF]
      by_cases ho : f.OwnerID = U
      · simp only [ho, ne_eq, not_true_eq_false, if_false]
        cases AssetRepository.DeleteFolder s F <;> simp
      · have hb : b = true := by
          rcases h with h | h
          · exact absurd h ho
          · exact h
        subst hb
        simp only [ne_eq, ho, not_false_eq_true, if_true, hT, Bool.not_true]
        cases AssetRepository.DeleteFolder s F <;> simp
    · intro h
      have ho : ¬ f.OwnerID = U := fun k => h (Or.inl k)
      have hb : b = false := by
        cases b
        · rfl
        · exact absurd (Or.inr rfl) h
      subst hb
      unfold AssetService.DeleteFolder
      rw [hF]
      simp [ho, hT]
  · intro N n pf pb hN hP hPT
    constructor
    · intro h
      unfold AssetService.DeleteNote
      rw [hN]
      by_cases ho : n.OwnerID = U
      · simp only [ho, ne_eq, not_true_eq_false, if_false]
        cases AssetRepository.DeleteNote s N <;> simp
      · by_cases hpo : pf.OwnerID = U
        · simp only [ne_eq, ho, not_false_eq_true, if_true, hP, hpo, not_true_eq_false,
            if_false]
          cases AssetRepository.DeleteNote s N <;> simp
        · have hb : pb = true := by
            rcases h with h | h | h
            · exact absurd h ho
            · exact absurd h hpo
            · exact h
          subst hb
          simp only [ne_eq, ho, not_false_eq_true, if_true, hP, hpo, hPT, Bool.not_true]
          cases AssetRepository.DeleteNote s N <;> simp
    · intro h
      have ho : ¬ n.OwnerID = U := fun k => h (Or.inl k)
      have hpo : ¬ pf.OwnerID = U := fun k => h (Or.inr (Or.inl k))
      have hb : pb = false := by
        cases pb
        · rfl
        · exact absurd (Or.inr (Or.inr rfl)) h
      subst hb
      unfold AssetService.DeleteNote
      rw [hN]
      simp [ho, hpo, hP, hPT]

/-- Witness of C8: user 14, who holds the write share on folder 100 and
owns note 201 but neither the folder nor note 200, is refused on the folder
and on note 200, and deletes the own note 201. -/
theorem C8_delete_authorisation_witness :
    GetShare demoStore 100 14 "folder" = .ok demoWriteShare ∧
    AssetService.DeleteFolder demoStore 100 14 =
      (.error (.msg "only the folder owner or team manager can delete this folder"),
        demoStore) ∧
    AssetService.DeleteNote demoStore 200 14 =
      (.error
        (.msg "only the note owner, folder owner, or team manager can delete this note"),
        demoStore) ∧
    AssetService.DeleteNote demoStore 201 14 =
      (.ok (), { demoStore with notes := [demoNote] }) := by
  have h := C8_delete_authorisation demoStore 14
  refine ⟨by decide, ?_, ?_, ?_⟩
  · exact (h.1 100 demoFolder false (by decide) (by decide)).2 (by decide)
  · exact (h.2 200 demoNote demoFolder false (by decide) (by decide) (by decide)).2
      (by decide)
  · have h3 := (h.2 201 demoNote2 demoFolder false
        (by decide) (by decide) (by decide)).1 (by decide)
    rw [h3]
    decide

/-! ## Sharing -/

/-- IsUserInTeam answers true only when the roster has a row of the pair. -/
theorem IsUserInTeam_ok_true (s : Store) (teamID userID : UUID)
    (h : IsUserInTeam s teamID userID = .ok true) :
    ∃ r ∈ s.rosters, r.TeamID = teamID ∧ r.UserID = userID := by
  unfold IsUserInTeam at h
  cases hf : s.faults.isUserInTeam with
  | some e => rw [hf] at h; cases h
  | none =>
    rw [hf] at h
    simp only [Except.ok.injEq, decide_eq_true_eq] at h
    obtain ⟨r, hr⟩ := List.exists_mem_of_length_pos h
    rw [List.mem_filter] at hr
    exact ⟨r, hr.1, by simpa using hr.2⟩

/-- A failed ShareResource leaves the store as it was. -/
theorem ShareResource_error_unchanged (s s2 : Store) (R A : UUID) (kind : String)
    (req : ShareRequest) (hookID created updated : Nat) (e : Err)
    (h : AssetService.ShareResource s R A kind req hookID created updated = (.error e, s2)) :
    s2 = s := by
  unfold AssetService.ShareResource at h
  repeat' split at h
  all_goals first
    | (simp only [Prod.mk.injEq] at h; exact h.2.symm)
    | (dsimp only at h
       split at h
       · simp only [Prod.mk.injEq] at h; exact h.2.symm
       · simp only [Prod.mk.injEq] at h; exact absurd h.1 (by simp))

/-- A failed RevokeShare leaves the store as it was. -/
theorem RevokeShare_error_unchanged (s s2 : Store) (R A T : UUID) (kind : String) (e : Err)
    (h : AssetService.RevokeShare s R A T kind = (.error e, s2)) : s2 = s := by
  unfold AssetService.RevokeShare at h
  repeat' split at h
  all_goals first
    | (simp only [Prod.mk.injEq] at h; exact h.2.symm)
    | (simp only [Prod.mk.injEq] at h; exact absurd h.1 (by simp))

/-- An actor who is not the owner and for whom the manager lookup does not
answer true does not pass the owner-or-manager check. -/
theorem ownerOrManager_refuses (s : Store) (owner team A : UUID) (refusal : String)
    (hO : owner ≠ A) (hM : IsManager s team A ≠ .ok true) :
    ∃ e, AssetService.ownerOrManager s owner team A refusal = .error e := by
  unfold AssetService.ownerOrManager
  simp only [ne_eq, hO, not_false_eq_true, if_true]
  cases hm : IsManager s team A with
  | error e => exact ⟨e, rfl⟩
  | ok b =>
    cases b
    · exact ⟨.msg refusal, by simp⟩
    · exact absurd hm hM

/-- When the resource is not resolved, or the owner-or-manager check
refuses, ShareResource and RevokeShare fail and leave the store as it was. -/
theorem share_revoke_refused (s : Store) (R A : UUID) (kind : String)
    (h : (∃ e, AssetService.resolveResource s R kind = .error e) ∨
      (∃ o t, AssetService.resolveResource s R kind = .ok (o, t) ∧
        ∀ refusal, ∃ e, AssetService.ownerOrManager s o t A refusal = .error e)) :
    (∀ (req : ShareRequest) (hookID created updated : Nat),
      ∃ e, AssetService.ShareResource s R A kind req hookID created updated = (.error e, s)) ∧
    (∀ T : UUID, ∃ e, AssetService.RevokeShare s R A T kind = (.error e, s)) := by
  constructor
  · intro req hookID created updated
    unfold AssetService.ShareResource
    cases hp : uuidParse req.UserID with
    | error e => exact ⟨e, rfl⟩
    | ok target =>
      rcases h with ⟨e, he⟩ | ⟨o, t, hr, hm⟩
      · exact ⟨e, by simp [he]⟩
      · obtain ⟨e, he⟩ := hm "only resource owner or team manager can share resources"
        exact ⟨e, by simp [hr, he]⟩
  · intro T
    unfold AssetService.RevokeShare
    rcases h with ⟨e, he⟩ | ⟨o, t, hr, hm⟩
    · exact ⟨e, by simp [he]⟩
    · obtain ⟨e, he⟩ := hm "only resource owner or team manager can revoke shares"
      exact ⟨e, by simp [hr, he]⟩

/-- C9: an actor who is not the owner of a folder or note and for whom the
manager lookup on the team of the folder (for a note: of its parent folder)
does not answer true gets an error from ShareResource and from RevokeShare,
and the store, so also the set of share rows, is left as it was. -/
theorem C9_share_revoke_need_owner_or_manager (s : Store) (A : UUID) :
    (∀ (F : UUID) (f : Folder),
      GetFolderByID s F = .ok f → f.OwnerID ≠ A → IsManager s f.TeamID A ≠ .ok true →
      (∀ (req : ShareRequest) (hookID created updated : Nat),
        ∃ e, AssetService.ShareResource s F A "folder" req hookID created updated =
          (.error e, s)) ∧
      (∀ T : UUID, ∃ e, AssetService.RevokeShare s F A T "folder" = (.error e, s))) ∧
    (∀ (N : UUID) (n : Note),
      GetNoteByID s N = .ok n → n.OwnerID ≠ A →
      (∀ pf, GetFolderByID s n.FolderID = .ok pf → IsManager s pf.TeamID A ≠ .ok true) →
      (∀ (req : ShareRequest) (hookID created updated : Nat),
        ∃ e, AssetService.ShareResource s N A "note" req hookID created updated =
          (.error e, s)) ∧
      (∀ T : UUID, ∃ e, AssetService.RevokeShare s N A T "note" = (.error e, s))) := by
  constructor
  · intro F f hF hO hM
    apply share_revoke_refused
    right
    refine ⟨f.OwnerID, f.TeamID, by simp [AssetService.resolveResource, hF], ?_⟩
    intro refusal
    exact ownerOrManager_refuses s _ _ A refusal hO hM
  · intro N n hN hO hM
    apply share_revoke_refused
    cases hP : GetFolderByID s n.FolderID with
    | error e =>
      left
      exact ⟨e, by simp [AssetService.resolveResource, hN, hP]⟩
    | ok pf =>
      right
      refine ⟨n.OwnerID, pf.TeamID, by simp [AssetService.resolveResource, hN, hP], ?_⟩
      intro refusal
      exact ownerOrManager_refuses s _ _ A refusal hO (hM pf hP)

/-- Witness of C9: member 13 tries to share and to revoke on folder 100 and
on note 200 of the example database. -/
theorem C9_share_revoke_need_owner_or_manager_witness :
    AssetService.ShareResource demoStore 100 13 "folder" ⟨"14", "write"⟩ 400 30 30 =
      (.error (.msg "only resource owner or team manager can share resources"), demoStore) ∧
    AssetService.RevokeShare demoStore 100 13 14 "folder" =
      (.error (.msg "only resource owner or team manager can revoke shares"), demoStore) ∧
    (∃ e, AssetService.ShareResource demoStore 200 13 "note" ⟨"14", "write"⟩ 400 30 30 =
      (.error e, demoStore)) ∧
    (∃ e, AssetService.RevokeShare demoStore 200 13 14 "note" = (.error e, demoStore)) := by
  have h := C9_share_revoke_need_owner_or_manager demoStore 13
  have hn := h.2 200 demoNote (by decide) (by decide)
    (fun pf hpf => by
      have h2 : GetFolderByID demoStore demoNote.FolderID = .ok demoFolder := by decide
      rw [h2] at hpf
      cases hpf
      decide)
  exact ⟨by decide, by decide, hn.1 _ _ _ _, hn.2 _⟩

/-- C10: when the target user has no roster row in the team of the
resource (the team resolveResource finds: the folder's team, for a note the
team of its parent folder), ShareResource returns an error and leaves the
store as it was, and for an actor who passes the owner-or-manager check the
error is "can only share with team members" unless the membership lookup
itself fails.  Consequently a successful ShareResource adds exactly one
share row, and that row names a user with a roster row in the team of the
resource at the time of the call; a failed call adds none. -/
theorem C10_share_target_must_be_member (s : Store) (R A : UUID) (kind : String)
    (req : ShareRequest) (hookID created updated : Nat) :
    (∀ target owner team : UUID,
      uuidParse req.UserID = .ok target →
      AssetService.resolveResource s R kind = .ok (owner, team) →
      (∀ r ∈ s.rosters, ¬ (r.TeamID = team ∧ r.UserID = target)) →
      (∃ e, AssetService.ShareResource s R A kind req hookID created updated =
        (.error e, s)) ∧
      (AssetService.ownerOrManager s owner team A
          "only resource owner or team manager can share resources" = .ok () →
        s.faults.isUserInTeam = none →
        AssetService.ShareResource s R A kind req hookID created updated =
          (.error (.msg "can only share with team members"), s))) ∧
    (∀ s2 : Store,
      AssetService.ShareResource s R A kind req hookID created updated = (.ok (), s2) →
      ∃ target owner team : UUID,
        uuidParse req.UserID = .ok target ∧
        AssetService.resolveResource s R kind = .ok (owner, team) ∧
        (∃ r ∈ s.rosters, r.TeamID = team ∧ r.UserID = target) ∧
        s2 = { s with shares := s.shares ++
          [{ ID := hookID, ResourceID := R, ResourceType := kind, UserID := target,
             Permission := req.Permission, CreatedAt := created, UpdatedAt := updated }] }) ∧
    (∀ (e : Err) (s2 : Store),
      AssetService.ShareResource s R A kind req hookID created updated = (.error e, s2) →
      s2 = s) := by
  refine ⟨?_, ?_, ?_⟩
  · intro target owner team hp hr hno
    have hmem : IsUserInTeam s team target ≠ .ok true := by
      intro hk
      obtain ⟨r, hr1, hr2⟩ := IsUserInTeam_ok_true s team target hk
      exact hno r hr1 hr2
    constructor
    · unfold AssetService.ShareResource
      rw [hp, hr]
      simp only
      cases hom : AssetService.ownerOrManager s owner team A
          "only resource owner or team manager can share resources" with
      | error e => exact ⟨e, rfl⟩
      | ok u =>
        cases him : IsUserInTeam s team target with
        | error e => exact ⟨e, rfl⟩
        | ok b =>
          cases b
          · exact ⟨.msg "can only share with team members", by simp⟩
          · exact absurd him hmem
    · intro hom hfault
      have him : IsUserInTeam s team target = .ok false := by
        have hk := hmem
        unfold IsUserInTeam at hk ⊢
        rw [hfault] at hk ⊢
        simp only [ne_eq, Except.ok.injEq, decide_eq_true_eq] at hk
        simp [hk]
      unfold AssetService.ShareResource
      rw [hp, hr]
      simp [hom, him]
  · intro s2 h
    unfold AssetService.ShareResource at h
    cases hp : uuidParse req.UserID with
    | error e => rw [hp] at h; simp at h
    | ok target =>
      rw [hp] at h
      cases hr : AssetService.resolveResource s R kind with
      | error e => rw [hr] at h; simp at h
      | ok ot =>
        obtain ⟨owner, team⟩ := ot
        rw [hr] at h
        cases hom : AssetService.ownerOrManager s owner team A
            "only resource owner or team manager can share resources" with
        | error e => simp [hom] at h
        | ok u =>
          cases him : IsUserInTeam s team target with
          | error e => simp [hom, him] at h
          | ok b =>
            cases b
            · simp [hom, him] at h
            · refine ⟨target, owner, team, rfl, rfl, IsUserInTeam_ok_true s team target him, ?_⟩
              simp only [hom, him, Bool.not_true, Bool.false_eq_true, if_false] at h
              split at h
              · simp at h
              · rename_i s3 hcs
                simp only [Prod.mk.injEq, true_and] at h
                subst h
                unfold AssetRepository.CreateShare at hcs
                cases hcf : s.faults.createShare with
                | some e => simp [hcf] at hcs
                | none =>
                  simp only [hcf] at hcs
                  split at hcs
                  · cases hcs
                  · simp only [Except.ok.injEq] at hcs
                    rw [← hcs]
                    rfl
  · intro e s2 h
    exact ShareResource_error_unchanged s s2 R A kind req hookID created updated e h

/-- Witness of C10: owner 12 shares folder 100 with user 99, who is not in
team 1, and is refused; sharing with member 13 adds one row that names 13. -/
theorem C10_share_target_must_be_member_witness :
    AssetService.ShareResource demoStore 100 12 "folder" ⟨"99", "read"⟩ 400 30 31 =
      (.error (.msg "can only share with team members"), demoStore) ∧
    AssetService.ShareResource demoStore 100 12 "folder" ⟨"13", "write"⟩ 400 30 31 =
      (.ok (), sharedStore) ∧
    (∃ target owner team : UUID,
      uuidParse "13" = .ok target ∧
      AssetService.resolveResource demoStore 100 "folder" = .ok (owner, team) ∧
      (∃ r ∈ demoStore.rosters, r.TeamID = team ∧ r.UserID = target) ∧
      sharedStore = { demoStore with shares := demoStore.shares ++
          [{ ID := 400, ResourceID := 100, ResourceType := "folder", UserID := target,
             Permission := "write", CreatedAt := 30, UpdatedAt := 31 }] }) :=
  ⟨((C10_share_target_must_be_member demoStore 100 12 "folder" ⟨"99", "read"⟩ 400 30 31).1
      99 12 1 (by decide) (by decide) (by decide)).2 (by decide) (by decide),
   by decide,
   (C10_share_target_must_be_member demoStore 100 12 "folder" ⟨"13", "write"⟩ 400 30 31).2.1
      sharedStore (by decide)⟩

/-! ## Share rows per key -/

/-- A successful ShareResource appends one share row for the parsed target
user and changes nothing else. -/
theorem ShareResource_ok_shape (s s2 : Store) (R A : UUID) (kind : String)
    (req : ShareRequest) (hookID created updated : Nat)
    (h : AssetService.ShareResource s R A kind req hookID created updated = (.ok (), s2)) :
    ∃ target : UUID, uuidParse req.UserID = .ok target ∧
      s2 = { s with shares := s.shares ++
        [{ ID := hookID, ResourceID := R, ResourceType := kind, UserID := target,
           Permission := req.Permission, CreatedAt := created, UpdatedAt := updated }] } := by
  unfold AssetService.ShareResource at h
  cases hp : uuidParse req.UserID with
  | error e => rw [hp] at h; simp at h
  | ok target =>
    rw [hp] at h
    cases hr : AssetService.resolveResource s R kind with
    | error e => rw [hr] at h; simp at h
    | ok ot =>
      obtain ⟨owner, team⟩ := ot
      rw [hr] at h
      cases hom : AssetService.ownerOrManager s owner team A
          "only resource owner or team manager can share resources" with
      | error e => simp [hom] at h
      | ok u =>
        cases him : IsUserInTeam s team target with
        | error e => simp [hom, him] at h
        | ok b =>
          cases b
          · simp [hom, him] at h
          · refine ⟨target, rfl, ?_⟩
            simp only [hom, him, Bool.not_true, Bool.false_eq_true, if_false] at h
            split at h
            · simp at h
            · rename_i s3 hcs
              simp only [Prod.mk.injEq, true_and] at h
              subst h
              unfold AssetRepository.CreateShare at hcs
              cases hcf : s.faults.createShare with
              | some e => simp [hcf] at hcs
              | none =>
                simp only [hcf] at hcs
                split at hcs
                · cases hcs
                · simp only [Except.ok.injEq] at hcs
                  rw [← hcs]
                  rfl

/-- C11, as stated, fails: the example database has at most one share row
per key and user 13 has the read share 300 on folder 100; when owner 12
shares the folder with 13 for writing the call succeeds, the table then has
two rows for the key, and the lookup still finds the read share. -/
theorem C11_share_uniqueness_counterexample :
    SharesUnique demoStore ∧
    GetShare demoStore 100 13 "folder" = .ok demoReadShare ∧
    AssetService.ShareResource demoStore 100 12 "folder" ⟨"13", "write"⟩ 400 30 31 =
      (.ok (), sharedStore) ∧
    ¬ SharesUnique sharedStore ∧
    (sharedStore.shares.filter (shareKey 100 13 "folder")).length = 2 ∧
    GetShare sharedStore 100 13 "folder" = .ok demoReadShare := by
  decide

/-- C11, amended: a successful ShareResource never replaces a row; it
appends one new share row for the target user and keeps every existing row
as it is.  Starting from at most one row per key, there is still at most one
row per key after the call exactly when the key had no share before it; when
the key already had a share the table afterwards holds that row and the new
one. -/
theorem C11_share_appends_row (s s2 : Store) (R A : UUID) (kind : String)
    (req : ShareRequest) (hookID created updated : Nat)
    (h : AssetService.ShareResource s R A kind req hookID created updated = (.ok (), s2)) :
    ∃ target : UUID, uuidParse req.UserID = .ok target ∧
      s2.shares = s.shares ++
        [{ ID := hookID, ResourceID := R, ResourceType := kind, UserID := target,
           Permission := req.Permission, CreatedAt := created, UpdatedAt := updated }] ∧
      (SharesUnique s →
        (SharesUnique s2 ↔ ∀ sh ∈ s.shares, shareKey R target kind sh = false)) := by
  obtain ⟨target, hp, hs2⟩ := ShareResource_ok_shape s s2 R A kind req hookID created updated h
  refine ⟨target, hp, by rw [hs2], ?_⟩
  intro hu
  have hkey : ∀ sh : Share, sameShareKey sh
      { ID := hookID, ResourceID := R, ResourceType := kind, UserID := target,
        Permission := req.Permission, CreatedAt := created, UpdatedAt := updated } =
      shareKey R target kind sh := by
    intro sh
    simp only [sameShareKey, shareKey]
    cases sh.ResourceID == R <;> cases sh.ResourceType == kind <;>
      cases sh.UserID == target <;> rfl
  unfold SharesUnique at hu ⊢
  rw [hs2]
  simp only [List.pairwise_append, List.pairwise_singleton, List.mem_singleton, true_and,
    forall_eq, hkey]
  constructor
  · intro hh; exact hh.2
  · intro hh; exact ⟨hu, hh⟩

/-- Witness of the amended C11: manager 11 shares note 200, which has no
share, with member 13; one row is added and the keys stay unique. -/
theorem C11_share_appends_row_witness :
    AssetService.ShareResource demoStore 200 11 "note" ⟨"13", "read"⟩ 302 10 10 =
      (.ok (), readOnlyStore) ∧
    (∃ target : UUID, uuidParse "13" = .ok target ∧
      readOnlyStore.shares = demoStore.shares ++
        [{ ID := 302, ResourceID := 200, ResourceType := "note", UserID := target,
           Permission := "read", CreatedAt := 10, UpdatedAt := 10 }] ∧
      (SharesUnique demoStore →
        (SharesUnique readOnlyStore ↔
          ∀ sh ∈ demoStore.shares, shareKey 200 target "note" sh = false))) :=
  ⟨by decide,
   C11_share_appends_row demoStore readOnlyStore 200 11 "note" ⟨"13", "read"⟩ 302 10 10
     (by decide)⟩

/-! ## Revocation -/

/-- A successful RevokeShare removes the share rows of the key and changes
nothing else. -/
theorem RevokeShare_ok_shape (s s2 : Store) (R A T : UUID) (kind : String)
    (h : AssetService.RevokeShare s R A T kind = (.ok (), s2)) :
    s2 = { s with shares := s.shares.filter (fun sh => !(shareKey R T kind sh)) } := by
  unfold AssetService.RevokeShare at h
  cases hr : AssetService.resolveResource s R kind with
  | error e => rw [hr] at h; simp at h
  | ok ot =>
    obtain ⟨owner, team⟩ := ot
    rw [hr] at h
    cases hom : AssetService.ownerOrManager s owner team A
        "only resource owner or team manager can revoke shares" with
    | error e => simp [hom] at h
    | ok u =>
      simp only [hom] at h
      unfold AssetRepository.DeleteShare at h
      cases hf : s.faults.deleteShare with
      | some e => simp [hf] at h
      | none =>
        simp only [hf, Prod.mk.injEq, true_and] at h
        exact h.symm

/-- Once the rows of a key are removed, the lookup of that key finds
nothing. -/
theorem GetShare_removed_key (s : Store) (R T : UUID) (kind : String) :
    ∃ e, GetShare { s with shares := s.shares.filter (fun sh => !(shareKey R T kind sh)) }
      R T kind = .error e := by
  unfold GetShare
  cases hf : s.faults.getShare with
  | some e => exact ⟨e, rfl⟩
  | none =>
    have hnil : (s.shares.filter (fun sh => !(shareKey R T kind sh))).filter
        (shareKey R T kind) = [] := by
      rw [List.filter_filter, List.filter_eq_nil_iff]
      intro sh _
      cases shareKey R T kind sh <;> simp
    simp only [hnil]
    exact ⟨.recordNotFound, rfl⟩

/-- Removing the rows of one key does not change the lookup of a key of
another kind. -/
theorem GetShare_other_kind (s : Store) (R T R2 T2 : UUID) (kind kind2 : String)
    (hk : kind2 ≠ kind) :
    GetShare { s with shares := s.shares.filter (fun sh => !(shareKey R T kind sh)) }
      R2 T2 kind2 = GetShare s R2 T2 kind2 := by
  unfold GetShare
  have hsame : (s.shares.filter (fun sh => !(shareKey R T kind sh))).filter
      (shareKey R2 T2 kind2) = s.shares.filter (shareKey R2 T2 kind2) := by
    rw [List.filter_filter]
    apply List.filter_congr
    intro sh _
    by_cases h2 : sh.ResourceType = kind2
    · have h1 : ¬ sh.ResourceType = kind := fun hh => hk (h2 ▸ hh)
      simp [shareKey, h1]
    · simp [shareKey, h2]
  simp only [hsame]

/-- C12: after a successful RevokeShare for user U on a folder, U being
neither the owner nor a manager of the team, GetFolder by U returns
"you don't have access to this folder" and the share table has no row with
the key (folder, "folder", U); after a successful RevokeShare for U on a
note, U being neither the owner nor a manager of the parent folder's team
and the lookup of a share on the parent folder finding nothing, GetNote by U
returns "you don't have access to this note" and the table has no row with
the key (note, "note", U). -/
theorem C12_revoked_share_unusable (s s2 : Store) (A U : UUID) :
    (∀ (F : UUID) (f : Folder),
      AssetService.RevokeShare s F A U "folder" = (.ok (), s2) →
      GetFolderByID s F = .ok f → f.OwnerID ≠ U → IsManager s f.TeamID U = .ok false →
      AssetService.GetFolder s2 F U =
        .error (.msg "you don't have access to this folder") ∧
      (∀ sh ∈ s2.shares, shareKey F U "folder" sh = false)) ∧
    (∀ (N : UUID) (n : Note) (pf : Folder) (e : Err),
      AssetService.RevokeShare s N A U "note" = (.ok (), s2) →
      GetNoteByID s N = .ok n → n.OwnerID ≠ U →
      GetShare s n.FolderID U "folder" = .error e →
      GetFolderByID s n.FolderID = .ok pf → IsManager s pf.TeamID U = .ok false →
      AssetService.GetNote s2 N U =
        .error (.msg "you don't have access to this note") ∧
      (∀ sh ∈ s2.shares, shareKey N U "note" sh = false)) := by
  constructor
  · intro F f hrev hF hO hM
    have hs2 := RevokeShare_ok_shape s s2 F A U "folder" hrev
    subst hs2
    obtain ⟨e, he⟩ := GetShare_removed_key s F U "folder"
    constructor
    · have hF2 : GetFolderByID
          { s with shares := s.shares.filter (fun sh => !(shareKey F U "folder" sh)) } F =
          .ok f := hF
      have hM2 : IsManager
          { s with shares := s.shares.filter (fun sh => !(shareKey F U "folder" sh)) }
          f.TeamID U = .ok false := hM
      unfold AssetService.GetFolder
      rw [hF2]
      simp [hO, he, hM2]
    · intro sh hsh
      rw [List.mem_filter] at hsh
      simpa using hsh.2
  · intro N n pf e hrev hN hO hFS hP hM
    have hs2 := RevokeShare_ok_shape s s2 N A U "note" hrev
    subst hs2
    obtain ⟨e1, he1⟩ := GetShare_removed_key s N U "note"
    have he2 := GetShare_other_kind s N U n.FolderID U "note" "folder" (by decide)
    rw [hFS] at he2
    constructor
    · have hN2 : GetNoteByID
          { s with shares := s.shares.filter (fun sh => !(shareKey N U "note" sh)) } N =
          .ok n := hN
      have hP2 : GetFolderByID
          { s with shares := s.shares.filter (fun sh => !(shareKey N U "note" sh)) }
          n.FolderID = .ok pf := hP
      have hM2 : IsManager
          { s with shares := s.shares.filter (fun sh => !(shareKey N U "note" sh)) }
          pf.TeamID U = .ok false := hM
      unfold AssetService.GetNote
      rw [hN2]
      simp [hO, he1, he2, hP2, hM2]
    · intro sh hsh
      rw [List.mem_filter] at hsh
      simpa using hsh.2

/-- Witness of C12: owner 12 revokes the read share of member 13 on folder
100; member 13, who could read the folder, is refused afterwards. -/
theorem C12_revoked_share_unusable_witness :
    AssetService.GetFolder demoStore 100 13 = .ok demoFolder ∧
    AssetService.RevokeShare demoStore 100 12 13 "folder" =
      (.ok (), { demoStore with shares := [demoWriteShare] }) ∧
    AssetService.GetFolder { demoStore with shares := [demoWriteShare] } 100 13 =
      .error (.msg "you don't have access to this folder") ∧
    (∀ sh ∈ [demoWriteShare], shareKey 100 13 "folder" sh = false) :=
  ⟨by decide, by decide,
   (C12_revoked_share_unusable demoStore { demoStore with shares := [demoWriteShare] }
      12 13).1 100 demoFolder (by decide) (by decide) (by decide) (by decide)⟩

/-! ## Cascade deletion -/

/-- A successful DeleteFolder found the folder without a lookup error and
leaves the store with the notes of the folder and the folder row filtered
out. -/
theorem DeleteFolder_ok_shape (s s2 : Store) (F U : UUID)
    (h : AssetService.DeleteFolder s F U = (.ok (), s2)) :
    s.faults.getFolderByID = none ∧
    s2 = { s with notes := s.notes.filter (fun n => !(n.FolderID == F)),
                  folders := s.folders.filter (fun f => !(f.ID == F)) } := by
  have hfault : s.faults.getFolderByID = none := by
    cases hf : s.faults.getFolderByID with
    | none => rfl
    | some e =>
      unfold AssetService.DeleteFolder GetFolderByID at h
      rw [hf] at h
      by_cases he : e = .recordNotFound <;> simp [he] at h
  refine ⟨hfault, ?_⟩
  have hrepo : ∀ s3, AssetRepository.DeleteFolder s F = .ok s3 →
      s3 = { s with notes := s.notes.filter (fun n => !(n.FolderID == F)),
                    folders := s.folders.filter (fun f => !(f.ID == F)) } := by
    intro s3 h3
    unfold AssetRepository.DeleteFolder at h3
    cases h1 : s.faults.deleteFolderNotes with
    | some e => rw [h1] at h3; cases h3
    | none =>
      cases h2 : s.faults.deleteFolderRow with
      | some e => simp [h1, h2] at h3
      | none =>
        simp only [h1, h2, Except.ok.injEq] at h3
        exact h3.symm
  unfold AssetService.DeleteFolder at h
  split at h
  · split at h <;> simp at h
  · dsimp only at h
    split at h
    · simp at h
    · simp at h
    · split at h
      · simp at h
      · rename_i s3 h3
        simp only [Prod.mk.injEq, true_and] at h
        subst h
        exact hrepo _ h3

/-- In a table with a primary key, no row outside folder F carries the
identifier of a row inside it. -/
theorem no_other_row_with_ID (l : List Note) (hk : l.Pairwise (fun a b => a.ID ≠ b.ID))
    (n : Note) (hn : n ∈ l) (m : Note) (hm : m ∈ l) (hid : m.ID = n.ID) : m = n := by
  induction l with
  | nil => cases hn
  | cons x xs ih =>
    rw [List.pairwise_cons] at hk
    rcases List.mem_cons.mp hn with rfl | hn2
    · rcases List.mem_cons.mp hm with rfl | hm2
      · rfl
      · exact absurd hid.symm (hk.1 m hm2)
    · rcases List.mem_cons.mp hm with rfl | hm2
      · exact absurd hid (hk.1 n hn2)
      · exact ih hk.2 hn2 hm2

/-- C13: after a successful DeleteFolder(F, U) the folder table is the old
one without the rows of identifier F and the note table is the old one
without the notes whose FolderID is F, so every other folder and every note
of another folder is kept as it was; GetFolder(F, V) then returns
"folder not found" for every user V, and for every note that was in F (the
note table having a primary key and the note lookup not failing) GetNote
returns "note not found". -/
theorem C13_cascade_deletion (s s2 : Store) (F U : UUID)
    (h : AssetService.DeleteFolder s F U = (.ok (), s2)) :
    s2.folders = s.folders.filter (fun f => !(f.ID == F)) ∧
    s2.notes = s.notes.filter (fun n => !(n.FolderID == F)) ∧
    (∀ f ∈ s2.folders, f.ID ≠ F) ∧
    (∀ n ∈ s2.notes, n.FolderID ≠ F) ∧
    (∀ f ∈ s.folders, f.ID ≠ F → f ∈ s2.folders) ∧
    (∀ n ∈ s.notes, n.FolderID ≠ F → n ∈ s2.notes) ∧
    (∀ V : UUID, AssetService.GetFolder s2 F V = .error (.msg "folder not found")) ∧
    (NotesKeyed s → s.faults.getNoteByID = none →
      ∀ n ∈ s.notes, n.FolderID = F →
        ∀ V : UUID, AssetService.GetNote s2 n.ID V = .error (.msg "note not found")) := by
  obtain ⟨hfault, hs2⟩ := DeleteFolder_ok_shape s s2 F U h
  subst hs2
  refine ⟨rfl, rfl, ?_, ?_, ?_, ?_, ?_, ?_⟩
  · intro f hf
    have := (List.mem_filter.mp hf).2
    simpa using this
  · intro n hn
    have := (List.mem_filter.mp hn).2
    simpa using this
  · intro f hf hne
    exact List.mem_filter.mpr ⟨hf, by simpa using hne⟩
  · intro n hn hne
    exact List.mem_filter.mpr ⟨hn, by simpa using hne⟩
  · intro V
    have hnone : (s.folders.filter (fun f => !(f.ID == F))).find? (fun f => f.ID == F) =
        none := by
      rw [List.find?_eq_none]
      intro f hf
      have := (List.mem_filter.mp hf).2
      simpa using this
    unfold AssetService.GetFolder GetFolderByID
    simp [hfault, hnone]
  · intro hk hnf n hn hnF V
    have hnone : (s.notes.filter (fun m => !(m.FolderID == F))).find?
        (fun m => m.ID == n.ID) = none := by
      rw [List.find?_eq_none]
      intro m hm
      have hm1 := (List.mem_filter.mp hm).1
      have hm2 : m.FolderID ≠ F := by simpa using (List.mem_filter.mp hm).2
      intro hid
      have hid2 : m.ID = n.ID := by simpa using hid
      have := no_other_row_with_ID s.notes hk n hn m hm1 hid2
      exact hm2 (this ▸ hnF)
    unfold AssetService.GetNote GetNoteByID
    simp [hnf, hnone]

/-- Witness of C13: owner 12 deletes folder 100 of the example database;
the folder and both of its notes are gone. -/
theorem C13_cascade_deletion_witness :
    AssetService.DeleteFolder demoStore 100 12 =
      (.ok (), { demoStore with folders := [], notes := [] }) ∧
    AssetService.GetFolder { demoStore with folders := [], notes := [] } 100 12 =
      .error (.msg "folder not found") ∧
    AssetService.GetNote { demoStore with folders := [], notes := [] } demoNote.ID 12 =
      .error (.msg "note not found") := by
  have h := C13_cascade_deletion demoStore { demoStore with folders := [], notes := [] }
    100 12 (by decide)
  exact ⟨by decide, h.2.2.2.2.2.2.1 12,
    h.2.2.2.2.2.2.2 (by decide) (by decide) demoNote (by decide) (by decide) 12⟩

/-- C14: a failed DeleteFolder leaves the store exactly as it was, so the
folder and all of its notes are still there; when either step of the cascade
fails the call fails whoever calls it, and for a caller who passes the access
check the one error returned is the error of the step that failed. -/
theorem C14_delete_folder_all_or_nothing (s : Store) (F U : UUID) :
    (∀ (e : Err) (s2 : Store), AssetService.DeleteFolder s F U = (.error e, s2) → s2 = s) ∧
    ((s.faults.deleteFolderNotes ≠ none ∨ s.faults.deleteFolderRow ≠ none) →
      ∃ e, AssetService.DeleteFolder s F U = (.error e, s)) ∧
    (∀ (f : Folder) (e : Err), GetFolderByID s F = .ok f → f.OwnerID = U →
      (s.faults.deleteFolderNotes = some e ∨
        (s.faults.deleteFolderNotes = none ∧ s.faults.deleteFolderRow = some e)) →
      AssetService.DeleteFolder s F U = (.error e, s) ∧
      GetFolderByID (AssetService.DeleteFolder s F U).2 F = .ok f ∧
      (AssetService.DeleteFolder s F U).2.notes = s.notes) := by
  have hrepo : (s.faults.deleteFolderNotes ≠ none ∨ s.faults.deleteFolderRow ≠ none) →
      ∃ e, AssetRepository.DeleteFolder s F = .error e := by
    intro hf
    unfold AssetRepository.DeleteFolder
    cases h1 : s.faults.deleteFolderNotes with
    | some e => exact ⟨e, rfl⟩
    | none =>
      cases h2 : s.faults.deleteFolderRow with
      | some e => exact ⟨e, rfl⟩
      | none => rcases hf with hf | hf <;> simp [h1, h2] at hf
  refine ⟨?_, ?_, ?_⟩
  · intro e s2 h
    unfold AssetService.DeleteFolder at h
    repeat' split at h
    all_goals first
      | (simp only [Prod.mk.injEq] at h; exact h.2.symm)
      | (dsimp only at h
         repeat' split at h
         all_goals first
           | (simp only [Prod.mk.injEq] at h; exact h.2.symm)
           | (simp only [Prod.mk.injEq] at h; exact absurd h.1 (by simp)))
  · intro hf
    obtain ⟨e, he⟩ := hrepo hf
    unfold AssetService.DeleteFolder
    cases hF : GetFolderByID s F with
    | error e1 => by_cases h1 : e1 = .recordNotFound <;> simp [h1]
    | ok f =>
      by_cases ho : f.OwnerID = U
      · simp [ho, he]
      · cases hm : IsManager s f.TeamID U with
        | error e2 => simp [ho, hm]
        | ok b => cases b <;> simp [ho, hm, he]
  · intro f e hF hO hstep
    have he : AssetRepository.DeleteFolder s F = .error e := by
      unfold AssetRepository.DeleteFolder
      rcases hstep with h1 | ⟨h1, h2⟩
      · simp [h1]
      · simp [h1, h2]
    have hres : AssetService.DeleteFolder s F U = (.error e, s) := by
      unfold AssetService.DeleteFolder
      rw [hF]
      simp [hO, he]
    rw [hres]
    exact ⟨rfl, hF, rfl⟩

/-- Witness of C14: owner 12 deletes folder 100 while the delete of the
folder row fails; the error comes back and nothing is deleted. -/
theorem C14_delete_folder_all_or_nothing_witness :
    AssetService.DeleteFolder brokenDeleteStore 100 12 =
      (.error (.unavailable 3), brokenDeleteStore) ∧
    GetFolderByID (AssetService.DeleteFolder brokenDeleteStore 100 12).2 100 =
      .ok demoFolder ∧
    (AssetService.DeleteFolder brokenDeleteStore 100 12).2.notes = brokenDeleteStore.notes :=
  (C14_delete_folder_all_or_nothing brokenDeleteStore 100 12).2.2 demoFolder (.unavailable 3)
    (by decide) (by decide) (Or.inr ⟨by decide, by decide⟩)

/-! ## Listing -/

/-- C15: when the manager lookup answers, GetTeamAssets(team, U) returns
what the store lists for the team (the folders of the team, when that read
does not fail) if U is a manager of the team, and otherwise the error
"only team managers can view all team assets"; when the team lookup for the
target and the manager lookup answer, GetUserAssets(target, current) returns
what the store lists for the target (the folders the target owns) if current
is the target or a manager of the target's team, and otherwise the error
"only team managers can view other users' assets". -/
theorem C15_listing_manager_or_self (s : Store) :
    (∀ (team U : UUID) (b : Bool), IsManager s team U = .ok b →
      (b = true → AssetService.GetTeamAssets s team U = AssetRepository.GetTeamAssets s team) ∧
      (b = true → s.faults.getTeamAssets = none →
        ∃ folders, AssetService.GetTeamAssets s team U = .ok folders ∧
          (∀ f ∈ folders, f.TeamID = team) ∧
          (∀ g ∈ s.folders, g.TeamID = team → ∃ f ∈ folders, f.ID = g.ID)) ∧
      (b = false → AssetService.GetTeamAssets s team U =
        .error (.msg "only team managers can view all team assets"))) ∧
    (∀ (target current team : UUID) (b : Bool),
      GetUserTeamID s target = .ok team → IsManager s team current = .ok b →
      ((current = target ∨ b = true) →
        AssetService.GetUserAssets s target current = AssetRepository.GetUserAssets s target) ∧
      ((current = target ∨ b = true) → s.faults.getUserAssets = none →
        ∃ folders, AssetService.GetUserAssets s target current = .ok folders ∧
          (∀ f ∈ folders, f.OwnerID = target) ∧
          (∀ g ∈ s.folders, g.OwnerID = target → ∃ f ∈ folders, f.ID = g.ID)) ∧
      (¬ (current = target ∨ b = true) →
        AssetService.GetUserAssets s target current =
          .error (.msg "only team managers can view other users' assets"))) := by
  constructor
  · intro team U b hM
    have hT : b = true →
        AssetService.GetTeamAssets s team U = AssetRepository.GetTeamAssets s team := by
      intro hb
      subst hb
      unfold AssetService.GetTeamAssets
      simp [hM]
    refine ⟨hT, ?_, ?_⟩
    · intro hb hf
      rw [hT hb]
      unfold AssetRepository.GetTeamAssets
      rw [hf]
      refine ⟨_, rfl, ?_, ?_⟩
      · intro f hfm
        rw [List.mem_map] at hfm
        obtain ⟨g, hg, rfl⟩ := hfm
        simpa using (List.mem_filter.mp hg).2
      · intro g hg hgt
        refine ⟨{ g with Notes := s.notes.filter (fun n => n.FolderID == g.ID) }, ?_, rfl⟩
        rw [List.mem_map]
        exact ⟨g, List.mem_filter.mpr ⟨hg, by simpa using hgt⟩, rfl⟩
    · intro hb
      subst hb
      unfold AssetService.GetTeamAssets
      simp [hM]
  · intro target current team b hT hM
    have hA : (current = target ∨ b = true) →
        AssetService.GetUserAssets s target current =
          AssetRepository.GetUserAssets s target := by
      intro hb
      unfold AssetService.GetUserAssets
      rw [hT]
      simp only [hM]
      rcases hb with hb | hb
      · subst hb; simp
      · subst hb; simp
    refine ⟨hA, ?_, ?_⟩
    · intro hb hf
      rw [hA hb]
      unfold AssetRepository.GetUserAssets
      rw [hf]
      refine ⟨_, rfl, ?_, ?_⟩
      · intro f hfm
        rw [List.mem_map] at hfm
        obtain ⟨g, hg, rfl⟩ := hfm
        simpa using (List.mem_filter.mp hg).2
      · intro g hg hgt
        refine ⟨{ g with Notes := s.notes.filter (fun n => n.FolderID == g.ID) }, ?_, rfl⟩
        rw [List.mem_map]
        exact ⟨g, List.mem_filter.mpr ⟨hg, by simpa using hgt⟩, rfl⟩
    · intro hb
      have h1 : ¬ target = current := fun k => hb (Or.inl k.symm)
      have h2 : b = false := by
        cases b
        · rfl
        · exact absurd (Or.inr rfl) hb
      subst h2
      unfold AssetService.GetUserAssets
      rw [hT]
      simp [hM, h1]

/-- Witness of C15: in the example database manager 11 lists team 1 and the
folders of member 12, member 12 lists the own folders, and member 13 is
refused on both listings. -/
theorem C15_listing_manager_or_self_witness :
    AssetService.GetTeamAssets demoStore 1 11 = .ok [demoFolder] ∧
    AssetService.GetTeamAssets demoStore 1 13 =
      .error (.msg "only team managers can view all team assets") ∧
    AssetService.GetUserAssets demoStore 12 11 = .ok [demoFolder] ∧
    AssetService.GetUserAssets demoStore 12 12 = .ok [demoFolder] ∧
    AssetService.GetUserAssets demoStore 12 13 =
      .error (.msg "only team managers can view other users' assets") := by
  have h := C15_listing_manager_or_self demoStore
  refine ⟨?_, ?_, ?_, ?_, ?_⟩
  · rw [(h.1 1 11 true (by decide)).1 rfl]; decide
  · exact (h.1 1 13 false (by decide)).2.2 rfl
  · rw [(h.2 12 11 1 true (by decide) (by decide)).1 (Or.inr rfl)]; decide
  · rw [(h.2 12 12 1 false (by decide) (by decide)).1 (Or.inl rfl)]; decide
  · exact (h.2 12 13 1 false (by decide) (by decide)).2.2 (by decide)

/-! ## The team of a note -/

/-- C16 fails on the code: owner 12 creates a note in folder 100, whose team
is 1; the call succeeds and the stored note has the zero TeamID, not the
team of the folder. -/
theorem C16_created_note_has_zero_team :
    GetFolderByID demoStore 100 = .ok demoFolder ∧ demoFolder.TeamID = 1 ∧
    (AssetService.CreateNote demoStore 100 12 ⟨"a", "b"⟩ 1 202 21 22).1 =
      .ok { ID := 202, Title := "a", Content := "b", FolderID := 100, OwnerID := 12,
            TeamID := 0, CreatedAt := 21, UpdatedAt := 22 } ∧
    GetNoteByID (AssetService.CreateNote demoStore 100 12 ⟨"a", "b"⟩ 1 202 21 22).2 202 =
      .ok { ID := 202, Title := "a", Content := "b", FolderID := 100, OwnerID := 12,
            TeamID := 0, CreatedAt := 21, UpdatedAt := 22 } ∧
    (0 : UUID) ≠ demoFolder.TeamID := by
  decide

/-! ## Errors of the store and of the team directory -/

/-- C17, as stated, fails: in shareFaultStore every share lookup fails with
a database error that is not record-not-found.  GetFolder and GetNote by
user 13 go on to the manager rule and answer access denied, and UpdateFolder
and UpdateNote by user 14 answer with the write-access denial; none of them
returns the error of the lookup. -/
theorem C17_share_lookup_error_counterexample :
    GetShare shareFaultStore 100 13 "folder" = .error (.unavailable 1) ∧
    GetShare shareFaultStore 200 13 "note" = .error (.unavailable 1) ∧
    AssetService.GetFolder shareFaultStore 100 13 =
      .error (.msg "you don't have access to this folder") ∧
    AssetService.GetNote shareFaultStore 200 13 =
      .error (.msg "you don't have access to this note") ∧
    AssetService.UpdateFolder shareFaultStore 100 14 ⟨"n"⟩ 20 (fun i => 900 + i) =
      (.error (.msg "you don't have write access to this folder"), shareFaultStore) ∧
    AssetService.UpdateNote shareFaultStore 200 14 ⟨"x", ""⟩ 50 =
      (.error (.msg "you don't have write access to this note"), shareFaultStore) := by
  decide

/-- C17, amended.  Returned unchanged, with nothing written: an error other
than record-not-found of the folder lookup in GetFolder and UpdateFolder and
of the note lookup in GetNote and UpdateNote; every error of the manager
lookup, of the lookup of a note's parent folder and of the membership
lookup, once the call reaches them; every error of the final store write.
Never returned: an error of the share lookup, which GetFolder and GetNote
treat as no share (they go on to the next rule) and UpdateFolder and
UpdateNote as no write share. -/
theorem C17_upstream_errors (s : Store) (U : UUID) :
    (∀ (F : UUID) (e : Err), GetFolderByID s F = .error e → e ≠ .recordNotFound →
      AssetService.GetFolder s F U = .error e ∧
      ∀ req now noteIDs, AssetService.UpdateFolder s F U req now noteIDs = (.error e, s)) ∧
    (∀ (N : UUID) (e : Err), GetNoteByID s N = .error e → e ≠ .recordNotFound →
      AssetService.GetNote s N U = .error e ∧
      ∀ req now, AssetService.UpdateNote s N U req now = (.error e, s)) ∧
    (∀ (F : UUID) (f : Folder) (e1 : Err), GetFolderByID s F = .ok f → f.OwnerID ≠ U →
      GetShare s F U "folder" = .error e1 →
      (∀ e, IsManager s f.TeamID U = .error e → AssetService.GetFolder s F U = .error e) ∧
      (IsManager s f.TeamID U = .ok true → AssetService.GetFolder s F U = .ok f) ∧
      (IsManager s f.TeamID U = .ok false →
        AssetService.GetFolder s F U =
          .error (.msg "you don't have access to this folder")) ∧
      (∀ req now noteIDs, AssetService.UpdateFolder s F U req now noteIDs =
        (.error (.msg "you don't have write access to this folder"), s))) ∧
    (∀ (N : UUID) (n : Note) (e1 e2 : Err), GetNoteByID s N = .ok n → n.OwnerID ≠ U →
      GetShare s N U "note" = .error e1 → GetShare s n.FolderID U "folder" = .error e2 →
      (∀ e, GetFolderByID s n.FolderID = .error e → AssetService.GetNote s N U = .error e) ∧
      (∀ pf e, GetFolderByID s n.FolderID = .ok pf → IsManager s pf.TeamID U = .error e →
        AssetService.GetNote s N U = .error e) ∧
      (∀ pf, GetFolderByID s n.FolderID = .ok pf → IsManager s pf.TeamID U = .ok true →
        AssetService.GetNote s N U = .ok n) ∧
      (∀ req now, AssetService.UpdateNote s N U req now =
        (.error (.msg "you don't have write access to this note"), s))) ∧
    (∀ (F : UUID) (f : Folder) (req : UpdateFolderRequest) (now : Nat)
        (noteIDs : Nat → UUID) (e : Err),
      GetFolderByID s F = .ok f → AssetService.folderWriteDenied s f F U = false →
      AssetRepository.UpdateFolder s (AssetService.applyFolderUpdate f req now) noteIDs =
        .error e →
      AssetService.UpdateFolder s F U req now noteIDs = (.error e, s)) ∧
    (∀ (N : UUID) (n : Note) (req : UpdateNoteRequest) (now : Nat) (e : Err),
      GetNoteByID s N = .ok n → AssetService.noteWriteDenied s n N U = false →
      AssetRepository.UpdateNote s (AssetService.applyNoteUpdate n req now) = .error e →
      AssetService.UpdateNote s N U req now = (.error e, s)) ∧
    (∀ (R T owner team : UUID) (kind : String) (req : ShareRequest)
        (hookID created updated : Nat) (e : Err),
      AssetService.resolveResource s R kind = .ok (owner, team) →
      uuidParse req.UserID = .ok T →
      (owner ≠ U → IsManager s team U = .error e →
        AssetService.ShareResource s R U kind req hookID created updated = (.error e, s) ∧
        AssetService.RevokeShare s R U T kind = (.error e, s)) ∧
      (AssetService.ownerOrManager s owner team U
          "only resource owner or team manager can share resources" = .ok () →
        IsUserInTeam s team T = .error e →
        AssetService.ShareResource s R U kind req hookID created updated = (.error e, s)) ∧
      (AssetService.ownerOrManager s owner team U
          "only resource owner or team manager can share resources" = .ok () →
        IsUserInTeam s team T = .ok true →
        AssetRepository.CreateShare s
          { ID := 0, ResourceID := R, ResourceType := kind, UserID := T,
            Permission := req.Permission, CreatedAt := created, UpdatedAt := updated }
          hookID = .error e →
        AssetService.ShareResource s R U kind req hookID created updated = (.error e, s)) ∧
      (AssetService.ownerOrManager s owner team U
          "only resource owner or team manager can revoke shares" = .ok () →
        AssetRepository.DeleteShare s R T kind = .error e →
        AssetService.RevokeShare s R U T kind = (.error e, s))) ∧
    (∀ (N T : UUID) (n : Note) (req : ShareRequest) (hookID created updated : Nat) (e : Err),
      GetNoteByID s N = .ok n → GetFolderByID s n.FolderID = .error e →
      uuidParse req.UserID = .ok T →
      AssetService.ShareResource s N U "note" req hookID created updated = (.error e, s) ∧
      AssetService.RevokeShare s N U T "note" = (.error e, s)) := by
  refine ⟨?_, ?_, ?_, ?_, ?_, ?_, ?_, ?_⟩
  · intro F e hF hne
    constructor
    · unfold AssetService.GetFolder
      rw [hF]
      simp [hne]
    · intro req now noteIDs
      unfold AssetService.UpdateFolder
      rw [hF]
      simp [hne]
  · intro N e hN hne
    constructor
    · unfold AssetService.GetNote
      rw [hN]
      simp [hne]
    · intro req now
      unfold AssetService.UpdateNote
      rw [hN]
      simp [hne]
  · intro F f e1 hF hO hS
    refine ⟨?_, ?_, ?_, ?_⟩
    · intro e hM
      unfold AssetService.GetFolder
      rw [hF]
      simp [hO, hS, hM]
    · intro hM
      unfold AssetService.GetFolder
      rw [hF]
      simp [hO, hS, hM]
    · intro hM
      unfold AssetService.GetFolder
      rw [hF]
      simp [hO, hS, hM]
    · intro req now noteIDs
      unfold AssetService.UpdateFolder
      rw [hF]
      simp [AssetService.folderWriteDenied, hO, hS]
  · intro N n e1 e2 hN hO hS1 hS2
    refine ⟨?_, ?_, ?_, ?_⟩
    · intro e hP
      unfold AssetService.GetNote
      rw [hN]
      simp [hO, hS1, hS2, hP]
    · intro pf e hP hM
      unfold AssetService.GetNote
      rw [hN]
      simp [hO, hS1, hS2, hP, hM]
    · intro pf hP hM
      unfold AssetService.GetNote
      rw [hN]
      simp [hO, hS1, hS2, hP, hM]
    · intro req now
      unfold AssetService.UpdateNote
      rw [hN]
      simp [AssetService.noteWriteDenied, hO, hS1, hS2]
  · intro F f req now noteIDs e hF hD hW
    unfold AssetService.UpdateFolder
    rw [hF]
    simp [hD, hW]
  · intro N n req now e hN hD hW
    unfold AssetService.UpdateNote
    rw [hN]
    simp [hD, hW]
  · intro R T owner team kind req hookID created updated e hR hp
    refine ⟨?_, ?_, ?_, ?_⟩
    · intro hO hM
      have hom : ∀ refusal, AssetService.ownerOrManager s owner team U refusal = .error e := by
        intro refusal
        unfold AssetService.ownerOrManager
        simp [hO, hM]
      constructor
      · unfold AssetService.ShareResource
        rw [hp, hR]
        simp [hom]
      · unfold AssetService.RevokeShare
        rw [hR]
        simp [hom]
    · intro hom him
      unfold AssetService.ShareResource
      rw [hp, hR]
      simp [hom, him]
    · intro hom him hcs
      unfold AssetService.ShareResource
      rw [hp, hR]
      simp [hom, him, hcs]
    · intro hom hds
      unfold AssetService.RevokeShare
      rw [hR]
      simp [hom, hds]
  · intro N T n req hookID created updated e hN hP hp
    have hR : AssetService.resolveResource s N "note" = .error e := by
      simp [AssetService.resolveResource, hN, hP]
    constructor
    · unfold AssetService.ShareResource
      rw [hp, hR]
    · unfold AssetService.RevokeShare
      rw [hR]

/-- Witness of the amended C17: while every manager lookup fails with
database error 2, GetFolder by member 15, who has no share, returns that
error, and so do ShareResource and RevokeShare by member 13 on folder 100. -/
theorem C17_upstream_errors_witness :
    AssetService.GetFolder faultyStore 100 15 = .error (.unavailable 2) ∧
    AssetService.ShareResource faultyStore 100 13 "folder" ⟨"14", "read"⟩ 400 30 31 =
      (.error (.unavailable 2), faultyStore) ∧
    AssetService.RevokeShare faultyStore 100 13 14 "folder" =
      (.error (.unavailable 2), faultyStore) := by
  have h := C17_upstream_errors faultyStore
  refine ⟨?_, ?_⟩
  · exact ((h 15).2.2.1 100 demoFolder (.unavailable 1) (by decide) (by decide)
      (by decide)).1 (.unavailable 2) (by decide)
  · exact ((h 13).2.2.2.2.2.2.1 100 14 12 1 "folder" ⟨"14", "read"⟩ 400 30 31
      (.unavailable 2) (by decide) (by decide)).1 (by decide) (by decide)

/-! ## Adding members -/

/-- C18: when the role lookup of the actor fails, or the role it finds is
neither MANAGER nor MAIN_MANAGER, AddMembersToTeam returns added 0, failed
len(L), the whole list L as failed members and the error
"you are not a manager"; the store is as it was and no event is handed to
the producer. -/
theorem C18_add_members_not_manager (s : Store) (producer : Option Producer)
    (team actor : UUID) (L : List UUID)
    (h : (∃ e, GetUserRoleInTeam s team actor = .error e) ∨
      (∃ role, GetUserRoleInTeam s team actor = .ok role ∧
        role ≠ "MANAGER" ∧ role ≠ "MAIN_MANAGER")) :
    TeamService.AddMembersToTeam s producer team L actor =
      ({ addedCount := 0, failedCount := L.length, failedMembers := L,
         err := some (.msg "you are not a manager") }, s, []) := by
  unfold TeamService.AddMembersToTeam
  rcases h with ⟨e, he⟩ | ⟨role, hr, h1, h2⟩
  · simp [he]
  · simp [hr, h1, h2]

/-- Witness of C18: member 12 of the example database, and user 99 who is
not on the roster, try to add users 20 and 21 to team 1. -/
theorem C18_add_members_not_manager_witness :
    TeamService.AddMembersToTeam demoStore (some (fun _ => none)) 1 [20, 21] 12 =
      ({ addedCount := 0, failedCount := 2, failedMembers := [20, 21],
         err := some (.msg "you are not a manager") }, demoStore, []) ∧
    TeamService.AddMembersToTeam demoStore (some (fun _ => none)) 1 [20, 21] 99 =
      ({ addedCount := 0, failedCount := 2, failedMembers := [20, 21],
         err := some (.msg "you are not a manager") }, demoStore, []) :=
  ⟨C18_add_members_not_manager demoStore (some (fun _ => none)) 1 12 [20, 21]
     (Or.inr ⟨"MEMBER", by decide, by decide, by decide⟩),
   C18_add_members_not_manager demoStore (some (fun _ => none)) 1 99 [20, 21]
     (Or.inl ⟨.recordNotFound, by decide⟩)⟩

/-- The first loop in closed form: the users already known are reported,
the others get a MEMBER roster, both in the order of the list. -/
theorem splitCandidates_eq (team : UUID) (ex : List UUID) (L : List UUID) :
    ∀ (fm : List UUID) (fc : Nat) (valid : List Roster),
      TeamService.splitCandidates team ex L fm fc valid =
        (fm ++ L.filter (fun u => ex.contains u),
          fc + (L.filter (fun u => ex.contains u)).length,
          valid ++ (L.filter (fun u => !(ex.contains u))).map (memberRoster team)) := by
  induction L with
  | nil => intro fm fc valid; simp [TeamService.splitCandidates]
  | cons u rest ih =>
    intro fm fc valid
    unfold TeamService.splitCandidates
    by_cases hu : u ∈ ex
    · have hc : ex.contains u = true := by simpa using hu
      simp only [hc, if_true]
      rw [ih]
      simp [hu, List.filter_cons, Nat.add_assoc, Nat.add_comm 1]
    · have hc : ex.contains u = false := by simpa using hu
      simp only [hc, Bool.false_eq_true, if_false]
      rw [ih]
      simp [hu, List.filter_cons, memberRoster]

/-- An insert changes the roster table only. -/
theorem AddMemberToTeam_ok (s s2 : Store) (r : Roster)
    (h : AddMemberToTeam s r = .ok s2) : s2 = { s with rosters := s.rosters ++ [r] } := by
  unfold AddMemberToTeam at h
  cases h1 : s.faults.addMemberToTeam with
  | some e => rw [h1] at h; cases h
  | none =>
    simp only [h1] at h
    cases h2 : s.faults.addMemberToTeamFor.find? (fun p => p.1 == r.UserID) with
    | some p => simp [h2] at h
    | none =>
      simp only [h2, Except.ok.injEq] at h
      exact h.symm

/-- Whether an insert is refused does not depend on the roster table. -/
theorem insertRefused_rosters (s : Store) (rows : List Roster) (r : Roster) :
    insertRefused { s with rosters := rows } r = insertRefused s r := by
  unfold insertRefused AddMemberToTeam
  cases h1 : s.faults.addMemberToTeam with
  | some e => simp [h1]
  | none =>
    cases h2 : s.faults.addMemberToTeamFor.find? (fun p => p.1 == r.UserID) <;> simp [h1, h2]

/-- The second loop in closed form: the rosters the database accepts are
appended to the table in order, the others are reported. -/
theorem insertRosters_eq (valid : List Roster) :
    ∀ (s : Store) (fm : List UUID) (fc : Nat),
      TeamService.insertRosters s valid fm fc =
        ({ s with rosters := s.rosters ++ valid.filter (fun r => !(insertRefused s r)) },
          fm ++ (valid.filter (fun r => insertRefused s r)).map (fun r => r.UserID),
          fc + (valid.filter (fun r => insertRefused s r)).length) := by
  induction valid with
  | nil => intro s fm fc; simp [TeamService.insertRosters]
  | cons r rest ih =>
    intro s fm fc
    unfold TeamService.insertRosters
    cases hr : AddMemberToTeam s r with
    | error e =>
      have href : insertRefused s r = true := by simp [insertRefused, hr]
      simp only
      rw [ih]
      simp [href, List.filter_cons, Nat.add_assoc, Nat.add_comm 1]
    | ok s2 =>
      have href : insertRefused s r = false := by simp [insertRefused, hr]
      have hs2 := AddMemberToTeam_ok s s2 r hr
      subst hs2
      simp only
      rw [ih]
      simp only [insertRefused_rosters, href, List.filter_cons, Bool.not_false, if_true,
        Bool.false_eq_true, if_false, List.append_assoc, List.singleton_append]

/-- The map of existing members that AddMembersToTeam builds knows a user
exactly when the user has a roster row in the team. -/
theorem existing_contains (s : Store) (team u : UUID) :
    (((s.rosters.filter (fun r => r.TeamID == team)).map (fun r =>
        ({ TeamID := 0, UserID := r.UserID, Role := "" } : Roster))).map
      (fun member => member.UserID)).contains u = onRoster s team u := by
  unfold onRoster
  rw [Bool.eq_iff_iff]
  simp only [List.contains, List.elem_eq_mem, decide_eq_true_eq, List.mem_map,
    List.mem_filter, List.any_eq_true, beq_iff_eq, Bool.and_eq_true]
  constructor
  · rintro ⟨m, ⟨r, ⟨hr, hteam⟩, rfl⟩, rfl⟩
    exact ⟨r, hr, hteam, rfl⟩
  · rintro ⟨r, hr, hteam, hu⟩
    exact ⟨_, ⟨r, ⟨hr, hteam⟩, rfl⟩, hu⟩

/-- AddMembersToTeam in closed form, for an actor who is a manager and a
roster read that does not fail. -/
theorem AddMembersToTeam_manager (s : Store) (producer : Option Producer)
    (team actor : UUID) (L : List UUID) (role : String)
    (hr : GetUserRoleInTeam s team actor = .ok role)
    (hm : role = "MANAGER" ∨ role = "MAIN_MANAGER")
    (hf : s.faults.getTeamMembers = none) :
    TeamService.AddMembersToTeam s producer team L actor =
      ({ addedCount :=
           ((L.filter (fun u => !(onRoster s team u))).map (memberRoster team)).length,
         failedCount := (L.filter (fun u => onRoster s team u)).length +
           (((L.filter (fun u => !(onRoster s team u))).map (memberRoster team)).filter
             (fun r => insertRefused s r)).length,
         failedMembers := L.filter (fun u => onRoster s team u) ++
           (((L.filter (fun u => !(onRoster s team u))).map (memberRoster team)).filter
             (fun r => insertRefused s r)).map (fun r => r.UserID),
         err := none },
       { s with
         rosters := s.rosters ++
           ((L.filter (fun u => !(onRoster s team u))).map (memberRoster team)).filter
             (fun r => !(insertRefused s r)) },
       TeamService.sendMemberAdded producer team actor
         ((L.filter (fun u => !(onRoster s team u))).map (memberRoster team))) := by
  have hnot : ¬ (role ≠ "MANAGER" ∧ role ≠ "MAIN_MANAGER") := by
    rintro ⟨h1, h2⟩
    rcases hm with h | h
    · exact h1 h
    · exact h2 h
  unfold TeamService.AddMembersToTeam
  rw [hr]
  simp only [hnot, if_false]
  unfold GetTeamMembers
  rw [hf]
  simp only [splitCandidates_eq, existing_contains, List.nil_append, Nat.zero_add]
  by_cases hv : ((L.filter (fun u => !(onRoster s team u))).map (memberRoster team)).length = 0
  · have hnil : (L.filter (fun u => !(onRoster s team u))).map (memberRoster team) = [] :=
      List.length_eq_zero.mp hv
    simp only [hnil, List.length_nil, if_true, List.filter_nil, List.map_nil,
      List.append_nil, Nat.add_zero]
    cases producer <;> simp [TeamService.sendMemberAdded]
  · simp only [hv, if_false, insertRosters_eq]

/-- C19: for an actor who is a manager of the team and any list L, every
user of L who already has a roster row in the team is in the failed-members
list, is counted in failedCount (which is the length of that list), and the
roster rows of that user are the same after the call; the call returns no
error unless the read of the roster itself fails, and when no insert is
refused either the failed members are exactly the users of L already on the
roster. -/
theorem C19_existing_members_reported (s : Store) (producer : Option Producer)
    (team actor : UUID) (L : List UUID) (role : String)
    (hr : GetUserRoleInTeam s team actor = .ok role)
    (hm : role = "MANAGER" ∨ role = "MAIN_MANAGER") :
    (∀ u ∈ L, onRoster s team u = true →
      u ∈ (TeamService.AddMembersToTeam s producer team L actor).1.failedMembers) ∧
    (L.filter (fun u => onRoster s team u)).length ≤
      (TeamService.AddMembersToTeam s producer team L actor).1.failedCount ∧
    (TeamService.AddMembersToTeam s producer team L actor).1.failedCount =
      (TeamService.AddMembersToTeam s producer team L actor).1.failedMembers.length ∧
    (∀ u, onRoster s team u = true →
      (TeamService.AddMembersToTeam s producer team L actor).2.1.rosters.filter
          (fun r => r.TeamID == team && r.UserID == u) =
        s.rosters.filter (fun r => r.TeamID == team && r.UserID == u)) ∧
    (s.faults.getTeamMembers = none →
      (TeamService.AddMembersToTeam s producer team L actor).1.err = none) ∧
    (s.faults.getTeamMembers = none → s.faults.addMemberToTeam = none →
      s.faults.addMemberToTeamFor = [] →
      (TeamService.AddMembersToTeam s producer team L actor).1.failedMembers =
        L.filter (fun u => onRoster s team u)) := by
  cases hf : s.faults.getTeamMembers with
  | some e =>
    have hnot : ¬ (role ≠ "MANAGER" ∧ role ≠ "MAIN_MANAGER") := by
      rintro ⟨h1, h2⟩
      rcases hm with h | h
      · exact h1 h
      · exact h2 h
    have hres : TeamService.AddMembersToTeam s producer team L actor =
        ({ addedCount := 0, failedCount := L.length, failedMembers := L, err := some e },
          s, []) := by
      unfold TeamService.AddMembersToTeam
      rw [hr]
      simp only [hnot, if_false]
      unfold GetTeamMembers
      rw [hf]
    rw [hres]
    refine ⟨fun u hu _ => hu, List.length_filter_le _ _, rfl, fun _ _ => rfl, ?_, ?_⟩
    · intro h; cases h
    · intro h; cases h
  | none =>
    rw [AddMembersToTeam_manager s producer team actor L role hr hm hf]
    refine ⟨?_, ?_, ?_, ?_, ?_, ?_⟩
    · intro u hu hon
      exact List.mem_append_left _ (List.mem_filter.mpr ⟨hu, hon⟩)
    · exact Nat.le_add_right _ _
    · simp
    · intro u hon
      simp only [List.filter_append]
      have hnil : (((L.filter (fun u => !(onRoster s team u))).map (memberRoster team)).filter
          (fun r => !(insertRefused s r))).filter
            (fun r => r.TeamID == team && r.UserID == u) = [] := by
        rw [List.filter_eq_nil_iff]
        intro r hrm
        have hrm2 := (List.mem_filter.mp hrm).1
        rw [List.mem_map] at hrm2
        obtain ⟨v, hv, rfl⟩ := hrm2
        have hv2 := (List.mem_filter.mp hv).2
        intro hk
        have hvu : v = u := by simpa [memberRoster] using hk
        subst hvu
        simp [hon] at hv2
      rw [hnil, List.append_nil]
    · intro _; rfl
    · intro _ h1 h2
      have href : ∀ r, insertRefused s r = false := by
        intro r
        simp [insertRefused, AddMemberToTeam, h1, h2]
      simp [href]

/-- Witness of C19: main manager 10 adds member 12, who is on the roster of
team 1, and the new user 20; 12 is reported as failed and keeps one roster
row, 20 is added, and the call returns no error. -/
theorem C19_existing_members_reported_witness :
    GetUserRoleInTeam demoStore 1 10 = .ok "MAIN_MANAGER" ∧
    (TeamService.AddMembersToTeam demoStore none 1 [12, 20] 10).1 =
      { addedCount := 1, failedCount := 1, failedMembers := [12], err := none } ∧
    12 ∈ (TeamService.AddMembersToTeam demoStore none 1 [12, 20] 10).1.failedMembers ∧
    (TeamService.AddMembersToTeam demoStore none 1 [12, 20] 10).2.1.rosters.filter
        (fun r => r.TeamID == 1 && r.UserID == 12) =
      demoStore.rosters.filter (fun r => r.TeamID == 1 && r.UserID == 12) :=
  ⟨by decide, by decide,
   (C19_existing_members_reported demoStore none 1 10 [12, 20] "MAIN_MANAGER" (by decide)
      (Or.inr rfl)).1 12 (by decide) (by decide),
   (C19_existing_members_reported demoStore none 1 10 [12, 20] "MAIN_MANAGER" (by decide)
      (Or.inr rfl)).2.2.2.1 12 (by decide)⟩

/-- C20 fails on the code: the example database has at most one roster row
per (team, user); main manager 10 adds the list [20, 20] to team 1; user 20
is not in the map of existing members at either occurrence, both rosters are
inserted, and team 1 ends with two rows for user 20. -/
theorem C20_repeated_user_inserted_twice :
    RosterUnique demoStore ∧
    (TeamService.AddMembersToTeam demoStore none 1 [20, 20] 10).1 =
      { addedCount := 2, failedCount := 0, failedMembers := [], err := none } ∧
    (TeamService.AddMembersToTeam demoStore none 1 [20, 20] 10).2.1.rosters.filter
        (fun r => r.TeamID == 1 && r.UserID == 20) =
      [{ TeamID := 1, UserID := 20, Role := "MEMBER" },
       { TeamID := 1, UserID := 20, Role := "MEMBER" }] ∧
    ¬ RosterUnique (TeamService.AddMembersToTeam demoStore none 1 [20, 20] 10).2.1 := by
  decide

/-! ## Removing managers and members -/

/-- C22: RemoveManagerFromTeam reaches the delete of the target's roster
rows exactly when the actor is not the target, the role lookup finds
MAIN_MANAGER for the actor and MANAGER for the target: then it returns what
the store delete returns, and when that delete does not fail the rows of
(team, target) are gone and every other row is kept.  In every other case it
returns an error, the store is as it was and no event is handed to the
producer. -/
theorem C22_remove_manager (s : Store) (producer : Option Producer)
    (team target actor : UUID) :
    ((actor ≠ target ∧ GetUserRoleInTeam s team actor = .ok "MAIN_MANAGER" ∧
        GetUserRoleInTeam s team target = .ok "MANAGER") →
      TeamService.RemoveManagerFromTeam s producer team target actor =
        (match TeamRepository.RemoveMemberFromTeam s team target with
          | .ok s2 =>
            (none, s2,
              TeamService.sendRemoval producer .EventManagerRemoved team actor target)
          | .error e =>
            (some e, s,
              TeamService.sendRemoval producer .EventManagerRemoved team actor target)) ∧
      (s.faults.removeMemberFromTeam = none →
        (TeamService.RemoveManagerFromTeam s producer team target actor).1 = none ∧
        (TeamService.RemoveManagerFromTeam s producer team target actor).2.1.rosters =
          s.rosters.filter (fun r => !(r.TeamID == team && r.UserID == target)))) ∧
    (¬ (actor ≠ target ∧ GetUserRoleInTeam s team actor = .ok "MAIN_MANAGER" ∧
        GetUserRoleInTeam s team target = .ok "MANAGER") →
      ∃ e, TeamService.RemoveManagerFromTeam s producer team target actor =
        (some e, s, [])) := by
  constructor
  · rintro ⟨hne, ha, ht⟩
    have hne2 : ¬ target = actor := fun h => hne h.symm
    have hres : TeamService.RemoveManagerFromTeam s producer team target actor =
        (match TeamRepository.RemoveMemberFromTeam s team target with
          | .ok s2 =>
            (none, s2,
              TeamService.sendRemoval producer .EventManagerRemoved team actor target)
          | .error e =>
            (some e, s,
              TeamService.sendRemoval producer .EventManagerRemoved team actor target)) := by
      unfold TeamService.RemoveManagerFromTeam
      simp only [hne2, if_false, ha, ht]
      cases TeamRepository.RemoveMemberFromTeam s team target <;> simp
    refine ⟨hres, ?_⟩
    intro hf
    rw [hres]
    unfold TeamRepository.RemoveMemberFromTeam
    rw [hf]
    exact ⟨rfl, rfl⟩
  · intro hnot
    unfold TeamService.RemoveManagerFromTeam
    by_cases hta : target = actor
    · exact ⟨.msg "you cannot remove yourself", by simp [hta]⟩
    · simp only [hta, if_false]
      cases ha : GetUserRoleInTeam s team actor with
      | error e => exact ⟨.msg "you are not the main manager", by simp⟩
      | ok ar =>
        by_cases har : ar = "MAIN_MANAGER"
        · subst har
          cases ht : GetUserRoleInTeam s team target with
          | error e => exact ⟨.msg "target user is not a manager", by simp⟩
          | ok tr =>
            by_cases htr : tr = "MANAGER"
            · subst htr
              exact absurd ⟨fun h => hta h.symm, ha, ht⟩ hnot
            · exact ⟨.msg "target user is not a manager", by simp [htr]⟩
        · exact ⟨.msg "you are not the main manager", by simp [har]⟩

/-- Witness of C22: in the example database main manager 10 removes manager
11; the same call on member 12 and the call of 10 on 10 are refused. -/
theorem C22_remove_manager_witness :
    (TeamService.RemoveManagerFromTeam demoStore none 1 11 10).1 = none ∧
    (TeamService.RemoveManagerFromTeam demoStore none 1 11 10).2.1.rosters =
      demoStore.rosters.filter (fun r => !(r.TeamID == 1 && r.UserID == 11)) ∧
    (∃ e, TeamService.RemoveManagerFromTeam demoStore none 1 12 10 = (some e, demoStore, [])) ∧
    (∃ e, TeamService.RemoveManagerFromTeam demoStore none 1 10 10 = (some e, demoStore, [])) :=
  ⟨(((C22_remove_manager demoStore none 1 11 10).1
      ⟨by decide, by decide, by decide⟩).2 (by decide)).1,
   (((C22_remove_manager demoStore none 1 11 10).1
      ⟨by decide, by decide, by decide⟩).2 (by decide)).2,
   (C22_remove_manager demoStore none 1 12 10).2 (by decide),
   (C22_remove_manager demoStore none 1 10 10).2 (by decide)⟩

/-- The role a lookup finds is the role of a row of the table. -/
theorem GetUserRoleInTeam_ok (s : Store) (team user : UUID) (role : String)
    (h : GetUserRoleInTeam s team user = .ok role) :
    ∃ r ∈ s.rosters, r.TeamID = team ∧ r.UserID = user ∧ r.Role = role ∧
      s.rosters.find? (fun r => r.TeamID == team && r.UserID == user) = some r := by
  unfold GetUserRoleInTeam at h
  cases hf : s.faults.getUserRoleInTeam with
  | some e => rw [hf] at h; cases h
  | none =>
    rw [hf] at h
    cases hfind : s.rosters.find? (fun r => r.TeamID == team && r.UserID == user) with
    | none => rw [hfind] at h; cases h
    | some r =>
      rw [hfind] at h
      simp only [Except.ok.injEq] at h
      have hp := List.find?_some hfind
      simp only [Bool.and_eq_true, beq_iff_eq] at hp
      exact ⟨r, List.mem_of_find?_eq_some hfind, hp.1, hp.2, h, rfl⟩

/-- C23: RemoveMemberFromTeam refuses with "you are not a manager" when the
role lookup of the actor fails or finds a role other than MANAGER and
MAIN_MANAGER, and with "cannot remove a manager or main manager" when the
lookup of the target fails (no roster entry) or finds MANAGER or
MAIN_MANAGER; in both cases the store is as it was.  For a manager actor and
a target whose role is MEMBER it returns what the store delete returns, and
when that delete does not fail the rows of (team, target) are gone.  With
the roles of the data model, the store changes only if the actor is a
manager and the target's role is MEMBER. -/
theorem C23_remove_member (s : Store) (producer : Option Producer)
    (team target actor : UUID) :
    ((∀ ar, GetUserRoleInTeam s team actor = .ok ar → ar ≠ "MANAGER" ∧ ar ≠ "MAIN_MANAGER") →
      TeamService.RemoveMemberFromTeam s producer team target actor =
        (some (.msg "you are not a manager"), s, [])) ∧
    (∀ ar, GetUserRoleInTeam s team actor = .ok ar → (ar = "MANAGER" ∨ ar = "MAIN_MANAGER") →
      ((∀ tr, GetUserRoleInTeam s team target = .ok tr →
          tr = "MAIN_MANAGER" ∨ tr = "MANAGER") →
        TeamService.RemoveMemberFromTeam s producer team target actor =
          (some (.msg "cannot remove a manager or main manager"), s, [])) ∧
      (GetUserRoleInTeam s team target = .ok "MEMBER" →
        TeamService.RemoveMemberFromTeam s producer team target actor =
          (match TeamRepository.RemoveMemberFromTeam s team target with
            | .ok s2 =>
              (none, s2,
                TeamService.sendRemoval producer .EventMemberRemoved team actor target)
            | .error e =>
              (some e, s,
                TeamService.sendRemoval producer .EventMemberRemoved team actor target)) ∧
        (s.faults.removeMemberFromTeam = none →
          (TeamService.RemoveMemberFromTeam s producer team target actor).1 = none ∧
          (TeamService.RemoveMemberFromTeam s producer team target actor).2.1.rosters =
            s.rosters.filter (fun r => !(r.TeamID == team && r.UserID == target))))) ∧
    (RolesKnown s →
      (TeamService.RemoveMemberFromTeam s producer team target actor).2.1 ≠ s →
      (GetUserRoleInTeam s team actor = .ok "MANAGER" ∨
        GetUserRoleInTeam s team actor = .ok "MAIN_MANAGER") ∧
      GetUserRoleInTeam s team target = .ok "MEMBER") := by
  refine ⟨?_, ?_, ?_⟩
  · intro h
    unfold TeamService.RemoveMemberFromTeam
    cases ha : GetUserRoleInTeam s team actor with
    | error e => simp
    | ok ar =>
      obtain ⟨h1, h2⟩ := h ar ha
      simp [h1, h2]
  · intro ar ha har
    have hman : (ar != "MANAGER" && ar != "MAIN_MANAGER") = false := by
      rcases har with h | h <;> subst h <;> decide
    constructor
    · intro ht
      unfold TeamService.RemoveMemberFromTeam
      simp only [ha, hman, Bool.false_eq_true, if_false]
      cases htl : GetUserRoleInTeam s team target with
      | error e => simp
      | ok tr =>
        rcases ht tr htl with h | h <;> subst h <;> simp
    · intro ht
      have hres : TeamService.RemoveMemberFromTeam s producer team target actor =
          (match TeamRepository.RemoveMemberFromTeam s team target with
            | .ok s2 =>
              (none, s2,
                TeamService.sendRemoval producer .EventMemberRemoved team actor target)
            | .error e =>
              (some e, s,
                TeamService.sendRemoval producer .EventMemberRemoved team actor target)) := by
        unfold TeamService.RemoveMemberFromTeam
        simp only [ha, hman, Bool.false_eq_true, if_false, ht]
        cases TeamRepository.RemoveMemberFromTeam s team target <;> simp
      refine ⟨hres, ?_⟩
      intro hf
      rw [hres]
      unfold TeamRepository.RemoveMemberFromTeam
      rw [hf]
      exact ⟨rfl, rfl⟩
  · intro hroles hchg
    unfold TeamService.RemoveMemberFromTeam at hchg
    cases ha : GetUserRoleInTeam s team actor with
    | error e => simp [ha] at hchg
    | ok ar =>
      by_cases har : ar = "MANAGER" ∨ ar = "MAIN_MANAGER"
      · have hman : (ar != "MANAGER" && ar != "MAIN_MANAGER") = false := by
          rcases har with h | h <;> subst h <;> decide
        cases ht : GetUserRoleInTeam s team target with
        | error e => simp [ha, hman, ht] at hchg
        | ok tr =>
          obtain ⟨r, hr, _, _, hrole, _⟩ := GetUserRoleInTeam_ok s team target tr ht
          have hknown := hroles r hr
          rw [hrole] at hknown
          rcases hknown with h | h | h
          · subst h; simp [ha, hman, ht] at hchg
          · subst h; simp [ha, hman, ht] at hchg
          · subst h
            refine ⟨?_, rfl⟩
            rcases har with h | h
            · left; rw [h]
            · right; rw [h]
      · have h1 : ar ≠ "MANAGER" := fun h => har (Or.inl h)
        have h2 : ar ≠ "MAIN_MANAGER" := fun h => har (Or.inr h)
        simp [ha, h1, h2] at hchg

/-- Witness of C23: in the example database manager 11 removes member 12;
member 13 may not remove anybody, and manager 11 may neither remove main
manager 10 nor user 99, who is not on the roster. -/
theorem C23_remove_member_witness :
    (TeamService.RemoveMemberFromTeam demoStore none 1 12 11).1 = none ∧
    (TeamService.RemoveMemberFromTeam demoStore none 1 12 11).2.1.rosters =
      demoStore.rosters.filter (fun r => !(r.TeamID == 1 && r.UserID == 12)) ∧
    TeamService.RemoveMemberFromTeam demoStore none 1 12 13 =
      (some (.msg "you are not a manager"), demoStore, []) ∧
    TeamService.RemoveMemberFromTeam demoStore none 1 10 11 =
      (some (.msg "cannot remove a manager or main manager"), demoStore, []) ∧
    TeamService.RemoveMemberFromTeam demoStore none 1 99 11 =
      (some (.msg "cannot remove a manager or main manager"), demoStore, []) := by
  have h12 := ((C23_remove_member demoStore none 1 12 11).2.1 "MANAGER" (by decide)
    (Or.inl rfl)).2 (by decide)
  refine ⟨(h12.2 (by decide)).1, (h12.2 (by decide)).2, ?_, ?_, ?_⟩
  · apply (C23_remove_member demoStore none 1 12 13).1
    intro ar har
    have h2 : GetUserRoleInTeam demoStore 1 13 = .ok "MEMBER" := by decide
    rw [h2] at har
    cases har
    decide
  · apply ((C23_remove_member demoStore none 1 10 11).2.1 "MANAGER" (by decide)
      (Or.inl rfl)).1
    intro tr htr
    have h2 : GetUserRoleInTeam demoStore 1 10 = .ok "MAIN_MANAGER" := by decide
    rw [h2] at htr
    cases htr
    exact Or.inl rfl
  · apply ((C23_remove_member demoStore none 1 99 11).2.1 "MANAGER" (by decide)
      (Or.inl rfl)).1
    intro tr htr
    have h2 : GetUserRoleInTeam demoStore 1 99 = .error .recordNotFound := by decide
    rw [h2] at htr
    cases htr

/-! ## The main manager of a team -/

/-- Setting the roster table to itself plus nothing is no change. -/
theorem store_rosters_append_nil (s : Store) :
    ({ s with rosters := s.rosters ++ [] } : Store) = s := by
  cases s
  simp

/-- AddMembersToTeam only appends roster rows: MEMBER rows of the team, for
users who had no row in the team. -/
theorem AddMembersToTeam_rosters (s : Store) (producer : Option Producer)
    (team actor : UUID) (L : List UUID) :
    ∃ extra : List Roster,
      (TeamService.AddMembersToTeam s producer team L actor).2.1 =
        { s with rosters := s.rosters ++ extra } ∧
      ∀ r ∈ extra, r.TeamID = team ∧ r.Role = "MEMBER" ∧ onRoster s team r.UserID = false := by
  have hsame : (TeamService.AddMembersToTeam s producer team L actor).2.1 = s →
      ∃ extra : List Roster,
        (TeamService.AddMembersToTeam s producer team L actor).2.1 =
          { s with rosters := s.rosters ++ extra } ∧
        ∀ r ∈ extra, r.TeamID = team ∧ r.Role = "MEMBER" ∧
          onRoster s team r.UserID = false := by
    intro h
    refine ⟨[], ?_, ?_⟩
    · rw [h, store_rosters_append_nil]
    · intro r hr; cases hr
  cases hr : GetUserRoleInTeam s team actor with
  | error e =>
    apply hsame
    unfold TeamService.AddMembersToTeam
    simp [hr]
  | ok role =>
    by_cases hm : role = "MANAGER" ∨ role = "MAIN_MANAGER"
    · cases hf : s.faults.getTeamMembers with
      | some e =>
        apply hsame
        have hnot : ¬ (role ≠ "MANAGER" ∧ role ≠ "MAIN_MANAGER") := by
          rintro ⟨h1, h2⟩
          rcases hm with h | h
          · exact h1 h
          · exact h2 h
        unfold TeamService.AddMembersToTeam
        rw [hr]
        simp only [hnot, if_false]
        unfold GetTeamMembers
        rw [hf]
      | none =>
        rw [AddMembersToTeam_manager s producer team actor L role hr hm hf]
        refine ⟨_, rfl, ?_⟩
        intro r hrm
        have hrm2 := (List.mem_filter.mp hrm).1
        rw [List.mem_map] at hrm2
        obtain ⟨v, hv, rfl⟩ := hrm2
        have hv2 := (List.mem_filter.mp hv).2
        refine ⟨rfl, rfl, ?_⟩
        simpa [memberRoster] using hv2
    · apply hsame
      have h1 : role ≠ "MANAGER" := fun h => hm (Or.inl h)
      have h2 : role ≠ "MAIN_MANAGER" := fun h => hm (Or.inr h)
      unfold TeamService.AddMembersToTeam
      simp [hr, h1, h2]

/-- RemoveMemberFromTeam leaves the store as it was, or found a role other
than MAIN_MANAGER for the target and removed the rows of (team, target). -/
theorem RemoveMemberFromTeam_store (s : Store) (producer : Option Producer)
    (team target actor : UUID) :
    (TeamService.RemoveMemberFromTeam s producer team target actor).2.1 = s ∨
    (∃ role, GetUserRoleInTeam s team target = .ok role ∧ role ≠ "MAIN_MANAGER" ∧
      (TeamService.RemoveMemberFromTeam s producer team target actor).2.1 =
        { s with
          rosters := s.rosters.filter (fun r => !(r.TeamID == team && r.UserID == target)) }) := by
  unfold TeamService.RemoveMemberFromTeam
  cases ha : GetUserRoleInTeam s team actor with
  | error e => left; simp
  | ok ar =>
    by_cases hman : (ar != "MANAGER" && ar != "MAIN_MANAGER") = true
    · left; simp [hman]
    · cases ht : GetUserRoleInTeam s team target with
      | error e => left; simp [hman]
      | ok tr =>
        by_cases href : (tr == "MAIN_MANAGER" || tr == "MANAGER") = true
        · left; simp [hman, href]
        · have hne : tr ≠ "MAIN_MANAGER" := by
            intro h; subst h; simp at href
          simp only [hman, href, Bool.false_eq_true, if_false]
          unfold TeamRepository.RemoveMemberFromTeam
          cases hf : s.faults.removeMemberFromTeam with
          | some e => left; rfl
          | none => right; exact ⟨tr, rfl, hne, rfl⟩

/-- RemoveManagerFromTeam leaves the store as it was, or found a role other
than MAIN_MANAGER for the target and removed the rows of (team, target). -/
theorem RemoveManagerFromTeam_store (s : Store) (producer : Option Producer)
    (team target actor : UUID) :
    (TeamService.RemoveManagerFromTeam s producer team target actor).2.1 = s ∨
    (∃ role, GetUserRoleInTeam s team target = .ok role ∧ role ≠ "MAIN_MANAGER" ∧
      (TeamService.RemoveManagerFromTeam s producer team target actor).2.1 =
        { s with
          rosters := s.rosters.filter (fun r => !(r.TeamID == team && r.UserID == target)) }) := by
  unfold TeamService.RemoveManagerFromTeam
  by_cases hta : target = actor
  · left; simp [hta]
  · simp only [hta, if_false]
    cases ha : GetUserRoleInTeam s team actor with
    | error e => left; simp
    | ok ar =>
      by_cases hmain : (ar != "MAIN_MANAGER") = true
      · left; simp [hmain]
      · cases ht : GetUserRoleInTeam s team target with
        | error e => left; simp [hmain]
        | ok tr =>
          by_cases href : (tr != "MANAGER") = true
          · left; simp [hmain, href]
          · have htr : tr = "MANAGER" := by simpa using href
            have hne : tr ≠ "MAIN_MANAGER" := by
              rw [htr]; decide
            simp only [hmain, href, Bool.false_eq_true, if_false]
            unfold TeamRepository.RemoveMemberFromTeam
            cases hf : s.faults.removeMemberFromTeam with
            | some e => left; rfl
            | none => right; exact ⟨tr, rfl, hne, rfl⟩

/-- Under the leadership invariant the creator is on the roster. -/
theorem LeaderInv_mem (s : Store) (T C : UUID) (h : LeaderInv s T C) :
    ({ TeamID := T, UserID := C, Role := "MAIN_MANAGER" } : Roster) ∈ s.rosters := by
  have hm : ({ TeamID := T, UserID := C, Role := "MAIN_MANAGER" } : Roster) ∈
      s.rosters.filter (leaderPred T C) := by
    rw [h]; exact List.mem_singleton.mpr rfl
  exact (List.mem_filter.mp hm).1

/-- Under the leadership invariant every row that concerns the leadership is
the MAIN_MANAGER row of the creator. -/
theorem LeaderInv_row (s : Store) (T C : UUID) (h : LeaderInv s T C) (r : Roster)
    (hr : r ∈ s.rosters) (hp : leaderPred T C r = true) :
    r = { TeamID := T, UserID := C, Role := "MAIN_MANAGER" } := by
  have hm : r ∈ s.rosters.filter (leaderPred T C) := List.mem_filter.mpr ⟨hr, hp⟩
  rw [h] at hm
  exact List.mem_singleton.mp hm

/-- The leadership invariant survives the removal of the rows of a pair
whose role lookup finds a role other than MAIN_MANAGER. -/
theorem LeaderInv_remove (s : Store) (T C team target : UUID) (role : String)
    (h : LeaderInv s T C) (hrole : GetUserRoleInTeam s team target = .ok role)
    (hne : role ≠ "MAIN_MANAGER") :
    LeaderInv
      { s with
        rosters := s.rosters.filter (fun r => !(r.TeamID == team && r.UserID == target)) }
      T C := by
  obtain ⟨r0, hr0, ht0, hu0, hrole0, _⟩ := GetUserRoleInTeam_ok s team target role hrole
  have hpair : ¬ (team = T ∧ target = C) := by
    rintro ⟨h1, h2⟩
    have hp : leaderPred T C r0 = true := by
      simp [leaderPred, ht0, hu0, h1, h2]
    have := LeaderInv_row s T C h r0 hr0 hp
    rw [this] at hrole0
    exact hne hrole0.symm
  unfold LeaderInv at h ⊢
  show (s.rosters.filter (fun r => !(r.TeamID == team && r.UserID == target))).filter
    (leaderPred T C) = _
  rw [List.filter_filter, ← h]
  apply List.filter_congr
  intro r hr
  by_cases hp : leaderPred T C r = true
  · have hrow := LeaderInv_row s T C (by unfold LeaderInv; exact h) r hr hp
    subst hrow
    have : ¬ (T = team ∧ C = target) := fun hh => hpair ⟨hh.1.symm, hh.2.symm⟩
    simp [hp]
    exact not_and_or.mp this
  · simp [hp]

/-- Every call of the roster-changing methods keeps the leadership
invariant. -/
theorem LeaderInv_step (s : Store) (T C : UUID) (h : LeaderInv s T C) (op : TeamOp) :
    LeaderInv (op.apply s) T C := by
  cases op with
  | addMembers producer team L actor =>
    obtain ⟨extra, hs, hextra⟩ := AddMembersToTeam_rosters s producer team actor L
    show LeaderInv (TeamService.AddMembersToTeam s producer team L actor).2.1 T C
    rw [hs]
    unfold LeaderInv at h ⊢
    show (s.rosters ++ extra).filter (leaderPred T C) = _
    rw [List.filter_append, h]
    have hnil : extra.filter (leaderPred T C) = [] := by
      rw [List.filter_eq_nil_iff]
      intro r hr hp
      obtain ⟨h1, h2, h3⟩ := hextra r hr
      simp only [leaderPred, Bool.and_eq_true, beq_iff_eq, Bool.or_eq_true, h2] at hp
      obtain ⟨hT, hC⟩ := hp
      rcases hC with hC | hC
      · have hon : onRoster s team r.UserID = true := by
          unfold onRoster
          rw [List.any_eq_true]
          refine ⟨_, LeaderInv_mem s T C (by unfold LeaderInv; exact h), ?_⟩
          simp [← hT, h1, hC]
        rw [hon] at h3
        cases h3
      · exact absurd hC (by decide)
    rw [hnil, List.append_nil]
  | removeMember producer team target actor =>
    show LeaderInv (TeamService.RemoveMemberFromTeam s producer team target actor).2.1 T C
    rcases RemoveMemberFromTeam_store s producer team target actor with hs | ⟨role, hr, hne, hs⟩
    · rw [hs]; exact h
    · rw [hs]; exact LeaderInv_remove s T C team target role h hr hne
  | removeManager producer team target actor =>
    show LeaderInv (TeamService.RemoveManagerFromTeam s producer team target actor).2.1 T C
    rcases RemoveManagerFromTeam_store s producer team target actor with hs | ⟨role, hr, hne, hs⟩
    · rw [hs]; exact h
    · rw [hs]; exact LeaderInv_remove s T C team target role h hr hne

/-- Every sequence of calls keeps the leadership invariant. -/
theorem LeaderInv_run (ops : List TeamOp) :
    ∀ (s : Store) (T C : UUID), LeaderInv s T C → LeaderInv (runOps s ops) T C := by
  induction ops with
  | nil => intro s T C h; exact h
  | cons op rest ih =>
    intro s T C h
    unfold runOps
    rw [List.foldl_cons]
    exact ih _ T C (LeaderInv_step s T C h op)

/-- Under the leadership invariant the team has exactly one MAIN_MANAGER
row, the row of the creator. -/
theorem LeaderInv_mainManagers (s : Store) (T C : UUID) (h : LeaderInv s T C) :
    mainManagers s T = [{ TeamID := T, UserID := C, Role := "MAIN_MANAGER" }] := by
  have h2 : mainManagers s T = (s.rosters.filter (leaderPred T C)).filter
      (fun r => r.TeamID == T && r.Role == "MAIN_MANAGER") := by
    unfold mainManagers
    rw [List.filter_filter]
    apply List.filter_congr
    intro r _
    unfold leaderPred
    cases r.TeamID == T <;> cases r.UserID == C <;> cases r.Role == "MAIN_MANAGER" <;> rfl
  rw [h2, h]
  simp

/-- A successful CreateTeam in closed form: the team row and the
MAIN_MANAGER row of the creator are inserted, then AddMembersToTeam runs on
that store when the list is not empty. -/
theorem CreateTeam_ok_shape (s0 : Store) (producer : Option Producer) (name : String)
    (L : List UUID) (creator : UUID) (fresh now : Nat) (team : Team)
    (h : (TeamService.CreateTeam s0 producer name L creator fresh now).1.team = some team) :
    team = { ID := fresh, TeamName := name, CreatedAt := now, UpdatedAt := now } ∧
    TeamRepository.CreateTeam s0
        { ID := 0, TeamName := name, CreatedAt := 0, UpdatedAt := 0 } fresh now =
      .ok (team, { s0 with teams := s0.teams ++ [team] }) ∧
    TeamRepository.AddMemberToTeam { s0 with teams := s0.teams ++ [team] }
        { TeamID := fresh, UserID := creator, Role := "MAIN_MANAGER" } =
      .ok { s0 with
            teams := s0.teams ++ [team],
            rosters := s0.rosters ++
              [{ TeamID := fresh, UserID := creator, Role := "MAIN_MANAGER" }] } ∧
    TeamService.CreateTeam s0 producer name L creator fresh now =
      (if L.length = 0 then
        ({ team := some team, failedMembers := [], err := none },
          { s0 with
            teams := s0.teams ++ [team],
            rosters := s0.rosters ++
              [{ TeamID := fresh, UserID := creator, Role := "MAIN_MANAGER" }] }, [])
      else
        ({ team := some team,
           failedMembers := (TeamService.AddMembersToTeam
             { s0 with
               teams := s0.teams ++ [team],
               rosters := s0.rosters ++
                 [{ TeamID := fresh, UserID := creator, Role := "MAIN_MANAGER" }] }
             producer fresh L creator).1.failedMembers,
           err := none },
         (TeamService.AddMembersToTeam
             { s0 with
               teams := s0.teams ++ [team],
               rosters := s0.rosters ++
                 [{ TeamID := fresh, UserID := creator, Role := "MAIN_MANAGER" }] }
             producer fresh L creator).2.1,
         (TeamService.AddMembersToTeam
             { s0 with
               teams := s0.teams ++ [team],
               rosters := s0.rosters ++
                 [{ TeamID := fresh, UserID := creator, Role := "MAIN_MANAGER" }] }
             producer fresh L creator).2.2)) := by
  cases hrepo : TeamRepository.CreateTeam s0
      { ID := 0, TeamName := name, CreatedAt := 0, UpdatedAt := 0 } fresh now with
  | error e =>
    unfold TeamService.CreateTeam at h
    rw [hrepo] at h
    cases h
  | ok pair =>
    obtain ⟨tm, sA⟩ := pair
    have hshape : tm = { ID := fresh, TeamName := name, CreatedAt := now, UpdatedAt := now } ∧
        sA = { s0 with teams := s0.teams ++ [tm] } := by
      unfold TeamRepository.CreateTeam at hrepo
      cases hf : s0.faults.createTeam with
      | some e => rw [hf] at hrepo; cases hrepo
      | none =>
        simp only [hf] at hrepo
        split at hrepo
        · cases hrepo
        · simp only [Except.ok.injEq, Prod.mk.injEq] at hrepo
          obtain ⟨h1, h2⟩ := hrepo
          have h3 : tm =
              { ID := fresh, TeamName := name, CreatedAt := now, UpdatedAt := now } := by
            rw [← h1]; simp [Team.BeforeCreate]
          refine ⟨h3, ?_⟩
          rw [← h2, h1]
    obtain ⟨htm, hsA⟩ := hshape
    have hid : tm.ID = fresh := by rw [htm]
    cases hadd : TeamRepository.AddMemberToTeam sA
        { TeamID := tm.ID, UserID := creator, Role := "MAIN_MANAGER" } with
    | error e =>
      unfold TeamService.CreateTeam at h
      rw [hrepo] at h
      simp only [hadd] at h
      cases h
    | ok sB =>
      have hsB := AddMemberToTeam_ok sA sB _ hadd
      have hres : TeamService.CreateTeam s0 producer name L creator fresh now =
          (if L.length = 0 then
            ({ team := some tm, failedMembers := [], err := none }, sB, [])
          else
            ({ team := some tm,
               failedMembers :=
                 (TeamService.AddMembersToTeam sB producer tm.ID L creator).1.failedMembers,
               err := none },
             (TeamService.AddMembersToTeam sB producer tm.ID L creator).2.1,
             (TeamService.AddMembersToTeam sB producer tm.ID L creator).2.2)) := by
        unfold TeamService.CreateTeam
        rw [hrepo]
        simp only [hadd]
      have hteam : team = tm := by
        rw [hres] at h
        by_cases hL : L.length = 0
        · simp only [hL, if_true, Option.some.injEq] at h
          exact h.symm
        · simp only [hL, if_false, Option.some.injEq] at h
          exact h.symm
      subst hteam
      have hsB2 : sB = { s0 with
          teams := s0.teams ++ [team],
          rosters := s0.rosters ++
            [{ TeamID := fresh, UserID := creator, Role := "MAIN_MANAGER" }] } := by
        rw [hsB, hsA, hid]
      refine ⟨htm, ?_, ?_, ?_⟩
      · rw [hsA]
      · rw [← hsA, ← hid, hadd, hsB2, hid]
      · rw [hres, hsB2, hid]

/-- The store a successful CreateTeam leaves satisfies the leadership
invariant of the new team, when no roster row carried the new team
identifier before. -/
theorem LeaderInv_created (s0 : Store) (producer : Option Producer) (name : String)
    (L : List UUID) (creator : UUID) (fresh now : Nat) (team : Team)
    (h : (TeamService.CreateTeam s0 producer name L creator fresh now).1.team = some team)
    (hfresh : ∀ r ∈ s0.rosters, r.TeamID ≠ fresh) :
    LeaderInv (TeamService.CreateTeam s0 producer name L creator fresh now).2.1 fresh
      creator := by
  obtain ⟨_, _, _, hres⟩ := CreateTeam_ok_shape s0 producer name L creator fresh now team h
  have hB : LeaderInv
      { s0 with
        teams := s0.teams ++ [team],
        rosters := s0.rosters ++
          [{ TeamID := fresh, UserID := creator, Role := "MAIN_MANAGER" }] }
      fresh creator := by
    unfold LeaderInv
    show (s0.rosters ++
        [({ TeamID := fresh, UserID := creator, Role := "MAIN_MANAGER" } : Roster)]).filter
      (leaderPred fresh creator) = _
    have hnil : s0.rosters.filter (leaderPred fresh creator) = [] := by
      rw [List.filter_eq_nil_iff]
      intro r hr hp
      simp only [leaderPred, Bool.and_eq_true, beq_iff_eq] at hp
      exact hfresh r hr hp.1
    rw [List.filter_append, hnil]
    simp [leaderPred]
  rw [hres]
  by_cases hL : L.length = 0
  · simp only [hL, if_true]
    exact hB
  · simp only [hL, if_false]
    exact LeaderInv_step _ fresh creator hB (.addMembers producer fresh L creator)

/-- C21: after a successful CreateTeam, the new team identifier being one no
roster row carried before, every sequence of AddMembersToTeam,
RemoveMemberFromTeam and RemoveManagerFromTeam calls, by any actors and with
any arguments, leads to a store in which the team has exactly one roster row
with role MAIN_MANAGER, the row of the creator. -/
theorem C21_exactly_one_main_manager (s0 : Store) (producer : Option Producer)
    (name : String) (L : List UUID) (creator : UUID) (fresh now : Nat) (team : Team)
    (h : (TeamService.CreateTeam s0 producer name L creator fresh now).1.team = some team)
    (hfresh : ∀ r ∈ s0.rosters, r.TeamID ≠ fresh) (ops : List TeamOp) :
    mainManagers
        (runOps (TeamService.CreateTeam s0 producer name L creator fresh now).2.1 ops)
        team.ID =
      [{ TeamID := team.ID, UserID := creator, Role := "MAIN_MANAGER" }] := by
  have hteam := (CreateTeam_ok_shape s0 producer name L creator fresh now team h).1
  have hid : team.ID = fresh := by rw [hteam]
  rw [hid]
  exact LeaderInv_mainManagers _ fresh creator
    (LeaderInv_run ops _ fresh creator
      (LeaderInv_created s0 producer name L creator fresh now team h hfresh))

/-- Witness of C21: user 30 creates team "Ops" (identifier 2) with members
31 and 40 on the example database; then member 31 tries to remove 30, 30
tries to remove 30 as a manager, 30 adds 30 and 41, and 30 removes 31. -/
theorem C21_exactly_one_main_manager_witness :
    (TeamService.CreateTeam demoStore none "Ops" [31, 40] 30 2 99).1.team =
      some { ID := 2, TeamName := "Ops", CreatedAt := 99, UpdatedAt := 99 } ∧
    (∀ r ∈ demoStore.rosters, r.TeamID ≠ 2) ∧
    mainManagers
        (runOps (TeamService.CreateTeam demoStore none "Ops" [31, 40] 30 2 99).2.1
          [.removeMember none 2 30 31, .removeManager none 2 30 30,
           .addMembers none 2 [30, 41] 30, .removeMember none 2 31 30])
        2 =
      [{ TeamID := 2, UserID := 30, Role := "MAIN_MANAGER" }] :=
  ⟨by decide, by decide,
   C21_exactly_one_main_manager demoStore none "Ops" [31, 40] 30 2 99
     { ID := 2, TeamName := "Ops", CreatedAt := 99, UpdatedAt := 99 } (by decide) (by decide)
     [.removeMember none 2 30 31, .removeManager none 2 30 30,
      .addMembers none 2 [30, 41] 30, .removeMember none 2 31 30]⟩

/-! ## Creating a team -/

/-- In the store CreateTeam hands to AddMembersToTeam, the new team having
had no roster row before, the only user on the roster of the team is the
creator. -/
theorem onRoster_created (s0 : Store) (team : Team) (fresh creator u : UUID)
    (hfresh : ∀ r ∈ s0.rosters, r.TeamID ≠ fresh) :
    onRoster
        { s0 with
          teams := s0.teams ++ [team],
          rosters := s0.rosters ++
            [{ TeamID := fresh, UserID := creator, Role := "MAIN_MANAGER" }] }
        fresh u = (u == creator) := by
  unfold onRoster
  show (s0.rosters ++
      [({ TeamID := fresh, UserID := creator, Role := "MAIN_MANAGER" } : Roster)]).any
    (fun r => r.TeamID == fresh && r.UserID == u) = _
  have hnone : s0.rosters.any (fun r => r.TeamID == fresh && r.UserID == u) = false := by
    rw [List.any_eq_false]
    intro r hr
    simp [hfresh r hr]
  rw [List.any_append, hnone]
  by_cases hu : u = creator
  · subst hu; simp
  · have hu2 : ¬ creator = u := fun h => hu h.symm
    simp [hu, hu2]

/-- In the store CreateTeam hands to AddMembersToTeam the role lookup of the
creator finds MAIN_MANAGER. -/
theorem creator_role_created (s0 : Store) (team : Team) (fresh creator : UUID)
    (hl : s0.faults.getUserRoleInTeam = none)
    (hfresh : ∀ r ∈ s0.rosters, r.TeamID ≠ fresh) :
    GetUserRoleInTeam
        { s0 with
          teams := s0.teams ++ [team],
          rosters := s0.rosters ++
            [{ TeamID := fresh, UserID := creator, Role := "MAIN_MANAGER" }] }
        fresh creator = .ok "MAIN_MANAGER" := by
  unfold GetUserRoleInTeam
  show (match s0.faults.getUserRoleInTeam with
    | some e => Except.error e
    | none =>
      match (s0.rosters ++
          [({ TeamID := fresh, UserID := creator, Role := "MAIN_MANAGER" } : Roster)]).find?
          (fun r : Roster => r.TeamID == fresh && r.UserID == creator) with
      | none => .error .recordNotFound
      | some member => .ok member.Role) = _
  have hnone : s0.rosters.find? (fun r => r.TeamID == fresh && r.UserID == creator) =
      none := by
    rw [List.find?_eq_none]
    intro r hr
    simp [hfresh r hr]
  rw [hl]
  simp [List.find?_append, hnone]

/-- C24: when the insert of the team row succeeds, no roster insert is
refused, the lookups of AddMembersToTeam do not fail and the new team
identifier is one no roster row carried before, CreateTeam returns the new
team and no error, the roster rows it adds are the MAIN_MANAGER row of the
creator C followed by one MEMBER row for each entry of L other than C, and
the failed-members list holds the occurrences of C in L.  Whatever happens
while the initial members are added, CreateTeam returns an error only when
the insert of the team row or the insert of the creator's row fails, and
then that error. -/
theorem C24_create_team (s0 : Store) (producer : Option Producer) (name : String)
    (L : List UUID) (creator : UUID) (fresh now : Nat) :
    (∀ (team : Team) (sA : Store),
      TeamRepository.CreateTeam s0
          { ID := 0, TeamName := name, CreatedAt := 0, UpdatedAt := 0 } fresh now =
        .ok (team, sA) →
      s0.faults.addMemberToTeam = none → s0.faults.addMemberToTeamFor = [] →
      s0.faults.getUserRoleInTeam = none → s0.faults.getTeamMembers = none →
      (∀ r ∈ s0.rosters, r.TeamID ≠ fresh) →
      (TeamService.CreateTeam s0 producer name L creator fresh now).1 =
        { team := some team, failedMembers := L.filter (fun u => u == creator),
          err := none } ∧
      team = { ID := fresh, TeamName := name, CreatedAt := now, UpdatedAt := now } ∧
      (TeamService.CreateTeam s0 producer name L creator fresh now).2.1.rosters =
        s0.rosters ++
          ({ TeamID := fresh, UserID := creator, Role := "MAIN_MANAGER" } ::
            (L.filter (fun u => !(u == creator))).map (memberRoster fresh)) ∧
      (creator ∈ L →
        creator ∈ (TeamService.CreateTeam s0 producer name L creator fresh now).1.failedMembers)) ∧
    (∀ e : Err, (TeamService.CreateTeam s0 producer name L creator fresh now).1.err = some e →
      TeamRepository.CreateTeam s0
          { ID := 0, TeamName := name, CreatedAt := 0, UpdatedAt := 0 } fresh now =
        .error e ∨
      ∃ (team : Team) (sA : Store),
        TeamRepository.CreateTeam s0
            { ID := 0, TeamName := name, CreatedAt := 0, UpdatedAt := 0 } fresh now =
          .ok (team, sA) ∧
        TeamRepository.AddMemberToTeam sA
            { TeamID := team.ID, UserID := creator, Role := "MAIN_MANAGER" } = .error e) := by
  constructor
  · intro team sA hrepo hi1 hi2 hl1 hl2 hfresh
    have hadd : ∀ r, ∃ sB, TeamRepository.AddMemberToTeam sA r = .ok sB := by
      intro r
      have hfa : sA.faults = s0.faults := by
        unfold TeamRepository.CreateTeam at hrepo
        cases hf : s0.faults.createTeam with
        | some e => rw [hf] at hrepo; cases hrepo
        | none =>
          simp only [hf] at hrepo
          split at hrepo
          · cases hrepo
          · simp only [Except.ok.injEq, Prod.mk.injEq] at hrepo
            rw [← hrepo.2]
      unfold TeamRepository.AddMemberToTeam
      rw [hfa, hi1, hi2]
      exact ⟨_, rfl⟩
    have hsome : (TeamService.CreateTeam s0 producer name L creator fresh now).1.team =
        some team := by
      obtain ⟨sB, hsB⟩ := hadd { TeamID := team.ID, UserID := creator, Role := "MAIN_MANAGER" }
      unfold TeamService.CreateTeam
      rw [hrepo]
      simp only [hsB]
      by_cases hL : L.length = 0 <;> simp [hL]
    obtain ⟨hteam, _, _, hres⟩ :=
      CreateTeam_ok_shape s0 producer name L creator fresh now team hsome
    have hfilter : ∀ l : List UUID, creator ∈ l → creator ∈ l.filter (fun u => u == creator) := by
      intro l hl
      exact List.mem_filter.mpr ⟨hl, by simp⟩
    by_cases hL : L.length = 0
    · have hnil : L = [] := List.length_eq_zero.mp hL
      subst hnil
      rw [hres]
      simp only [List.length_nil, if_true, List.filter_nil, List.map_nil]
      refine ⟨?_, hteam, ?_, ?_⟩
      · trivial
      · trivial
      · intro h; cases h
    · have hrefused : ∀ r : Roster, insertRefused
          { s0 with
            teams := s0.teams ++ [team],
            rosters := s0.rosters ++
              [{ TeamID := fresh, UserID := creator, Role := "MAIN_MANAGER" }] } r = false := by
        intro r
        show (match TeamRepository.AddMemberToTeam
          { s0 with
            teams := s0.teams ++ [team],
            rosters := s0.rosters ++
              [{ TeamID := fresh, UserID := creator, Role := "MAIN_MANAGER" }] } r with
          | .error _ => true
          | .ok _ => false) = false
        unfold TeamRepository.AddMemberToTeam
        simp only [hi1, hi2, List.find?_nil]
      rw [hres]
      simp only [hL, if_false]
      rw [AddMembersToTeam_manager _ producer fresh creator L "MAIN_MANAGER"
        (creator_role_created s0 team fresh creator hl1 hfresh) (Or.inr rfl) hl2]
      simp only [onRoster_created s0 team fresh creator _ hfresh, hrefused,
        Bool.false_eq_true, List.filter_false, List.map_nil, List.append_nil,
        Bool.not_false, List.filter_true, List.append_assoc, List.singleton_append]
      refine ⟨?_, hteam, ?_, ?_⟩
      · trivial
      · trivial
      · exact hfilter L
  · intro e he
    cases hrepo : TeamRepository.CreateTeam s0
        { ID := 0, TeamName := name, CreatedAt := 0, UpdatedAt := 0 } fresh now with
    | error e1 =>
      left
      unfold TeamService.CreateTeam at he
      rw [hrepo] at he
      simp only [Option.some.injEq] at he
      rw [he]
    | ok pair =>
      obtain ⟨team, sA⟩ := pair
      right
      refine ⟨team, sA, rfl, ?_⟩
      cases hadd : TeamRepository.AddMemberToTeam sA
          { TeamID := team.ID, UserID := creator, Role := "MAIN_MANAGER" } with
      | error e1 =>
        unfold TeamService.CreateTeam at he
        rw [hrepo] at he
        simp only [hadd, Option.some.injEq] at he
        rw [he]
      | ok sB =>
        unfold TeamService.CreateTeam at he
        rw [hrepo] at he
        simp only [hadd] at he
        by_cases hL : L.length = 0 <;> simp [hL] at he

/-- Witness of C24: user 30 creates team "Ops" (identifier 2) on the example
database with the list [30, 31, 40]. -/
theorem C24_create_team_witness :
    (TeamService.CreateTeam demoStore none "Ops" [30, 31, 40] 30 2 99).1 =
      { team := some { ID := 2, TeamName := "Ops", CreatedAt := 99, UpdatedAt := 99 },
        failedMembers := [30], err := none } ∧
    (TeamService.CreateTeam demoStore none "Ops" [30, 31, 40] 30 2 99).2.1.rosters =
      demoStore.rosters ++
        [{ TeamID := 2, UserID := 30, Role := "MAIN_MANAGER" },
         { TeamID := 2, UserID := 31, Role := "MEMBER" },
         { TeamID := 2, UserID := 40, Role := "MEMBER" }] := by
  have h := (C24_create_team demoStore none "Ops" [30, 31, 40] 30 2 99).1
    { ID := 2, TeamName := "Ops", CreatedAt := 99, UpdatedAt := 99 }
    { demoStore with
      teams := demoStore.teams ++
        [{ ID := 2, TeamName := "Ops", CreatedAt := 99, UpdatedAt := 99 }] }
    (by decide) (by decide) (by decide) (by decide) (by decide) (by decide)
  exact ⟨h.1, h.2.2.1⟩

/-! ## Counts and notifications of AddMembersToTeam -/

/-- C25 fails on the code: with a producer configured, main manager 10 adds
users 20 and 21 to team 1 while the database refuses the roster row of user
20.  Only the row of 21 is inserted and 20 is reported as failed, yet a
member-added event is handed to the producer for 20 as well as for 21. -/
theorem C25_event_for_refused_insert :
    (TeamService.AddMembersToTeam refusingStore (some (fun _ => none)) 1 [20, 21] 10).1.failedMembers =
      [20] ∧
    (TeamService.AddMembersToTeam refusingStore (some (fun _ => none)) 1 [20, 21] 10).2.1.rosters =
      refusingStore.rosters ++ [{ TeamID := 1, UserID := 21, Role := "MEMBER" }] ∧
    (TeamService.AddMembersToTeam refusingStore (some (fun _ => none)) 1 [20, 21] 10).2.2 =
      [({ Kind := .EventMemberAdded, TeamID := 1, ActorID := 10, SubjectID := 20 }, none),
       ({ Kind := .EventMemberAdded, TeamID := 1, ActorID := 10, SubjectID := 21 }, none)] := by
  decide

/-- C28 fails on the code: main manager 10 adds users 20 and 21 to team 1
while the database refuses the roster row of user 20.  The call returns no
error, one row is inserted, and the call reports addedCount 2 and
failedCount 1 for a list of two users. -/
theorem C28_added_count_ignores_refused_insert :
    (TeamService.AddMembersToTeam refusingStore none 1 [20, 21] 10).1 =
      { addedCount := 2, failedCount := 1, failedMembers := [20], err := none } ∧
    (TeamService.AddMembersToTeam refusingStore none 1 [20, 21] 10).2.1.rosters.length =
      refusingStore.rosters.length + 1 ∧
    (TeamService.AddMembersToTeam refusingStore none 1 [20, 21] 10).1.addedCount +
        (TeamService.AddMembersToTeam refusingStore none 1 [20, 21] 10).1.failedCount ≠
      [20, 21].length := by
  decide

/-! ## Delete rights and read rights -/

/-- C30: in the example database user 12 owns folder 100 but not its note
201, no share lookup for 12 on the note or the folder finds a share, and 12
is not a manager of team 1; DeleteNote(201, 12) succeeds and removes the
note while GetNote(201, 12) is refused in the same store.  For folders,
every user for whom DeleteFolder passes its access check (the owner, or a
user for whom the manager lookup answers true) gets the folder from
GetFolder, and so does every user for whom DeleteFolder succeeds. -/
theorem C30_delete_without_read :
    (GetFolderByID demoStore 100 = .ok demoFolder ∧ demoFolder.OwnerID = 12 ∧
      GetNoteByID demoStore 201 = .ok demoNote2 ∧ demoNote2.FolderID = 100 ∧
      demoNote2.OwnerID ≠ 12 ∧
      GetShare demoStore 201 12 "note" = .error .recordNotFound ∧
      GetShare demoStore 100 12 "folder" = .error .recordNotFound ∧
      IsManager demoStore demoFolder.TeamID 12 = .ok false ∧
      AssetService.DeleteNote demoStore 201 12 =
        (.ok (), { demoStore with notes := [demoNote] }) ∧
      AssetService.GetNote demoStore 201 12 =
        .error (.msg "you don't have access to this note")) ∧
    (∀ (s : Store) (F U : UUID) (f : Folder), GetFolderByID s F = .ok f →
      (f.OwnerID = U ∨ IsManager s f.TeamID U = .ok true) →
      AssetService.GetFolder s F U = .ok f) ∧
    (∀ (s s2 : Store) (F U : UUID), AssetService.DeleteFolder s F U = (.ok (), s2) →
      ∃ f, AssetService.GetFolder s F U = .ok f) := by
  have hget : ∀ (s : Store) (F U : UUID) (f : Folder), GetFolderByID s F = .ok f →
      (f.OwnerID = U ∨ IsManager s f.TeamID U = .ok true) →
      AssetService.GetFolder s F U = .ok f := by
    intro s F U f hF hauth
    unfold AssetService.GetFolder
    rw [hF]
    by_cases ho : f.OwnerID = U
    · simp [ho]
    · have hm : IsManager s f.TeamID U = .ok true := by
        rcases hauth with h | h
        · exact absurd h ho
        · exact h
      cases hs : GetShare s F U "folder" <;> simp [ho, hm]
  refine ⟨by decide, hget, ?_⟩
  intro s s2 F U hdel
  cases hF : GetFolderByID s F with
  | error e =>
    unfold AssetService.DeleteFolder at hdel
    rw [hF] at hdel
    by_cases he : e = .recordNotFound <;> simp [he] at hdel
  | ok f =>
    refine ⟨f, hget s F U f hF ?_⟩
    by_cases ho : f.OwnerID = U
    · exact Or.inl ho
    · right
      unfold AssetService.DeleteFolder at hdel
      rw [hF] at hdel
      cases hm : IsManager s f.TeamID U with
      | error e => simp [ho, hm] at hdel
      | ok b =>
        cases b
        · simp [ho, hm] at hdel
        · rfl

/-- Witness of C30: in the example database manager 11, who may delete
folder 100, also gets it from GetFolder. -/
theorem C30_delete_without_read_witness :
    IsManager demoStore demoFolder.TeamID 11 = .ok true ∧
    AssetService.GetFolder demoStore 100 11 = .ok demoFolder :=
  ⟨by decide,
   C30_delete_without_read.2.1 demoStore 100 11 demoFolder (by decide) (Or.inr (by decide))⟩

/-! ## The identity service -/

/-- C29 fails on the code: the identity service answers the lookup of user
99 without transport error and with a null user; GetUserByID then reads a
field through the nil pointer and panics, and so does UserExists, instead of
returning "user not found" and (false, nil).  (A transport failure does come
back as the wrapped "failed to fetch user" error, from both methods.) -/
theorem C29_absent_user_nil_dereference :
    demoIdentity.user 99 = .ok none ∧
    UserService.GetUserByID demoIdentity 99 =
      .panic "invalid memory address or nil pointer dereference" ∧
    UserService.UserExists demoIdentity 99 =
      .panic "invalid memory address or nil pointer dereference" ∧
    UserService.GetUserByID downIdentity 99 =
      .error (.msg "failed to fetch user: connection refused") ∧
    UserService.UserExists downIdentity 99 =
      .error (.msg "failed to fetch user: connection refused") := by
  decide

/-! ## The cache in front of the roster -/

/-- Without a cache GetTeamMembers reads the roster of the team from the
store and resolves its user identifiers, in roster order, through the
identity service; an error of either step is returned. -/
theorem GetTeamMembers_no_cache (s : Store) (identity : IdentityService) (team : UUID) :
    (TeamService.GetTeamMembers s identity none team).1 =
      (match TeamRepository.GetTeamMembers s team with
        | .error e => .error e
        | .ok rosters =>
          UserService.GetUsersByIDs identity (rosters.map fun roster => roster.UserID)) := by
  unfold TeamService.GetTeamMembers
  have hnone : TeamService.cachedTeamMembers identity none team = (none, none) := rfl
  rw [hnone]
  cases TeamRepository.GetTeamMembers s team with
  | error e => rfl
  | ok rosters =>
    simp only
    cases UserService.GetUsersByIDs identity (rosters.map fun roster => roster.UserID) <;> rfl

/-- What the cache contributes to GetTeamMembers: nothing, when its read
fails, answers an empty list, or answers a list the identity service does not
resolve to any user. -/
theorem cachedTeamMembers_miss (identity : IdentityService) (tc : TeamCache) (team : UUID)
    (h : (∃ e, (TeamCache.GetMembers tc team).1 = .error e) ∨
      (TeamCache.GetMembers tc team).1 = .ok [] ∨
      (∃ ids, (TeamCache.GetMembers tc team).1 = .ok ids ∧
        ((∃ e, UserService.GetUsersByIDs identity ids = .error e) ∨
          UserService.GetUsersByIDs identity ids = .ok []))) :
    (TeamService.cachedTeamMembers identity (some tc) team).1 = none := by
  unfold TeamService.cachedTeamMembers
  cases hg : TeamCache.GetMembers tc team with
  | mk res tc1 =>
    rw [hg] at h
    simp only at h
    rcases h with ⟨e, he⟩ | he | ⟨ids, he, hu⟩
    · subst he; simp [hg]
    · subst he; simp [hg]
    · subst he
      by_cases hlen : ids.length > 0
      · rcases hu with ⟨e, hu⟩ | hu
        · simp [hg, hlen, hu]
        · simp [hg, hlen, hu]
      · simp [hg, hlen]

/-- C27: when the cache read fails, or answers an empty list (a miss or an
empty set), or answers a list the identity service cannot resolve to any
user, GetTeamMembers returns the roster of the team read from the store and
resolved through the identity service, or the error of the roster read or of
the identity service; this is also what it returns without a cache.
Nothing is assumed about the cache write, so this holds when the write
fails as well. -/
theorem C27_cache_failure_falls_back (s : Store) (identity : IdentityService)
    (tc : TeamCache) (team : UUID)
    (h : (∃ e, (TeamCache.GetMembers tc team).1 = .error e) ∨
      (TeamCache.GetMembers tc team).1 = .ok [] ∨
      (∃ ids, (TeamCache.GetMembers tc team).1 = .ok ids ∧
        ((∃ e, UserService.GetUsersByIDs identity ids = .error e) ∨
          UserService.GetUsersByIDs identity ids = .ok []))) :
    (TeamService.GetTeamMembers s identity (some tc) team).1 =
      (match TeamRepository.GetTeamMembers s team with
        | .error e => .error e
        | .ok rosters =>
          UserService.GetUsersByIDs identity (rosters.map fun roster => roster.UserID)) ∧
    (TeamService.GetTeamMembers s identity none team).1 =
      (match TeamRepository.GetTeamMembers s team with
        | .error e => .error e
        | .ok rosters =>
          UserService.GetUsersByIDs identity (rosters.map fun roster => roster.UserID)) ∧
    (TeamService.GetTeamMembers s identity (some tc) team).1 =
      (TeamService.GetTeamMembers s identity none team).1 := by
  have hmiss := cachedTeamMembers_miss identity tc team h
  have hplain := GetTeamMembers_no_cache s identity team
  have hcached : (TeamService.GetTeamMembers s identity (some tc) team).1 =
      (match TeamRepository.GetTeamMembers s team with
        | .error e => .error e
        | .ok rosters =>
          UserService.GetUsersByIDs identity (rosters.map fun roster => roster.UserID)) := by
    unfold TeamService.GetTeamMembers
    cases hc : TeamService.cachedTeamMembers identity (some tc) team with
    | mk found cache =>
      rw [hc] at hmiss
      simp only at hmiss
      subst hmiss
      simp only
      cases TeamRepository.GetTeamMembers s team with
      | error e => rfl
      | ok rosters =>
        simp only
        cases UserService.GetUsersByIDs identity (rosters.map fun roster => roster.UserID) <;>
          rfl
  exact ⟨hcached, hplain, by rw [hcached, hplain]⟩

/-- Witness of C27: with a cache whose server fails on every command, the
members of team 1 of the example database are read from the roster and
resolved by the identity service, as without a cache; when the identity
service is down, its error is returned in both cases. -/
theorem C27_cache_failure_falls_back_witness :
    (TeamCache.GetMembers brokenCache 1).1 = .error (.unavailable 8) ∧
    (TeamCache.StoreMembers brokenCache 1 [10, 11, 12, 13, 14]).1 = some (.unavailable 9) ∧
    (TeamService.GetTeamMembers demoStore demoIdentity (some brokenCache) 1).1 =
      .ok ([10, 11, 12, 13, 14].map fun id =>
        { ID := id, Username := "user", Email := "user@example.org", Role := "USER" }) ∧
    (TeamService.GetTeamMembers demoStore downIdentity (some brokenCache) 1).1 =
      .error (.msg "failed to fetch users: connection refused") ∧
    (TeamService.GetTeamMembers demoStore demoIdentity (some brokenCache) 1).1 =
      (TeamService.GetTeamMembers demoStore demoIdentity none 1).1 :=
  ⟨by decide, by decide, by decide, by decide,
   (C27_cache_failure_falls_back demoStore demoIdentity brokenCache 1
     (Or.inl ⟨.unavailable 8, by decide⟩)).2.2⟩

/-! ## Cache round trip -/

/-- The character of a digit is a digit and carries its value. -/
theorem digitChar_spec : ∀ d, d < 10 →
    (digitChar d).isDigit = true ∧ (digitChar d).toNat - 48 = d := by
  decide

/-- The decimal digits of a number are a non-empty list of digits whose
value is the number. -/
theorem decimalDigits_spec (fuel : Nat) :
    ∀ n, n < fuel →
      decimalDigits fuel n ≠ [] ∧
      (decimalDigits fuel n).all Char.isDigit = true ∧
      (decimalDigits fuel n).foldl (fun a d => 10 * a + (d.toNat - 48)) 0 = n := by
  induction fuel with
  | zero => intro n hn; omega
  | succ fuel ih =>
    intro n hn
    unfold decimalDigits
    by_cases hlt : n < 10
    · obtain ⟨h1, h2⟩ := digitChar_spec n hlt
      simp [hlt, h1, h2]
    · have hdiv : n / 10 < fuel := by omega
      obtain ⟨_, hall, hval⟩ := ih (n / 10) hdiv
      obtain ⟨h1, h2⟩ := digitChar_spec (n % 10) (Nat.mod_lt n (by decide))
      simp only [hlt, if_false]
      refine ⟨by simp, ?_, ?_⟩
      · rw [List.all_append, hall]
        simp [h1]
      · rw [List.foldl_append, hval]
        simp only [List.foldl_cons, List.foldl_nil, h2]
        omega

/-- Parsing the text of an identifier gives the identifier back. -/
theorem uuidParse_uuidString (id : UUID) : uuidParse (uuidString id) = .ok id := by
  obtain ⟨hne, hall, hval⟩ := decimalDigits_spec (id + 1) id (Nat.lt_succ_self id)
  unfold uuidParse uuidString
  cases hcs : decimalDigits (id + 1) id with
  | nil => exact absurd hcs hne
  | cons c cs =>
    rw [hcs] at hall hval
    simp only [hall, if_true, hval]

/-- The members SADD leaves in a set: the old members and the new ones. -/
theorem mem_foldl_insertNew (members : List String) :
    ∀ (acc : List String) (m : String),
      m ∈ members.foldl insertNew acc ↔ m ∈ acc ∨ m ∈ members := by
  induction members with
  | nil => intro acc m; simp
  | cons x xs ih =>
    intro acc m
    rw [List.foldl_cons, ih]
    unfold insertNew
    by_cases hx : x ∈ acc
    · have hc : acc.contains x = true := by simpa using hx
      simp only [hc, if_true, List.mem_cons]
      constructor
      · rintro (h | h)
        · exact Or.inl h
        · exact Or.inr (Or.inr h)
      · rintro (h | h | h)
        · exact Or.inl h
        · subst h; exact Or.inl hx
        · exact Or.inr h
    · have hc : acc.contains x = false := by simpa using hx
      simp only [hc, Bool.false_eq_true, if_false, List.mem_append, List.mem_cons,
        List.not_mem_nil, or_false]
      tauto

/-- SADD keeps a set free of repeated members. -/
theorem nodup_foldl_insertNew (members : List String) :
    ∀ acc : List String, acc.Nodup → (members.foldl insertNew acc).Nodup := by
  induction members with
  | nil => intro acc h; exact h
  | cons x xs ih =>
    intro acc h
    rw [List.foldl_cons]
    apply ih
    unfold insertNew
    by_cases hx : x ∈ acc
    · have hc : acc.contains x = true := by simpa using hx
      simp only [hc, if_true]
      exact h
    · have hc : acc.contains x = false := by simpa using hx
      simp only [hc, Bool.false_eq_true, if_false]
      rw [List.nodup_append]
      refine ⟨h, List.nodup_singleton x, ?_⟩
      intro a ha hb
      rw [List.mem_singleton] at hb
      subst hb
      exact hx ha

/-- An identifier is in the parsed list exactly when a member parses to
it. -/
theorem mem_parseMembers (members : List String) (x : UUID) :
    x ∈ TeamCache.parseMembers members ↔ ∃ m ∈ members, uuidParse m = .ok x := by
  induction members with
  | nil => simp [TeamCache.parseMembers]
  | cons m rest ih =>
    unfold TeamCache.parseMembers
    cases hm : uuidParse m with
    | error e =>
      simp only [ih, List.mem_cons, exists_eq_or_imp, hm]
      constructor
      · intro h; exact Or.inr h
      · rintro (h | h)
        · cases h
        · exact h
    | ok y =>
      simp only [List.mem_cons, ih, exists_eq_or_imp, hm, Except.ok.injEq]
      constructor
      · rintro (h | h)
        · exact Or.inl h.symm
        · exact Or.inr h
      · rintro (h | h)
        · exact Or.inl h.symm
        · exact Or.inr h

/-- Members that are texts of identifiers, without repeats, parse to
identifiers without repeats. -/
theorem nodup_parseMembers (members : List String) (hnd : members.Nodup)
    (htext : ∀ m ∈ members, ∃ id, m = uuidString id) :
    (TeamCache.parseMembers members).Nodup := by
  induction members with
  | nil => simp [TeamCache.parseMembers]
  | cons m rest ih =>
    obtain ⟨id, hid⟩ := htext m (List.mem_cons_self _ _)
    have hrest := ih (List.nodup_cons.mp hnd).2
      (fun m2 hm2 => htext m2 (List.mem_cons_of_mem _ hm2))
    unfold TeamCache.parseMembers
    rw [hid, uuidParse_uuidString]
    simp only
    rw [List.nodup_cons]
    refine ⟨?_, hrest⟩
    intro hmem
    rw [mem_parseMembers] at hmem
    obtain ⟨m2, hm2, hp⟩ := hmem
    obtain ⟨id2, hid2⟩ := htext m2 (List.mem_cons_of_mem _ hm2)
    rw [hid2, uuidParse_uuidString] at hp
    simp only [Except.ok.injEq] at hp
    subst hp
    have hsame : m2 = m := by rw [hid, hid2]
    rw [hsame] at hm2
    exact (List.nodup_cons.mp hnd).1 hm2

/-- After DEL, SADD and EXPIRE on a key, SMEMBERS of the key answers the
members SADD put into a new set. -/
theorem smembers_after_store (r : Redis) (key : String) (members : List String)
    (hsm : r.smembersErr = none) :
    (((r.del key).sadd key members).expire key 86400).smembers key =
      .ok (members.foldl insertNew []) := by
  have hnokey : ∀ e ∈ r.sets.filter (fun e : RedisSet => !(e.key == key)), ¬ e.key = key := by
    intro e he
    simpa using (List.mem_filter.mp he).2
  have hany : ((r.del key).sets.any fun e => e.key == key) = false := by
    rw [List.any_eq_false]
    intro e he
    simpa using hnokey e he
  have hfind : ∀ (l : List RedisSet), (∀ e ∈ l, ¬ e.key = key) →
      ((l ++ [RedisSet.mk key (members.foldl insertNew []) none]).map
        (fun e : RedisSet => if e.key == key then { e with ttl := some 86400 } else e)).find?
        (fun e : RedisSet => e.key == key) = some (RedisSet.mk key (members.foldl insertNew []) (some 86400)) := by
    intro l
    induction l with
    | nil => intro _; simp
    | cons x xs ih =>
      intro hl
      have hx : ¬ x.key = key := hl x (List.mem_cons_self _ _)
      have hxs := ih (fun e he => hl e (List.mem_cons_of_mem _ he))
      simp only [List.cons_append, List.map_cons, beq_iff_eq, hx, if_false]
      rw [List.find?_cons_of_neg _ (by simpa using hx)]
      simpa using hxs
  have hsets : (((r.del key).sadd key members).expire key 86400).sets =
      (r.sets.filter (fun e : RedisSet => !(e.key == key)) ++ [RedisSet.mk key (members.foldl insertNew []) none]).map
        (fun e : RedisSet => if e.key == key then { e with ttl := some 86400 } else e) := by
    unfold Redis.expire Redis.sadd
    simp only [hany, Bool.false_eq_true, if_false]
    rfl
  have hserr : (((r.del key).sadd key members).expire key 86400).smembersErr = none := by
    unfold Redis.expire Redis.sadd
    simp only [hany, Bool.false_eq_true, if_false]
    exact hsm
  unfold Redis.smembers
  rw [hserr, hsets, hfind _ hnokey]

/-- C26: with a Redis client whose commands do not fail, and whatever sets
the server held before, StoreMembers(team, ids) for a list that is not empty
followed by GetMembers(team) returns a list without repeats whose elements
are exactly the ids; StoreMembers with the empty list returns no error and
leaves the server without a set under the key of the team. -/
theorem C26_cache_round_trip (tc : TeamCache) (r : Redis) (team : UUID)
    (hc : tc.client = some r) (hexec : r.execErr = none) (hsm : r.smembersErr = none) :
    (∀ ids : List UUID, ids ≠ [] →
      (TeamCache.StoreMembers tc team ids).1 = none ∧
      ∃ result : List UUID,
        (TeamCache.GetMembers (TeamCache.StoreMembers tc team ids).2 team).1 = .ok result ∧
        result.Nodup ∧ ∀ x, x ∈ result ↔ x ∈ ids) ∧
    ((TeamCache.StoreMembers tc team []).1 = none ∧
      ∃ r2 : Redis, (TeamCache.StoreMembers tc team []).2.client = some r2 ∧
        ∀ e ∈ r2.sets, e.key ≠ TeamCache.GetTeamMembersKey team) := by
  constructor
  · intro ids hne
    have hlen : ids.length > 0 := List.length_pos.mpr hne
    have hstore : TeamCache.StoreMembers tc team ids =
        (none, TeamCache.mk (some
          (((r.del (TeamCache.GetTeamMembersKey team)).sadd (TeamCache.GetTeamMembersKey team)
            (ids.map uuidString)).expire (TeamCache.GetTeamMembersKey team) 86400))) := by
      unfold TeamCache.StoreMembers
      rw [hc]
      simp only [hexec, hlen, if_true]
    rw [hstore]
    refine ⟨rfl, TeamCache.parseMembers ((ids.map uuidString).foldl insertNew []), ?_, ?_, ?_⟩
    · unfold TeamCache.GetMembers
      simp only [smembers_after_store r _ _ hsm]
    · apply nodup_parseMembers
      · exact nodup_foldl_insertNew _ [] List.nodup_nil
      · intro m hm
        rw [mem_foldl_insertNew] at hm
        rcases hm with hm | hm
        · cases hm
        · rw [List.mem_map] at hm
          obtain ⟨id, _, rfl⟩ := hm
          exact ⟨id, rfl⟩
    · intro x
      rw [mem_parseMembers]
      constructor
      · rintro ⟨m, hm, hp⟩
        rw [mem_foldl_insertNew] at hm
        rcases hm with hm | hm
        · cases hm
        · rw [List.mem_map] at hm
          obtain ⟨id, hid, rfl⟩ := hm
          rw [uuidParse_uuidString] at hp
          simp only [Except.ok.injEq] at hp
          rw [← hp]
          exact hid
      · intro hx
        refine ⟨uuidString x, ?_, uuidParse_uuidString x⟩
        rw [mem_foldl_insertNew]
        exact Or.inr (List.mem_map.mpr ⟨x, hx, rfl⟩)
  · have hstore : TeamCache.StoreMembers tc team [] =
        (none, TeamCache.mk (some (r.del (TeamCache.GetTeamMembersKey team)))) := by
      unfold TeamCache.StoreMembers
      rw [hc]
      simp only [hexec]
      rfl
    rw [hstore]
    refine ⟨rfl, _, rfl, ?_⟩
    intro e he
    have := (List.mem_filter.mp he).2
    simpa using this

/-- Witness of C26: on a server that holds the stale set ["77"] for team 1,
storing [12, 13, 12] and reading back gives 12 and 13, once each. -/
theorem C26_cache_round_trip_witness :
    (TeamCache.GetMembers staleCache 1).1 = .ok [77] ∧
    (TeamCache.GetMembers (TeamCache.StoreMembers staleCache 1 [12, 13, 12]).2 1).1 =
      .ok [12, 13] ∧
    (∃ result : List UUID,
      (TeamCache.GetMembers (TeamCache.StoreMembers staleCache 1 [12, 13, 12]).2 1).1 =
        .ok result ∧
      result.Nodup ∧ ∀ x, x ∈ result ↔ x ∈ [12, 13, 12]) :=
  ⟨by decide, by decide,
   ((C26_cache_round_trip staleCache
      (Redis.mk [RedisSet.mk (TeamCache.GetTeamMembersKey 1) ["77"] (some 5)] none none)
      1 rfl rfl rfl).1 [12, 13, 12] (by decide)).2⟩

end GoService
